import Mathlib

/-!
# RooMinimizerOpt: parameter synchronisation, objective evaluation, driver

A shallow embedding of `src/RooMinimizerOpt.cc`.

* Parameter objects live in a heap (`Ptr → RooAbsArg`); the parameter lists
  (`_floatParamList`, `_constParamList`, `_vars`) hold addresses, so that a
  write through `_vars` is seen by every list, as with the C++ pointers.
* The reference snapshots (`_initFloatParamList`, `_initConstParamList`) own
  clones; they are lists of records.
* `Double_t` is `ℚ` (exact arithmetic). `Int_t` values are `Int`. The counter
  `_numBadNLL`, which grows with every erroneous evaluation of a run, is
  incremented as a 32-bit two's-complement integer (`Int_t.wrap`); `_nDim`
  follows the size of the floating list and is left unwrapped.
* Message-service output (`oocoutW`, `oocoutI`, `coutW`) is kept as a list of
  `Msg` records. Raw stream output (`cout`, `_logfile`) has no effect on the
  state and is left out.
* The minimizer engine, the objective function and the range clipping of a
  parameter are external collaborators; they appear as arguments.
-/

/-- Address of a parameter object. -/
abbrev Ptr := Nat

/-- The null address (filler of `std::vector::resize`). -/
def nullPtr : Ptr := 0

/-- A parameter object as seen through the `RooAbsArg`/`RooRealVar` accessors
used by the source. `isRooRealVar` tells whether `dynamic_cast<RooRealVar*>`
succeeds on the object. -/
structure RooAbsArg where
  GetName : String
  ClassName : String
  isRooRealVar : Bool
  getVal : ℚ
  hasMin : Bool
  getMin : ℚ
  hasMax : Bool
  getMax : ℚ
  getError : ℚ
  isConstant : Bool
deriving DecidableEq, Inhabited

/-- The parameter objects of the model, by address. -/
abbrev Heap := Ptr → RooAbsArg

/-- The test `par->IsA()->InheritsFrom(RooRealVar::Class())`: the run-time class
of an object is `RooRealVar` or derives from it exactly when the dynamic cast
to `RooRealVar*` succeeds. -/
def RooAbsArg.IsA_InheritsFrom_RooRealVar (a : RooAbsArg) : Bool :=
  a.isRooRealVar

/-- The cast `dynamic_cast<RooRealVar*>(list->at(index))` on a list of addresses:
`at` yields null beyond the end, and the cast yields null on any other class. -/
def dynamic_cast_RooRealVar (heap : Heap) (a : Option Ptr) : Option Ptr :=
  match a with
  | none => none
  | some p => if (heap p).isRooRealVar then some p else none

/-- The same cast on an element of a snapshot list (owned clones). -/
def dynamic_cast_RooRealVar_clone (a : Option RooAbsArg) : Option RooAbsArg :=
  match a with
  | none => none
  | some c => if c.isRooRealVar then some c else none

/-- Modelled from the spec: `RooAbsCollection::remove(var)` is library code outside
the repository; every entry with the address of `var` leaves the list. -/
def RooArgList.remove (l : List Ptr) (var : Ptr) : List Ptr :=
  l.filter (fun a => a != var)

/-- Modelled from the spec: `RooAbsCollection::add(var)` is library code outside
the repository; the address is appended to the list. -/
def RooArgList.add (l : List Ptr) (var : Ptr) : List Ptr :=
  l ++ [var]

/-- Modelled from the spec: `RooAbsCollection::find(name)` is library code outside
the repository; it yields the first entry with that name, or null. -/
def RooArgList.find (heap : Heap) (l : List Ptr) (name : String) : Option Ptr :=
  l.find? (fun a => (heap a).GetName == name)

/-- Modelled from the spec: `RooArgList::index(arg)` is library code outside the
repository; it yields the first position holding the address. -/
def RooArgList.index (l : List Ptr) (arg : Ptr) : Nat :=
  l.indexOf arg

/-- Modelled from the spec: `RooAbsCollection::operator=` is library code outside
the repository. The snapshot is refreshed from the live list: each clone whose
name is found in `other` takes over that object's value, error and constant flag. -/
def RooArgList.assign (heap : Heap) (snapshot : List RooAbsArg) (other : List Ptr) :
    List RooAbsArg :=
  snapshot.map (fun elem =>
    match RooArgList.find heap other elem.GetName with
    | none => elem
    | some theirs =>
      { elem with getVal := (heap theirs).getVal,
                  getError := (heap theirs).getError,
                  isConstant := (heap theirs).isConstant })

/-- Modelled from the spec: `ROOT::Fit::ParameterSettings` is an engine type outside
the repository; an entry is (name, value, step, lower, upper, fixed-flag), each
limit with a presence flag. -/
structure ParameterSettings where
  Name : String
  Value : ℚ
  StepSize : ℚ
  IsFixed : Bool
  LowerLimit : ℚ
  UpperLimit : ℚ
  HasLowerLimit : Bool
  HasUpperLimit : Bool
deriving DecidableEq, Inhabited

namespace ParameterSettings

/-- Constructor `ParameterSettings(name, val, err)`: an unbounded, free entry. -/
def mk3 (name : String) (val err : ℚ) : ParameterSettings :=
  { Name := name, Value := val, StepSize := err, IsFixed := false,
    LowerLimit := 0, UpperLimit := 0, HasLowerLimit := false, HasUpperLimit := false }

/-- Setter `SetLimits(low, up)`: both limits present. -/
def SetLimits (p : ParameterSettings) (low up : ℚ) : ParameterSettings :=
  { p with LowerLimit := low, UpperLimit := up, HasLowerLimit := true, HasUpperLimit := true }

/-- Setter `SetLowerLimit(low)`: a lower limit only. -/
def SetLowerLimit (p : ParameterSettings) (low : ℚ) : ParameterSettings :=
  { p with LowerLimit := low, UpperLimit := 0, HasLowerLimit := true, HasUpperLimit := false }

/-- Setter `SetUpperLimit(up)`: an upper limit only. -/
def SetUpperLimit (p : ParameterSettings) (up : ℚ) : ParameterSettings :=
  { p with LowerLimit := 0, UpperLimit := up, HasLowerLimit := false, HasUpperLimit := true }

/-- Constructor `ParameterSettings(name, val, err, min, max)`: a bounded, free entry. -/
def mk5 (name : String) (val err min max : ℚ) : ParameterSettings :=
  (mk3 name val err).SetLimits min max

/-- Setter `SetValue(val)`. -/
def SetValue (p : ParameterSettings) (val : ℚ) : ParameterSettings :=
  { p with Value := val }

/-- Setter `SetStepSize(err)`. -/
def SetStepSize (p : ParameterSettings) (err : ℚ) : ParameterSettings :=
  { p with StepSize := err }

/-- Method `Fix()`. -/
def Fix (p : ParameterSettings) : ParameterSettings :=
  { p with IsFixed := true }

/-- Method `Release()`. -/
def Release (p : ParameterSettings) : ParameterSettings :=
  { p with IsFixed := false }

end ParameterSettings

/-- Severity of a message-service line. -/
inductive MsgLevel where
  | Info
  | Warning
deriving DecidableEq, Repr

/-- One message-service line: its level, its fixed text, the parameter it names
(empty when none) and the numbers it prints. -/
structure Msg where
  level : MsgLevel
  text : String
  name : String
  args : List ℚ
deriving DecidableEq

/-- Values of `RooAbsReal::ErrorLoggingMode`. -/
inductive ErrorLoggingMode where
  | PrintErrors
  | CollectErrors
  | CountErrors
  | Ignore
deriving DecidableEq, Repr

/-- Values of `RooAbsArg::ConstOpCode` passed to `constOptimizeTestStatistic`. -/
inductive ConstOpCode where
  | Activate
  | DeActivate
  | ConfigChange
  | ValueChange
deriving DecidableEq, Repr

/-- State of a `RooMinimizerFcnOpt` together with the ambient state it reads and
writes: the parameter heap, the static evaluation-error state of
`RooAbsPdf`/`RooAbsReal`, the message log and the record of calls made to the
objective's `constOptimizeTestStatistic` hook. -/
structure RooMinimizerFcnOpt where
  heap : Heap
  _floatParamList : List Ptr
  _constParamList : List Ptr
  _initFloatParamList : List RooAbsArg
  _initConstParamList : List RooAbsArg
  _floatParamVec : List Ptr
  _nDim : Int
  _vars : List Ptr
  _vals : List ℚ
  _maxFCN : ℚ
  _numBadNLL : Int
  _printEvalErrors : Int
  _doEvalErrorWall : Bool
  _verbose : Bool
  evalError : Bool
  numEvalErrors : Nat
  evalErrorLoggingMode : ErrorLoggingMode
  msgs : List Msg
  constOptimizeTestStatistic : List ConstOpCode

/-- The running state of `Synchronize`: the object, the engine's settings vector
passed by reference, and the two local change flags. -/
structure SyncState where
  fcn : RooMinimizerFcnOpt
  parameters : List ParameterSettings
  constValChange : Bool
  constStatChange : Bool

namespace RooMinimizerFcnOpt

/-- The list `l` followed by `m` when `c` holds (a message printed under a flag). -/
def emit (c : Bool) (l : List Msg) (m : Msg) : List Msg :=
  if c then l ++ [m] else l

/-- Body of the migration loop (lines 442-478) at position `index`. -/
def Synchronize.constBody (verbose : Bool) (index : Nat) (st : SyncState) : SyncState :=
  match dynamic_cast_RooRealVar st.fcn.heap st.fcn._constParamList[index]? with
  | none => st
  | some par =>
    match dynamic_cast_RooRealVar_clone st.fcn._initConstParamList[index]? with
    | none => st
    | some oldpar =>
      let p := st.fcn.heap par
      -- Test if constness changed
      let st1 : SyncState :=
        if !p.isConstant then
          { st with
            fcn := { st.fcn with
              _constParamList := RooArgList.remove st.fcn._constParamList par,
              _floatParamList := RooArgList.add st.fcn._floatParamList par,
              _initFloatParamList := st.fcn._initFloatParamList ++ [oldpar],
              _initConstParamList := st.fcn._initConstParamList.eraseIdx index,
              _nDim := st.fcn._nDim + 1,
              msgs := emit verbose st.fcn.msgs
                ⟨.Info, "RooMinimizerFcn::synchronize: parameter is now floating.",
                  p.GetName, []⟩ },
            constStatChange := true }
        else st
      -- Test if value changed
      if p.getVal ≠ oldpar.getVal then
        { st1 with
          fcn := { st1.fcn with
            msgs := emit verbose st1.fcn.msgs
              ⟨.Info, "RooMinimizerFcn::synchronize: value of constant parameter changed",
                p.GetName, [oldpar.getVal, p.getVal]⟩ },
          constValChange := true }
      else st1

/-- The migration loop `for(index=0; index < _constParamList->getSize(); index++)`.
The size is read again at every turn; `fuel` bounds the number of turns. -/
def Synchronize.constLoop (verbose : Bool) : Nat → Nat → SyncState → SyncState
  | 0, _, st => st
  | fuel + 1, index, st =>
    if index < st.fcn._constParamList.length then
      Synchronize.constLoop verbose fuel (index + 1) (Synchronize.constBody verbose index st)
    else st

/-- Lower limit handed to the engine (lines 491, 508-509, 541). -/
def Synchronize.pmin (par : RooAbsArg) : ℚ :=
  if !par.isConstant then (if par.hasMin then par.getMin else 0) else par.getVal

/-- Upper limit handed to the engine (lines 492, 510-511, 542). -/
def Synchronize.pmax (par : RooAbsArg) : ℚ :=
  if !par.isConstant then (if par.hasMax then par.getMax else 0) else par.getVal

/-- Step size handed to the engine (lines 490, 513-534). -/
def Synchronize.pstep (par : RooAbsArg) : ℚ :=
  if !par.isConstant then
    if par.getError ≤ 0 then
      -- Floating parameter without error estimate
      if par.hasMin && par.hasMax then
        let pstep0 : ℚ := (1 / 10) * (Synchronize.pmax par - Synchronize.pmin par)
        -- Trim default choice of error if within 2 sigma of limit
        let pstep1 : ℚ :=
          if Synchronize.pmax par - par.getVal < 2 * pstep0 then
            (Synchronize.pmax par - par.getVal) / 2
          else if par.getVal - Synchronize.pmin par < 2 * pstep0 then
            (par.getVal - Synchronize.pmin par) / 2
          else pstep0
        -- If trimming results in zero error, restore default
        if pstep1 = 0 then (1 / 10) * (Synchronize.pmax par - Synchronize.pmin par)
        else pstep1
      else 1
    else par.getError
  else 0

/-- The settings entry pushed for a new index (lines 546-566). -/
def Synchronize.newEntry (par : RooAbsArg) : ParameterSettings :=
  if par.hasMin && par.hasMax then
    ParameterSettings.mk5 par.GetName par.getVal (Synchronize.pstep par)
      (Synchronize.pmin par) (Synchronize.pmax par)
  else
    let e := ParameterSettings.mk3 par.GetName par.getVal (Synchronize.pstep par)
    if par.hasMin then e.SetLowerLimit (Synchronize.pmin par)
    else if par.hasMax then e.SetUpperLimit (Synchronize.pmax par)
    else e

/-- The limits update of lines 622-628. -/
def Synchronize.setLimits (par : RooAbsArg) (e : ParameterSettings) : ParameterSettings :=
  if par.hasMin && par.hasMax then e.SetLimits (Synchronize.pmin par) (Synchronize.pmax par)
  else if par.hasMin then e.SetLowerLimit (Synchronize.pmin par)
  else if par.hasMax then e.SetUpperLimit (Synchronize.pmax par)
  else e

/-- Update of an existing settings entry `old` from the parameter (lines 568-652):
the new entry, the messages printed, and whether `constStatChange`, respectively
`constValChange`, is raised. -/
def Synchronize.updateEntry (verbose : Bool) (par : RooAbsArg) (old : ParameterSettings)
    (msgs : List Msg) : ParameterSettings × List Msg × Bool × Bool :=
  let oldFixed := old.IsFixed
  let oldVar := old.Value
  let oldVerr := old.StepSize
  let oldVlo := old.LowerLimit
  let oldVhi := old.UpperLimit
  let pstep := Synchronize.pstep par
  let pmin := Synchronize.pmin par
  let pmax := Synchronize.pmax par
  if par.isConstant && !oldFixed then
    -- Parameter changes floating -> constant : update only value if necessary
    let e1 := if oldVar ≠ par.getVal then old.SetValue par.getVal else old
    let m1 := emit (verbose && decide (oldVar ≠ par.getVal)) msgs
      ⟨.Info, "RooMinimizerFcn::synchronize: value of parameter changed",
        par.GetName, [oldVar, par.getVal]⟩
    let m2 := emit verbose m1
      ⟨.Info, "RooMinimizerFcn::synchronize: parameter is now fixed.", par.GetName, []⟩
    (e1.Fix, m2, true, false)
  else if par.isConstant && oldFixed then
    -- Parameter changes constant -> constant : update only value if necessary
    if oldVar ≠ par.getVal then
      (old.SetValue par.getVal,
        emit verbose msgs
          ⟨.Info, "RooMinimizerFcn::synchronize: value of fixed parameter changed",
            par.GetName, [oldVar, par.getVal]⟩,
        false, true)
    else (old, msgs, false, false)
  else
    -- Parameter changes constant -> floating
    let rel : Bool := !par.isConstant && oldFixed
    let e1 := if rel then old.Release else old
    let m1 := emit (rel && verbose) msgs
      ⟨.Info, "RooMinimizerFcn::synchronize: parameter is now floating.", par.GetName, []⟩
    -- Parameter changes constant -> floating : update all if necessary
    let e2 :=
      if oldVar ≠ par.getVal ∨ oldVlo ≠ pmin ∨ oldVhi ≠ pmax ∨ oldVerr ≠ pstep then
        Synchronize.setLimits par ((e1.SetValue par.getVal).SetStepSize pstep)
      else e1
    -- Inform user about changes in verbose mode
    let m2 := emit (verbose && decide (oldVar ≠ par.getVal)) m1
      ⟨.Info, "RooMinimizerFcn::synchronize: value of parameter changed",
        par.GetName, [oldVar, par.getVal]⟩
    let m3 := emit (verbose && decide (oldVlo ≠ pmin ∨ oldVhi ≠ pmax)) m2
      ⟨.Info, "RooMinimizerFcn::synchronize: limits of parameter changed",
        par.GetName, [oldVlo, oldVhi, pmin, pmax]⟩
    let m4 := emit (verbose && decide (oldVerr ≠ pstep ∧ oldVerr ≠ 0)) m3
      ⟨.Info, "RooMinimizerFcn::synchronize: error/step size of parameter changed",
        par.GetName, [oldVerr, pstep]⟩
    (e2, m4, rel, false)

/-- Body of the floating loop (lines 485-653) at position `index`: the new state
and the value of `index` at which the `for` statement goes on (after its `index++`). -/
def Synchronize.floatBody (verbose : Bool) (index : Nat) (st : SyncState) : SyncState × Nat :=
  match dynamic_cast_RooRealVar st.fcn.heap st.fcn._floatParamList[index]? with
  | none => (st, index + 1)
  | some p =>
    let par := st.fcn.heap p
    if !par.isConstant && !par.IsA_InheritsFrom_RooRealVar then
      -- Verify that floating parameter is indeed of type RooRealVar
      ({ st with
          fcn := { st.fcn with
            _floatParamList := RooArgList.remove st.fcn._floatParamList p,
            _nDim := st.fcn._nDim - 1,
            msgs := st.fcn.msgs ++
              [⟨.Warning, "RooMinimizerFcn::fit: Error, non-constant parameter is not of type RooRealVar, skipping",
                par.GetName, []⟩] } },
        index)
    else
      let msgs1 := emit (verbose && !par.isConstant && decide (par.getError ≤ 0)) st.fcn.msgs
        ⟨.Warning, "RooMinimizerFcn::synchronize: WARNING: no initial error estimate available: using",
          par.GetName, [Synchronize.pstep par]⟩
      match st.parameters[index]? with
      | none =>
        -- new parameter
        ({ st with
            fcn := { st.fcn with msgs := msgs1 },
            parameters := st.parameters ++ [Synchronize.newEntry par] },
          index + 1)
      | some old =>
        let r := Synchronize.updateEntry verbose par old msgs1
        ({ fcn := { st.fcn with msgs := r.2.1 },
           parameters := st.parameters.set index r.1,
           constValChange := st.constValChange || r.2.2.2,
           constStatChange := st.constStatChange || r.2.2.1 },
          index + 1)

/-- The floating loop `for(index=0; index < _floatParamList->getSize(); index++)`.
The size is read again at every turn; `fuel` bounds the number of turns. -/
def Synchronize.floatLoop (verbose : Bool) : Nat → Nat → SyncState → SyncState
  | 0, _, st => st
  | fuel + 1, index, st =>
    if index < st.fcn._floatParamList.length then
      let r := Synchronize.floatBody verbose index st
      Synchronize.floatLoop verbose fuel r.2 r.1
    else st

/-- Lines 436-653 of `Synchronize`: the migration loop, the refresh of the constant
snapshot and the floating loop. The result carries the two local change flags. -/
def Synchronize.passes (fcn : RooMinimizerFcnOpt) (parameters : List ParameterSettings)
    (verbose : Bool) : SyncState :=
  let st0 : SyncState :=
    { fcn := fcn, parameters := parameters, constValChange := false, constStatChange := false }
  let st1 := Synchronize.constLoop verbose fcn._constParamList.length 0 st0
  -- Update reference list
  let st2 : SyncState :=
    { st1 with fcn := { st1.fcn with
        _initConstParamList :=
          RooArgList.assign st1.fcn.heap st1.fcn._initConstParamList st1.fcn._constParamList } }
  Synchronize.floatLoop verbose st2.fcn._floatParamList.length 0 st2

/-- Lines 655-669 of `Synchronize`: the notification of the objective's optimizer. -/
def Synchronize.notify (optConst : Bool) (st : SyncState) : RooMinimizerFcnOpt :=
  if optConst then
    if st.constStatChange then
      { st.fcn with
        evalErrorLoggingMode := .PrintErrors,
        msgs := st.fcn.msgs ++
          [⟨.Info, "RooMinimizerFcn::synchronize: set of constant parameters changed, rerunning const optimizer",
            "", []⟩],
        constOptimizeTestStatistic := st.fcn.constOptimizeTestStatistic ++ [.ConfigChange] }
    else if st.constValChange then
      { st.fcn with
        evalErrorLoggingMode := .PrintErrors,
        msgs := st.fcn.msgs ++
          [⟨.Info, "RooMinimizerFcn::synchronize: constant parameter values changed, rerunning const optimizer",
            "", []⟩],
        constOptimizeTestStatistic := st.fcn.constOptimizeTestStatistic ++ [.ValueChange] }
    else { st.fcn with evalErrorLoggingMode := .PrintErrors }
  else st.fcn

/-- The call `updateFloatVec()` of the base class, outside the repository:
`_floatParamVec` is rebuilt from `_floatParamList`. -/
def updateFloatVec (fcn : RooMinimizerFcnOpt) : RooMinimizerFcnOpt :=
  { fcn with _floatParamVec := fcn._floatParamList }

/-- The call `std::vector::resize(n)`: cut to `n` entries or padded with `d`. -/
def resize {α : Type} (v : List α) (n : Nat) (d : α) : List α :=
  v.take n ++ List.replicate (n - v.length) d

/-- The loop of `initStdVects` (lines 685-690) over the remaining list entries,
writing at position `i` of both vectors; a non-`RooRealVar` entry throws. -/
def initStdVects.loop (heap : Heap) :
    List Ptr → Nat → List Ptr → List ℚ → Except String (List Ptr × List ℚ)
  | [], _, vars, vals => .ok (vars, vals)
  | a :: rest, i, vars, vals =>
    if (heap a).isRooRealVar then
      initStdVects.loop heap rest (i + 1) (vars.set i a) (vals.set i (heap a).getVal)
    else
      .error ("Float param not a RooRealVar but a " ++ (heap a).ClassName)

/-- The method `initStdVects` (lines 679-691). -/
def initStdVects (fcn : RooMinimizerFcnOpt) : Except String RooMinimizerFcnOpt :=
  let vars := resize fcn._vars fcn._floatParamList.length nullPtr
  let vals := resize fcn._vals vars.length 0
  match initStdVects.loop fcn.heap fcn._floatParamList 0 vars vals with
  | .error e => .error e
  | .ok r => .ok { fcn with _vars := r.1, _vals := r.2 }

/-- The method `Synchronize(parameters, optConst, verbose)` (lines 429-677). It
returns `0` and the updated settings vector, or throws from `initStdVects`. -/
def Synchronize (fcn : RooMinimizerFcnOpt) (parameters : List ParameterSettings)
    (optConst verbose : Bool) :
    Except String (Bool × RooMinimizerFcnOpt × List ParameterSettings) :=
  let st := Synchronize.passes fcn parameters verbose
  match initStdVects (updateFloatVec (Synchronize.notify optConst st)) with
  | .error e => .error e
  | .ok fcn1 => .ok (false, fcn1, st.parameters)


/-- What the floating loop leaves at a position of the settings vector whose
floating-list entry is `a` and whose former content is `o`. -/
def Synchronize.reconciled (heap : Heap) (a : Option Ptr) (o : Option ParameterSettings) :
    Option ParameterSettings :=
  match a with
  | none => o
  | some p =>
    match o with
    | none => some (Synchronize.newEntry (heap p))
    | some old => some (Synchronize.updateEntry false (heap p) old []).1

end RooMinimizerFcnOpt

/-! ## The objective evaluation `DoEval` -/

/-- The largest value of an `Int_t` (`kMaxInt` of `Rtypes.h`). -/
def kMaxInt : Int := 2147483647

/-- The smallest value of an `Int_t` (`kMinInt` of `Rtypes.h`). -/
def kMinInt : Int := -kMaxInt - 1

/-- The `Int_t` (32-bit two's complement) that holds the arithmetic result `n`:
a result beyond `kMaxInt` or below `kMinInt` wraps around. -/
def Int_t.wrap (n : Int) : Int :=
  (n + 2147483648) % 4294967296 - 2147483648

/-- What one call of `_funct->getVal()` yields: the value, whether the evaluation
raises the error flag of `RooAbsPdf`, and how many evaluation errors it logs. -/
structure FunctEval where
  getVal : ℚ
  evalError : Bool
  numEvalErrors : Nat

/-- The objective function `_funct`, an external collaborator: its outcome may
depend on the whole state. -/
abbrev Funct := RooMinimizerFcnOpt → FunctEval

/-- The range clipping of `RooRealVar::setVal`, an external collaborator: from the
bounds (`hasMin`, `getMin`, `hasMax`, `getMax`) and the requested value to the
value the parameter takes. -/
abbrev Clip := Bool → ℚ → Bool → ℚ → ℚ → ℚ

/-- A clipping that cuts the requested value to the bounds that are present. -/
def clipToRange : Clip := fun hasMin min hasMax max x =>
  if hasMax && decide (x > max) then max
  else if hasMin && decide (x < min) then min
  else x

/-- The call `par->setVal(x)`. -/
def RooRealVar.setVal (clip : Clip) (par : RooAbsArg) (x : ℚ) : RooAbsArg :=
  { par with getVal := clip par.hasMin par.getMin par.hasMax par.getMax x }

namespace RooMinimizerFcnOpt

/-- Body of the loop of lines 364-371 at position `index`. -/
def DoEval.setParam (clip : Clip) (x : List ℚ) (fcn : RooMinimizerFcnOpt) (index : Nat) :
    RooMinimizerFcnOpt :=
  if fcn._vals.getD index 0 ≠ x.getD index 0 then
    let par := fcn._vars.getD index nullPtr
    let heap1 := Function.update fcn.heap par (RooRealVar.setVal clip (fcn.heap par) (x.getD index 0))
    -- might not work otherwise if x is out of the boundary
    { fcn with heap := heap1, _vals := fcn._vals.set index (heap1 par).getVal }
  else fcn

/-- The loop `for (int index = 0; index < _nDim; index++)` of lines 364-371. -/
def DoEval.setParams (clip : Clip) (x : List ℚ) (fcn : RooMinimizerFcnOpt) : RooMinimizerFcnOpt :=
  (List.range fcn._nDim.toNat).foldl (DoEval.setParam clip x) fcn

/-- The state right after `_funct->getVal()` (line 379): the parameters are set
and the evaluation has raised its error signals. -/
def DoEval.evaluated (funct : Funct) (clip : Clip) (fcn : RooMinimizerFcnOpt) (x : List ℚ) :
    RooMinimizerFcnOpt :=
  let fcn1 := DoEval.setParams clip x fcn
  { fcn1 with
    evalError := fcn1.evalError || (funct fcn1).evalError,
    numEvalErrors := fcn1.numEvalErrors + (funct fcn1).numEvalErrors }

/-- The test of line 380: `RooAbsPdf::evalError() || RooAbsReal::numEvalErrors()>0`. -/
def hasEvalError (fcn : RooMinimizerFcnOpt) : Bool :=
  fcn.evalError || decide (fcn.numEvalErrors > 0)

/-- Messages of lines 382-405, printed when `_printEvalErrors>=0`. -/
def DoEval.errorMsgs (fcn : RooMinimizerFcnOpt) : List Msg :=
  [if fcn._doEvalErrorWall then
      ⟨.Warning, "RooMinimizerFcn: Minimized function has error status. Returning maximum FCN so far to force MIGRAD to back out of this region. Error log follows",
        "", [fcn._maxFCN]⟩
    else
      ⟨.Warning, "RooMinimizerFcn: Minimized function has error status but is ignored", "", []⟩]
  ++ [⟨.Warning, "Parameter values: ", "", []⟩]
  ++ fcn._floatParamList.map (fun var =>
        ⟨.Warning, "=", (fcn.heap var).GetName, [(fcn.heap var).getVal]⟩)
  ++ [⟨.Warning, "printEvalErrors", "", [(fcn._printEvalErrors : ℚ)]⟩]

/-- The method `DoEval(x)` (lines 360-427): the value returned and the state left.
The increment `_numBadNLL++` of line 413 is that of an `Int_t`. -/
def DoEval (funct : Funct) (clip : Clip) (fcn : RooMinimizerFcnOpt) (x : List ℚ) :
    ℚ × RooMinimizerFcnOpt :=
  -- Set the parameter values for this iteration
  let fcn1 := DoEval.setParams clip x fcn
  -- Calculate the function for these parameters
  let fvalue := (funct fcn1).getVal
  let fcn2 := DoEval.evaluated funct clip fcn x
  if hasEvalError fcn2 then
    let msgs := if fcn2._printEvalErrors ≥ 0 then fcn2.msgs ++ DoEval.errorMsgs fcn2 else fcn2.msgs
    let fvalue1 := if fcn2._doEvalErrorWall then fcn2._maxFCN else fvalue
    (fvalue1,
      { fcn2 with
        msgs := msgs,
        evalError := false,
        numEvalErrors := 0,
        _numBadNLL := Int_t.wrap (fcn2._numBadNLL + 1) })
  else if fvalue > fcn2._maxFCN then
    (fvalue, { fcn2 with _maxFCN := fvalue })
  else (fvalue, fcn2)

/-- Position `index` is committed for the coordinates `x`: the body of the loop of
`DoEval` has nothing to change there, either because the cached value is
`x[index]` or because writing `x[index]` gives the parameter and the cache the
values they already have. -/
def DoEval.Committed (clip : Clip) (x : List ℚ) (fcn : RooMinimizerFcnOpt) (index : Nat) : Prop :=
  fcn._vals.getD index 0 = x.getD index 0 ∨
    (RooRealVar.setVal clip (fcn.heap (fcn._vars.getD index nullPtr)) (x.getD index 0)
        = fcn.heap (fcn._vars.getD index nullPtr) ∧
      fcn._vals.set index (fcn.heap (fcn._vars.getD index nullPtr)).getVal = fcn._vals)

end RooMinimizerFcnOpt

/-! ## The driver `RooMinimizerOpt` -/

/-- The part of `ROOT::Fit::FitResult` read by the driver. -/
structure FitResult where
  Status : Int
  Edm : ℚ

/-- The engine object `theFitter`: its configuration (`Config()`), whether it
holds a minimizer (`GetMinimizer()` not null) and its last result (`Result()`). -/
structure Fitter where
  ParamsSettings : List ParameterSettings
  MinimizerType : String
  MinimizerAlgoType : String
  MinosErrors : List Nat
  GetMinimizer : Bool
  Result : FitResult

/-- Outcome of one engine operation: its boolean return value, the engine object
and the objective state it leaves. -/
structure EngineRun where
  ret : Bool
  fitter : Fitter
  fcn : RooMinimizerFcnOpt

/-- The minimizer engine and the base-class back-propagation, external
collaborators: each operation maps the engine object and the objective state it
is started on to its outcome. -/
structure Engine where
  FitFCN : Fitter → RooMinimizerFcnOpt → EngineRun
  CalculateHessErrors : Fitter → RooMinimizerFcnOpt → EngineRun
  CalculateMinosErrors : Fitter → RooMinimizerFcnOpt → EngineRun
  BackProp : FitResult → RooMinimizerFcnOpt → RooMinimizerFcnOpt

/-- A call made by the driver, as recorded in the call history. -/
inductive Call where
  | Synchronize
  | FitFCN (type alg : String)
  | CalculateHessErrors
  | CalculateMinosErrors (MinosErrors : List Nat)
  | BackProp
deriving DecidableEq

/-- State of a `RooMinimizerOpt`. The field `_fcn` is always a
`RooMinimizerFcnOpt`, so the `typeid` test of each operation selects its first
branch. `_theFitter` tells whether the pointer of that name is not null. The engine
object `theFitter` is a different object: the constructor uses it by value
(`theFitter.Config()`, line 21) right after setting the pointer to null.
`calls` records, in order, the calls the driver makes. -/
structure RooMinimizerOpt where
  _fcn : RooMinimizerFcnOpt
  theFitter : Fitter
  _theFitter : Bool
  _status : Int
  _statusHistory : List (String × Int)
  _optConst : Bool
  _verbose : Bool
  _minimizerType : String
  _printLevel : Int
  calls : List Call

namespace RooMinimizerOpt

/-- The lines `setEvalErrorLoggingMode(CollectErrors); clearEvalErrorLog();`. -/
def collectErrors (fcn : RooMinimizerFcnOpt) : RooMinimizerFcnOpt :=
  { fcn with evalErrorLoggingMode := .CollectErrors, numEvalErrors := 0 }

/-- The line `setEvalErrorLoggingMode(PrintErrors);`. -/
def printErrors (fcn : RooMinimizerFcnOpt) : RooMinimizerFcnOpt :=
  { fcn with evalErrorLoggingMode := .PrintErrors }

/-- The engine status read back: `(ret) ? theFitter.Result().Status() : -1`. -/
def statusOf (run : EngineRun) : Int :=
  if run.ret then run.fitter.Result.Status else -1

/-- Modelled from the spec: `saveStatus(label, status)` belongs to the base class
outside the repository; the status is appended to the status history under the
name of the operation. -/
def saveStatus (h : List (String × Int)) (label : String) (status : Int) : List (String × Int) :=
  h ++ [(label, status)]

/-- The method `minimize(type, alg)` (lines 51-77); `alg` is `none` for a null
pointer, which leaves the algorithm of the configuration as it is. -/
def minimize (E : Engine) (m : RooMinimizerOpt) (type : String) (alg : Option String) :
    Except String (Int × RooMinimizerOpt) :=
  match RooMinimizerFcnOpt.Synchronize m._fcn m.theFitter.ParamsSettings m._optConst m._verbose with
  | .error e => .error e
  | .ok (_, fcn1, parameters) =>
    let fitter1 : Fitter :=
      { m.theFitter with
        ParamsSettings := parameters, MinimizerType := type,
        MinimizerAlgoType := alg.getD m.theFitter.MinimizerAlgoType }
    let run := E.FitFCN fitter1 (collectErrors fcn1)
    let status := statusOf run
    .ok (status,
      { m with
        _fcn := E.BackProp run.fitter.Result (printErrors run.fcn),
        theFitter := run.fitter,
        _status := status,
        _statusHistory := saveStatus m._statusHistory "MINIMIZE" status,
        calls := m.calls ++
          [.Synchronize, .FitFCN type (alg.getD m.theFitter.MinimizerAlgoType), .BackProp] })

/-- The method `improve()` (lines 79-108). -/
def improve (E : Engine) (m : RooMinimizerOpt) : Except String (Int × RooMinimizerOpt) :=
  match RooMinimizerFcnOpt.Synchronize m._fcn m.theFitter.ParamsSettings m._optConst m._verbose with
  | .error e => .error e
  | .ok (_, fcn1, parameters) =>
    let fitter1 : Fitter :=
      { m.theFitter with
        ParamsSettings := parameters, MinimizerType := m._minimizerType,
        MinimizerAlgoType := "migradimproved" }
    let run := E.FitFCN fitter1 (collectErrors fcn1)
    let status := statusOf run
    .ok (status,
      { m with
        _fcn := E.BackProp run.fitter.Result (printErrors run.fcn),
        theFitter := run.fitter,
        _status := status,
        _statusHistory := saveStatus m._statusHistory "IMPROVE" status,
        calls := m.calls ++ [.Synchronize, .FitFCN m._minimizerType "migradimproved", .BackProp] })

/-- The method `migrad()` (lines 110-140). -/
def migrad (E : Engine) (m : RooMinimizerOpt) : Except String (Int × RooMinimizerOpt) :=
  match RooMinimizerFcnOpt.Synchronize m._fcn m.theFitter.ParamsSettings m._optConst m._verbose with
  | .error e => .error e
  | .ok (_, fcn1, parameters) =>
    let fitter1 : Fitter :=
      { m.theFitter with
        ParamsSettings := parameters, MinimizerType := m._minimizerType,
        MinimizerAlgoType := "migrad" }
    let run := E.FitFCN fitter1 (collectErrors fcn1)
    let status := statusOf run
    .ok (status,
      { m with
        _fcn := E.BackProp run.fitter.Result (printErrors run.fcn),
        theFitter := run.fitter,
        _status := status,
        _statusHistory := saveStatus m._statusHistory "MIGRAD" status,
        calls := m.calls ++ [.Synchronize, .FitFCN m._minimizerType "migrad", .BackProp] })

/-- The branch of `hesse()`, `minos()` and `minos(minosParamList)` taken when
`theFitter.GetMinimizer()==0`: a warning, and `_status = -1`. -/
def noMinimizer (m : RooMinimizerOpt) (text : String) : Int × RooMinimizerOpt :=
  (-1,
    { m with
      _fcn := { m._fcn with msgs := m._fcn.msgs ++ [⟨.Warning, text, "", []⟩] },
      _status := -1 })

/-- The method `hesse()` (lines 145-185). -/
def hesse (E : Engine) (m : RooMinimizerOpt) : Except String (Int × RooMinimizerOpt) :=
  if m.theFitter.GetMinimizer = false then
    .ok (noMinimizer m "RooMinimizerOpt::hesse: Error, run Migrad before Hesse!")
  else
    match RooMinimizerFcnOpt.Synchronize m._fcn m.theFitter.ParamsSettings m._optConst m._verbose with
    | .error e => .error e
    | .ok (_, fcn1, parameters) =>
      let fitter1 : Fitter :=
        { m.theFitter with ParamsSettings := parameters, MinimizerType := m._minimizerType }
      let run := E.CalculateHessErrors fitter1 (collectErrors fcn1)
      let status := statusOf run
      .ok (status,
        { m with
          _fcn := E.BackProp run.fitter.Result (printErrors run.fcn),
          theFitter := run.fitter,
          _status := status,
          _statusHistory := saveStatus m._statusHistory "HESSE" status,
          calls := m.calls ++ [.Synchronize, .CalculateHessErrors, .BackProp] })

/-- The method `minos()` (lines 188-227). -/
def minos (E : Engine) (m : RooMinimizerOpt) : Except String (Int × RooMinimizerOpt) :=
  if m.theFitter.GetMinimizer = false then
    .ok (noMinimizer m "RooMinimizerOpt::minos: Error, run Migrad before Minos!")
  else
    match RooMinimizerFcnOpt.Synchronize m._fcn m.theFitter.ParamsSettings m._optConst m._verbose with
    | .error e => .error e
    | .ok (_, fcn1, parameters) =>
      let fitter1 : Fitter :=
        { m.theFitter with ParamsSettings := parameters, MinimizerType := m._minimizerType }
      let run := E.CalculateMinosErrors fitter1 (collectErrors fcn1)
      let status := statusOf run
      .ok (status,
        { m with
          _fcn := E.BackProp run.fitter.Result (printErrors run.fcn),
          theFitter := run.fitter,
          _status := status,
          _statusHistory := saveStatus m._statusHistory "MINOS" status,
          calls := m.calls ++ [.Synchronize, .CalculateMinosErrors fitter1.MinosErrors, .BackProp] })

/-- The loop of lines 256-267: for each requested argument, in order, the entry
of the floating list found under its name, when there is one and it is not
constant, contributes its index in the floating list. -/
def minos_list.paramInd (fcn : RooMinimizerFcnOpt) (minosParamList : List Ptr) : List Nat :=
  minosParamList.filterMap (fun arg =>
    match RooArgList.find fcn.heap fcn._floatParamList (fcn.heap arg).GetName with
    | none => none
    | some par =>
      if !(fcn.heap par).isConstant then some (RooArgList.index fcn._floatParamList par)
      else none)

/-- The method `minos(minosParamList)` (lines 231-288). -/
def minos_list (E : Engine) (m : RooMinimizerOpt) (minosParamList : List Ptr) :
    Except String (Int × RooMinimizerOpt) :=
  if m.theFitter.GetMinimizer = false then
    .ok (noMinimizer m "RooMinimizerOpt::minos: Error, run Migrad before Minos!")
  else if minosParamList.length > 0 then
    match RooMinimizerFcnOpt.Synchronize m._fcn m.theFitter.ParamsSettings m._optConst m._verbose with
    | .error e => .error e
    | .ok (_, fcn1, parameters) =>
      let fitter1 : Fitter := { m.theFitter with ParamsSettings := parameters }
      let fcn2 := collectErrors fcn1
      -- get list of parameters for Minos
      let paramInd := minos_list.paramInd fcn2 minosParamList
      if paramInd.length > 0 then
        -- set the parameter indeces
        let fitter2 : Fitter :=
          { fitter1 with MinosErrors := paramInd, MinimizerType := m._minimizerType }
        let run := E.CalculateMinosErrors fitter2 fcn2
        let status := statusOf run
        .ok (status,
          { m with
            _fcn := E.BackProp run.fitter.Result (printErrors run.fcn),
            theFitter := run.fitter,
            _status := status,
            _statusHistory := saveStatus m._statusHistory "MINOS" status,
            calls := m.calls ++ [.Synchronize, .CalculateMinosErrors paramInd, .BackProp] })
      else
        .ok (m._status,
          { m with
            _fcn := E.BackProp fitter1.Result (printErrors fcn2),
            theFitter := fitter1,
            _statusHistory := saveStatus m._statusHistory "MINOS" m._status,
            calls := m.calls ++ [.Synchronize, .BackProp] })
  else .ok (m._status, m)

end RooMinimizerOpt

/-! ## Example states -/

/-- An example heap: `a` (address 1) floats in `[0, 10]`, `b` (address 2) floats
without bounds, `c` (address 3) is constant, `lin` (address 4) is a non-constant
`RooLinearVar` (a real-valued object that is not a `RooRealVar`), and `d`
(address 5) floats in `[0, 1]`. -/
def exHeap : Heap := fun p =>
  match p with
  | 1 => { GetName := "a", ClassName := "RooRealVar", isRooRealVar := true, getVal := 1,
           hasMin := true, getMin := 0, hasMax := true, getMax := 10, getError := 0,
           isConstant := false }
  | 2 => { GetName := "b", ClassName := "RooRealVar", isRooRealVar := true, getVal := 2,
           hasMin := false, getMin := 0, hasMax := false, getMax := 0, getError := 1 / 2,
           isConstant := false }
  | 3 => { GetName := "c", ClassName := "RooRealVar", isRooRealVar := true, getVal := 3,
           hasMin := false, getMin := 0, hasMax := false, getMax := 0, getError := 0,
           isConstant := true }
  | 4 => { GetName := "lin", ClassName := "RooLinearVar", isRooRealVar := false, getVal := 0,
           hasMin := false, getMin := 0, hasMax := false, getMax := 0, getError := 0,
           isConstant := false }
  | 5 => { GetName := "d", ClassName := "RooRealVar", isRooRealVar := true, getVal := 0,
           hasMin := true, getMin := 0, hasMax := true, getMax := 1, getError := 0,
           isConstant := false }
  | _ => default

/-- The clone a snapshot holds of the object at address `p`, taken while the
object was flagged `isConst`. -/
def exClone (isConst : Bool) (p : Ptr) : RooAbsArg :=
  { exHeap p with isConstant := isConst }

/-- An example object over `exHeap` with the given floating and constant lists;
the caches hold the floating entries and their values. -/
def exFcn (float const : List Ptr) : RooMinimizerFcnOpt :=
  { heap := exHeap,
    _floatParamList := float,
    _constParamList := const,
    _initFloatParamList := float.map (exClone false),
    _initConstParamList := const.map (exClone true),
    _floatParamVec := float,
    _nDim := float.length,
    _vars := float,
    _vals := float.map (fun p => (exHeap p).getVal),
    _maxFCN := 0,
    _numBadNLL := 0,
    _printEvalErrors := 10,
    _doEvalErrorWall := true,
    _verbose := false,
    evalError := false,
    numEvalErrors := 0,
    evalErrorLoggingMode := .PrintErrors,
    msgs := [],
    constOptimizeTestStatistic := [] }

/-- An example objective: the square of the value of `a`; it raises the error
flag when `a` exceeds 5. -/
def exFunct : Funct := fun s =>
  { getVal := (s.heap 1).getVal * (s.heap 1).getVal,
    evalError := decide ((s.heap 1).getVal > 5),
    numEvalErrors := 0 }

/-- The example object with floating list `[a]` and the wall policy switched off. -/
def exFcnNoWall : RooMinimizerFcnOpt :=
  { exFcn [1] [] with _doEvalErrorWall := false }

/-- The example object with floating list `[a]`, the wall policy active and the
counter `_numBadNLL` at the largest `Int_t`. -/
def exFcnMaxBad : RooMinimizerFcnOpt :=
  { exFcn [1] [] with _numBadNLL := kMaxInt }

/-- The example object with floating list `[a]`, the wall policy switched off and
the counter `_numBadNLL` at the largest `Int_t`. -/
def exFcnNoWallMaxBad : RooMinimizerFcnOpt :=
  { exFcnNoWall with _numBadNLL := kMaxInt }

/-- The example object with floating list `[a]` on which the error flag of
`RooAbsPdf` is still raised from an evaluation made before: the drivers clear
the error log before a fit, not the flag. -/
def exFcnPending : RooMinimizerFcnOpt :=
  { exFcn [1] [] with evalError := true }

/-! ## Statements in the words of the spec -/

/-- Following the words of the spec: a requested name is resolved against the
floating set; it yields its position there when it is found and the parameter at
that position is not constant, and is skipped otherwise. -/
def minosPosition (heap : Heap) (floatingSet : List Ptr) (name : String) : Option Nat :=
  match floatingSet.findIdx? (fun p => (heap p).GetName == name) with
  | none => none
  | some i =>
    match floatingSet[i]? with
    | none => none
    | some p => if (heap p).isConstant then none else some i

/-- Following the words of the spec: the floating-set positions of the requested
names that are found in the floating set and not constant, in request order. -/
def minosPositions (heap : Heap) (floatingSet : List Ptr) (requested : List String) : List Nat :=
  requested.filterMap (minosPosition heap floatingSet)

/-- Following the words of the spec: the outcome `r` of a driver operation started
on `m` returns the status code of the engine outcome `run` when the engine reports
success and -1 when it reports failure, and that value is the one recorded last
in the status history, under `label`. -/
def RooMinimizerOpt.Reports (m : RooMinimizerOpt) (label : String) (run : EngineRun)
    (r : Except String (Int × RooMinimizerOpt)) : Prop :=
  ∃ (status : Int) (m1 : RooMinimizerOpt),
    r = .ok (status, m1) ∧
    (run.ret = true → status = run.fitter.Result.Status) ∧
    (run.ret = false → status = -1) ∧
    m1._status = status ∧
    m1._statusHistory = m._statusHistory ++ [(label, status)]

/-- An example engine: every operation succeeds with status 0 and leaves a
minimizer in place; back-propagation leaves the objective state alone. -/
def exEngine : Engine :=
  { FitFCN := fun fitter fcn =>
      { ret := true,
        fitter := { fitter with GetMinimizer := true, Result := { Status := 0, Edm := 0 } },
        fcn := fcn },
    CalculateHessErrors := fun fitter fcn =>
      { ret := true, fitter := { fitter with Result := { Status := 0, Edm := 0 } }, fcn := fcn },
    CalculateMinosErrors := fun fitter fcn =>
      { ret := true, fitter := { fitter with Result := { Status := 0, Edm := 0 } }, fcn := fcn },
    BackProp := fun _ fcn => fcn }

/-- An example driver state over the example object with floating list `[a, b]`
and constant list `[c]`, with or without a minimizer from an earlier fit, and
with status 3 from the last operation. -/
def exMinimizer (hasMinimizer : Bool) : RooMinimizerOpt :=
  { _fcn := exFcn [1, 2] [3],
    theFitter :=
      { ParamsSettings := [], MinimizerType := "Minuit2", MinimizerAlgoType := "migrad",
        MinosErrors := [], GetMinimizer := hasMinimizer, Result := { Status := 0, Edm := 0 } },
    _theFitter := false,
    _status := 3,
    _statusHistory := [],
    _optConst := false,
    _verbose := false,
    _minimizerType := "Minuit2",
    _printLevel := 0,
    calls := [] }

/-! ## Constructor and `edm` -/

namespace RooMinimizerOpt

/-- The constructor `RooMinimizerOpt(function)` (lines 14-42). `base` is the object
as the base-class constructor `RooMinimizer()` leaves it and `fcn` the function
object built by `new RooMinimizerFcnOpt(_func,this,_verbose)`. The call
`_fcn->Synchronize(...)` of line 33 goes through the base-class pointer `_fcn`
and is bound to the base-class method (hence the `typeid` casts in the other
operations); it is the argument `baseSynchronize`. `silentMode` is the answer of
the message service. All four are outside the repository. The numeric options of
the engine (iterations, calls, tolerance, error level) are not part of `Fitter`. -/
def ctor
    (baseSynchronize : RooMinimizerFcnOpt → List ParameterSettings → Bool → Bool →
      RooMinimizerFcnOpt × List ParameterSettings)
    (silentMode : Bool) (base : RooMinimizerOpt) (fcn : RooMinimizerFcnOpt) : RooMinimizerOpt :=
  -- if (_theFitter) { delete _theFitter; _theFitter = 0; }
  let r := baseSynchronize fcn base.theFitter.ParamsSettings base._optConst base._verbose
  { base with
    _theFitter := false,
    _fcn := r.1,
    theFitter :=
      { base.theFitter with MinimizerType := base._minimizerType, ParamsSettings := r.2 },
    _printLevel := if silentMode then 0 else 2 }

/-- The method `edm()` (lines 44-49). -/
def edm (m : RooMinimizerOpt) : Except String ℚ :=
  if m._theFitter = false then .error "Must have done a fit before calling edm()"
  else .ok m.theFitter.Result.Edm

end RooMinimizerOpt

/-! ## Sequences of evaluations -/

namespace RooMinimizerFcnOpt

/-- A sequence of calls of `DoEval`, one per coordinate vector, each on the state
the call before left: the value each call returns, paired with the outcome of
the error test of its evaluation, and the state left at the end. -/
def DoEval.calls (funct : Funct) (clip : Clip) :
    RooMinimizerFcnOpt → List (List ℚ) → List (ℚ × Bool) × RooMinimizerFcnOpt
  | fcn, [] => ([], fcn)
  | fcn, x :: xs =>
    let r := DoEval funct clip fcn x
    let rest := DoEval.calls funct clip r.2 xs
    ((r.1, hasEvalError (DoEval.evaluated funct clip fcn x)) :: rest.1, rest.2)

/-- The step computation of lines 513-534 with the two trims tested in the other
order: the lower bound first, the upper bound in the `else if`. -/
def Synchronize.pstep_lowerFirst (par : RooAbsArg) : ℚ :=
  if !par.isConstant then
    if par.getError ≤ 0 then
      if par.hasMin && par.hasMax then
        let pstep0 : ℚ := (1 / 10) * (Synchronize.pmax par - Synchronize.pmin par)
        let pstep1 : ℚ :=
          if par.getVal - Synchronize.pmin par < 2 * pstep0 then
            (par.getVal - Synchronize.pmin par) / 2
          else if Synchronize.pmax par - par.getVal < 2 * pstep0 then
            (Synchronize.pmax par - par.getVal) / 2
          else pstep0
        if pstep1 = 0 then (1 / 10) * (Synchronize.pmax par - Synchronize.pmin par)
        else pstep1
      else 1
    else par.getError
  else 0

end RooMinimizerFcnOpt

/-- Following the words of the spec: the default step of a parameter without error
estimate. It is 1 unless both bounds exist; with both bounds it is 10% of the
range, replaced by half the distance from the value to the nearer bound when the
value is within two such step-widths of that bound, and restored to the untrimmed
10% when the trimmed step is exactly zero. The distance to the upper bound is
`hi - value` and the distance to the lower bound is `value - lo`. -/
def defaultStep (bothBounds : Bool) (lo hi value : ℚ) : ℚ :=
  if bothBounds then
    let tenth : ℚ := (1 / 10) * (hi - lo)
    let toNearer : ℚ := min (hi - value) (value - lo)
    let trimmed : ℚ := if toNearer < 2 * tenth then toNearer / 2 else tenth
    if trimmed = 0 then tenth else trimmed
  else 1

/-- An example parameter: floating in `[0, 10]` at the given value, without error
estimate. -/
def exPar (value : ℚ) : RooAbsArg :=
  { exHeap 1 with getVal := value }

/-- An example driver state as a base-class constructor might leave it: the
pointer `_theFitter` is set. -/
def exBase : RooMinimizerOpt :=
  { exMinimizer false with _theFitter := true }

/-- An example base-class `Synchronize` that leaves object and settings alone. -/
def exBaseSynchronize (fcn : RooMinimizerFcnOpt) (parameters : List ParameterSettings)
    (_optConst _verbose : Bool) : RooMinimizerFcnOpt × List ParameterSettings :=
  (fcn, parameters)

namespace RooMinimizerFcnOpt

/-- The parameter object the body of the loop of `DoEval` leaves at position
`index`, in terms of the state before: written through `setVal` when the cached
value differs from `x[index]`, not written otherwise. -/
def DoEval.setParam_arg (clip : Clip) (x : List ℚ) (fcn : RooMinimizerFcnOpt) (index : Nat) :
    RooAbsArg :=
  if fcn._vals.getD index 0 ≠ x.getD index 0 then
    RooRealVar.setVal clip (fcn.heap (fcn._vars.getD index nullPtr)) (x.getD index 0)
  else fcn.heap (fcn._vars.getD index nullPtr)

/-- The cached value the body of the loop of `DoEval` leaves at position `index`,
in terms of the state before: the value read back from the parameter when it was
written, the former cached value otherwise. -/
def DoEval.setParam_val (clip : Clip) (x : List ℚ) (fcn : RooMinimizerFcnOpt) (index : Nat) : ℚ :=
  if fcn._vals.getD index 0 ≠ x.getD index 0 then (DoEval.setParam_arg clip x fcn index).getVal
  else fcn._vals.getD index 0

end RooMinimizerFcnOpt

namespace RooMinimizerFcnOpt

theorem dynamic_cast_eq_some {heap : Heap} {a : Option Ptr} {p : Ptr}
    (h : dynamic_cast_RooRealVar heap a = some p) :
    a = some p ∧ (heap p).isRooRealVar = true := by
  unfold dynamic_cast_RooRealVar at h
  cases a with
  | none => simp at h
  | some q =>
    by_cases hq : (heap q).isRooRealVar = true
    · simp [hq] at h
      subst h
      exact ⟨rfl, hq⟩
    · simp [hq] at h

/-- One turn of the migration loop leaves the heap alone and either keeps both
parameter lists or moves the entry at `index` from the constant to the floating list. -/
theorem Synchronize.constBody_lists (verbose : Bool) (index : Nat) (st : SyncState) :
    (Synchronize.constBody verbose index st).fcn.heap = st.fcn.heap ∧
    (((Synchronize.constBody verbose index st).fcn._floatParamList = st.fcn._floatParamList ∧
      (Synchronize.constBody verbose index st).fcn._constParamList = st.fcn._constParamList) ∨
     ∃ p, st.fcn._constParamList[index]? = some p ∧ (st.fcn.heap p).isRooRealVar = true ∧
      (st.fcn.heap p).isConstant = false ∧
      (Synchronize.constBody verbose index st).fcn._floatParamList
        = st.fcn._floatParamList ++ [p] ∧
      (Synchronize.constBody verbose index st).fcn._constParamList
        = RooArgList.remove st.fcn._constParamList p) := by
  unfold Synchronize.constBody
  cases hc : dynamic_cast_RooRealVar st.fcn.heap st.fcn._constParamList[index]? with
  | none => simp
  | some par =>
    obtain ⟨hget, hreal⟩ := dynamic_cast_eq_some hc
    cases ho : dynamic_cast_RooRealVar_clone st.fcn._initConstParamList[index]? with
    | none => simp
    | some oldpar =>
      by_cases hk : (st.fcn.heap par).isConstant = true
      · simp only [hk]
        split <;> simp
      · have hk' : (st.fcn.heap par).isConstant = false := by simpa using hk
        simp only [hk']
        refine ⟨by split <;> simp, Or.inr ⟨par, hget, hreal, hk', ?_, ?_⟩⟩
        · split <;> simp [RooArgList.add]
        · split <;> simp

theorem RooArgList.remove_length_le (l : List Ptr) (p : Ptr) :
    (RooArgList.remove l p).length ≤ l.length := by
  unfold RooArgList.remove
  exact List.length_filter_le _ _

theorem RooArgList.mem_remove {l : List Ptr} {p q : Ptr} (h : q ∈ RooArgList.remove l p) :
    q ∈ l := by
  unfold RooArgList.remove at h
  exact (List.mem_filter.mp h).1

theorem Synchronize.constBody_length_le (verbose : Bool) (index : Nat) (st : SyncState) :
    (Synchronize.constBody verbose index st).fcn._constParamList.length
      ≤ st.fcn._constParamList.length := by
  rcases (Synchronize.constBody_lists verbose index st).2 with h | ⟨p, _, _, _, _, h⟩
  · rw [h.2]
  · rw [h]; exact RooArgList.remove_length_le _ _

/-- The migration loop stops by its own test: more fuel than the distance from
`index` to the end of the constant list changes nothing. -/
theorem Synchronize.constLoop_fuel (verbose : Bool) (fuel : Nat) :
    ∀ (index : Nat) (st : SyncState), st.fcn._constParamList.length - index ≤ fuel →
      Synchronize.constLoop verbose (fuel + 1) index st
        = Synchronize.constLoop verbose fuel index st := by
  induction fuel with
  | zero =>
    intro index st h
    have : ¬ index < st.fcn._constParamList.length := by omega
    simp [Synchronize.constLoop, this]
  | succ n ih =>
    intro index st h
    rw [Synchronize.constLoop]
    by_cases hlt : index < st.fcn._constParamList.length
    · rw [if_pos hlt]
      conv_rhs => rw [Synchronize.constLoop, if_pos hlt]
      apply ih
      have := Synchronize.constBody_length_le verbose index st
      omega
    · rw [if_neg hlt]
      conv_rhs => rw [Synchronize.constLoop, if_neg hlt]

/-- The migration loop leaves the heap alone, only appends to the floating list
real-valued non-constant entries taken from the constant list, and only removes
entries from the constant list. -/
theorem Synchronize.constLoop_lists (verbose : Bool) (fuel : Nat) :
    ∀ (index : Nat) (st : SyncState),
      (Synchronize.constLoop verbose fuel index st).fcn.heap = st.fcn.heap ∧
      (∃ extra : List Ptr,
        (Synchronize.constLoop verbose fuel index st).fcn._floatParamList
          = st.fcn._floatParamList ++ extra ∧
        ∀ p ∈ extra, p ∈ st.fcn._constParamList ∧ (st.fcn.heap p).isRooRealVar = true ∧
          (st.fcn.heap p).isConstant = false) ∧
      (∀ p ∈ (Synchronize.constLoop verbose fuel index st).fcn._constParamList,
        p ∈ st.fcn._constParamList) := by
  induction fuel with
  | zero =>
    intro index st
    exact ⟨rfl, ⟨[], by simp [Synchronize.constLoop], by simp⟩, fun p hp => hp⟩
  | succ n ih =>
    intro index st
    rw [Synchronize.constLoop]
    by_cases hlt : index < st.fcn._constParamList.length
    · rw [if_pos hlt]
      obtain ⟨hheap, ⟨extra, hfl, hex⟩, hcl⟩ := ih (index + 1) (Synchronize.constBody verbose index st)
      obtain ⟨bheap, hb⟩ := Synchronize.constBody_lists verbose index st
      rcases hb with ⟨bf, bc⟩ | ⟨p, hget, hreal, hconst, bf, bc⟩
      · refine ⟨hheap.trans bheap, ⟨extra, by rw [hfl, bf], ?_⟩, ?_⟩
        · intro q hq
          have := hex q hq
          rw [bc, bheap] at this
          exact this
        · intro q hq
          have := hcl q hq
          rwa [bc] at this
      · refine ⟨hheap.trans bheap, ⟨p :: extra, by rw [hfl, bf]; simp, ?_⟩, ?_⟩
        · intro q hq
          rcases List.mem_cons.mp hq with rfl | hq
          · exact ⟨List.getElem?_mem hget, hreal, hconst⟩
          · have := hex q hq
            rw [bc, bheap] at this
            exact ⟨RooArgList.mem_remove this.1, this.2⟩
        · intro q hq
          have := hcl q hq
          rw [bc] at this
          exact RooArgList.mem_remove this
    · rw [if_neg hlt]
      exact ⟨rfl, ⟨[], by simp, by simp⟩, fun p hp => hp⟩


/-- One turn of the floating loop changes nothing of the object but the message
log, and goes on at the next index: the removal branch cannot be reached, since
an entry that passed the dynamic cast is a `RooRealVar`. -/
theorem Synchronize.floatBody_fcn (verbose : Bool) (index : Nat) (st : SyncState) :
    (∃ m, (Synchronize.floatBody verbose index st).1.fcn = { st.fcn with msgs := m }) ∧
    (Synchronize.floatBody verbose index st).2 = index + 1 := by
  unfold Synchronize.floatBody
  cases hc : dynamic_cast_RooRealVar st.fcn.heap st.fcn._floatParamList[index]? with
  | none => exact ⟨⟨st.fcn.msgs, rfl⟩, rfl⟩
  | some p =>
    obtain ⟨_, hreal⟩ := dynamic_cast_eq_some hc
    simp only [RooAbsArg.IsA_InheritsFrom_RooRealVar, hreal, Bool.not_true, Bool.and_false,
      Bool.false_eq_true, if_false]
    cases hp : st.parameters[index]? with
    | none => exact ⟨⟨_, rfl⟩, rfl⟩
    | some old => exact ⟨⟨_, rfl⟩, rfl⟩

/-- The floating loop stops by its own test: more fuel than the distance from
`index` to the end of the floating list changes nothing. -/
theorem Synchronize.floatLoop_fuel (verbose : Bool) (fuel : Nat) :
    ∀ (index : Nat) (st : SyncState), st.fcn._floatParamList.length - index ≤ fuel →
      Synchronize.floatLoop verbose (fuel + 1) index st
        = Synchronize.floatLoop verbose fuel index st := by
  induction fuel with
  | zero =>
    intro index st h
    have : ¬ index < st.fcn._floatParamList.length := by omega
    simp [Synchronize.floatLoop, this]
  | succ n ih =>
    intro index st h
    rw [Synchronize.floatLoop]
    by_cases hlt : index < st.fcn._floatParamList.length
    · rw [if_pos hlt]
      conv_rhs => rw [Synchronize.floatLoop, if_pos hlt]
      obtain ⟨⟨m, hm⟩, hi⟩ := Synchronize.floatBody_fcn verbose index st
      apply ih
      rw [hm, hi]
      simp only
      omega
    · rw [if_neg hlt]
      conv_rhs => rw [Synchronize.floatLoop, if_neg hlt]

/-- The floating loop changes nothing of the object but the message log. -/
theorem Synchronize.floatLoop_fcn (verbose : Bool) (fuel : Nat) :
    ∀ (index : Nat) (st : SyncState),
      ∃ m, (Synchronize.floatLoop verbose fuel index st).fcn = { st.fcn with msgs := m } := by
  induction fuel with
  | zero => intro index st; exact ⟨st.fcn.msgs, rfl⟩
  | succ n ih =>
    intro index st
    rw [Synchronize.floatLoop]
    by_cases hlt : index < st.fcn._floatParamList.length
    · rw [if_pos hlt]
      obtain ⟨⟨m, hm⟩, _⟩ := Synchronize.floatBody_fcn verbose index st
      obtain ⟨m', hm'⟩ := ih (Synchronize.floatBody verbose index st).2
        (Synchronize.floatBody verbose index st).1
      exact ⟨m', by rw [hm', hm]⟩
    · rw [if_neg hlt]; exact ⟨st.fcn.msgs, rfl⟩

/-- The entry produced by `updateEntry` depends neither on the verbosity nor on
the messages printed before. -/
theorem Synchronize.updateEntry_fst (verbose : Bool) (par : RooAbsArg) (old : ParameterSettings)
    (msgs : List Msg) :
    (Synchronize.updateEntry verbose par old msgs).1
      = (Synchronize.updateEntry false par old []).1 := by
  unfold Synchronize.updateEntry
  simp only
  split
  · rfl
  · split
    · split <;> rfl
    · rfl

/-- Effect of one turn of the floating loop on the settings vector, for a
`RooRealVar` entry. -/
theorem Synchronize.floatBody_parameters (verbose : Bool) (index : Nat) (st : SyncState)
    (p : Ptr) (hp : st.fcn._floatParamList[index]? = some p)
    (hreal : (st.fcn.heap p).isRooRealVar = true) :
    (Synchronize.floatBody verbose index st).1.parameters =
      match st.parameters[index]? with
      | none => st.parameters ++ [Synchronize.newEntry (st.fcn.heap p)]
      | some old =>
        st.parameters.set index (Synchronize.updateEntry false (st.fcn.heap p) old []).1 := by
  unfold Synchronize.floatBody
  have hc : dynamic_cast_RooRealVar st.fcn.heap st.fcn._floatParamList[index]? = some p := by
    simp [dynamic_cast_RooRealVar, hp, hreal]
  rw [hc]
  simp only [RooAbsArg.IsA_InheritsFrom_RooRealVar, hreal, Bool.not_true, Bool.and_false,
    Bool.false_eq_true, if_false]
  cases hq : st.parameters[index]? with
  | none => rfl
  | some old =>
    simp only
    rw [Synchronize.updateEntry_fst]

/-- The settings vector after the floating loop, position by position, when
every floating entry is a `RooRealVar` and the loop starts within the vector. -/
theorem Synchronize.floatLoop_parameters (verbose : Bool) (fuel : Nat) :
    ∀ (index : Nat) (st : SyncState),
      (∀ p ∈ st.fcn._floatParamList, (st.fcn.heap p).isRooRealVar = true) →
      index ≤ st.parameters.length →
      st.fcn._floatParamList.length - index ≤ fuel →
      ∀ i, (Synchronize.floatLoop verbose fuel index st).parameters[i]? =
        if index ≤ i then
          Synchronize.reconciled st.fcn.heap st.fcn._floatParamList[i]? st.parameters[i]?
        else st.parameters[i]? := by
  induction fuel with
  | zero =>
    intro index st _ _ hf i
    simp only [Synchronize.floatLoop]
    split
    · have : st.fcn._floatParamList[i]? = none := by
        apply List.getElem?_eq_none; omega
      rw [this]; rfl
    · rfl
  | succ n ih =>
    intro index st hreal hk hf i
    rw [Synchronize.floatLoop]
    by_cases hlt : index < st.fcn._floatParamList.length
    · rw [if_pos hlt]
      obtain ⟨⟨m, hm⟩, hi⟩ := Synchronize.floatBody_fcn verbose index st
      have hp : st.fcn._floatParamList[index]? = some st.fcn._floatParamList[index] :=
        List.getElem?_eq_getElem hlt
      have hr : (st.fcn.heap st.fcn._floatParamList[index]).isRooRealVar = true :=
        hreal _ (List.getElem_mem hlt)
      have hpar := Synchronize.floatBody_parameters verbose index st _ hp hr
      have hlen : index + 1 ≤ (Synchronize.floatBody verbose index st).1.parameters.length := by
        rw [hpar]
        cases hq : st.parameters[index]? with
        | none => simp only [List.length_append, List.length_singleton]; omega
        | some old =>
          have : index < st.parameters.length := by
            by_contra hcon
            rw [List.getElem?_eq_none (by omega)] at hq
            cases hq
          simp only [List.length_set]
          omega
      have hF : (Synchronize.floatBody verbose index st).1.fcn._floatParamList
          = st.fcn._floatParamList := by rw [hm]
      have hH : (Synchronize.floatBody verbose index st).1.fcn.heap = st.fcn.heap := by rw [hm]
      have hih := ih (index + 1) (Synchronize.floatBody verbose index st).1
        (by rw [hH, hF]; exact hreal) hlen (by rw [hF]; omega) i
      show (Synchronize.floatLoop verbose n (Synchronize.floatBody verbose index st).2
        (Synchronize.floatBody verbose index st).1).parameters[i]? = _
      rw [hi, hih, hH, hF]
      by_cases h1 : index + 1 ≤ i
      · have h2 : index ≤ i := by omega
        rw [if_pos h1, if_pos h2, hpar]
        congr 1
        cases hq : st.parameters[index]? with
        | none =>
          simp only
          have hlen0 : st.parameters.length = index := by
            have : st.parameters.length ≤ index := by
              by_contra hcon
              rw [List.getElem?_eq_getElem (by omega)] at hq
              cases hq
            omega
          rw [List.getElem?_eq_none (by simp; omega), List.getElem?_eq_none (by omega)]
        | some old =>
          simp only
          rw [List.getElem?_set_ne (by omega)]
      · rw [if_neg h1, hpar]
        by_cases h2 : index ≤ i
        · have hii : i = index := by omega
          subst hii
          rw [if_pos h2, hp]
          cases hq : st.parameters[i]? with
          | none =>
            have hlen0 : st.parameters.length = i := by
              have : st.parameters.length ≤ i := by
                by_contra hcon
                rw [List.getElem?_eq_getElem (by omega)] at hq
                cases hq
              omega
            simp [Synchronize.reconciled, hlen0.symm]
          | some old =>
            have : i < st.parameters.length := by
              by_contra hcon
              rw [List.getElem?_eq_none (by omega)] at hq
              cases hq
            simp [Synchronize.reconciled, List.getElem?_set_self, this]
        · rw [if_neg h2]
          cases hq : st.parameters[index]? with
          | none =>
            simp only
            rw [List.getElem?_append_left (by omega)]
          | some old =>
            simp only
            rw [List.getElem?_set_ne (by omega)]
    · rw [if_neg hlt]
      split
      · rw [List.getElem?_eq_none (l := st.fcn._floatParamList) (by omega)]
        rfl
      · rfl


theorem resize_length {α : Type} (v : List α) (n : Nat) (d : α) :
    (resize v n d).length = n := by
  unfold resize
  simp only [List.length_append, List.length_take, List.length_replicate]
  omega

theorem take_succ_set {α : Type} (a : α) :
    ∀ (l : List α) (i : Nat), i < l.length → (l.set i a).take (i + 1) = l.take i ++ [a] := by
  intro l
  induction l with
  | nil => intro i h; simp at h
  | cons x xs ih =>
    intro i h
    cases i with
    | zero => simp
    | succ j =>
      simp only [List.set_cons_succ, List.take_succ_cons, List.cons_append, List.cons.injEq,
        true_and]
      exact ih j (by simpa using h)

/-- On a list of `RooRealVar` entries the loop of `initStdVects` ends normally,
having written the addresses and the current values from position `i` on. -/
theorem initStdVects.loop_ok (heap : Heap) :
    ∀ (l : List Ptr) (i : Nat) (vars : List Ptr) (vals : List ℚ),
      (∀ p ∈ l, (heap p).isRooRealVar = true) →
      vars.length = i + l.length → vals.length = i + l.length →
      initStdVects.loop heap l i vars vals
        = .ok (vars.take i ++ l, vals.take i ++ l.map (fun p => (heap p).getVal)) := by
  intro l
  induction l with
  | nil =>
    intro i vars vals _ hv hw
    simp only [initStdVects.loop, List.append_nil, List.map_nil]
    rw [List.take_of_length_le (by simp at hv; omega), List.take_of_length_le (by simp at hw; omega)]
  | cons a rest ih =>
    intro i vars vals hreal hv hw
    have ha : (heap a).isRooRealVar = true := hreal a (List.mem_cons_self _ _)
    simp only [initStdVects.loop, ha, if_true]
    simp only [List.length_cons] at hv hw
    rw [ih (i + 1) _ _ (fun p hp => hreal p (List.mem_cons_of_mem _ hp))
      (by rw [List.length_set]; omega) (by rw [List.length_set]; omega)]
    rw [take_succ_set a vars i (by omega), take_succ_set (heap a).getVal vals i (by omega)]
    simp

/-- A floating entry that is not a `RooRealVar` makes the loop of `initStdVects`
throw. -/
theorem initStdVects.loop_error (heap : Heap) :
    ∀ (l : List Ptr) (i : Nat) (vars : List Ptr) (vals : List ℚ),
      (∃ p ∈ l, (heap p).isRooRealVar = false) →
      ∃ e, initStdVects.loop heap l i vars vals = .error e := by
  intro l
  induction l with
  | nil => intro i vars vals h; simp at h
  | cons a rest ih =>
    intro i vars vals h
    by_cases ha : (heap a).isRooRealVar = true
    · simp only [initStdVects.loop, ha, if_true]
      apply ih
      obtain ⟨p, hp, hn⟩ := h
      rcases List.mem_cons.mp hp with rfl | hp
      · rw [ha] at hn; cases hn
      · exact ⟨p, hp, hn⟩
    · exact ⟨"Float param not a RooRealVar but a " ++ (heap a).ClassName,
        by simp [initStdVects.loop, ha]⟩

/-- With only `RooRealVar` entries in the floating list, `initStdVects` rebuilds
both vectors from the list. -/
theorem initStdVects_ok (fcn : RooMinimizerFcnOpt)
    (h : ∀ p ∈ fcn._floatParamList, (fcn.heap p).isRooRealVar = true) :
    initStdVects fcn = .ok { fcn with
      _vars := fcn._floatParamList,
      _vals := fcn._floatParamList.map (fun p => (fcn.heap p).getVal) } := by
  unfold initStdVects
  simp only
  rw [initStdVects.loop_ok fcn.heap fcn._floatParamList 0 _ _ h
    (by rw [resize_length]; omega) (by rw [resize_length, resize_length]; omega)]
  simp

theorem initStdVects_error (fcn : RooMinimizerFcnOpt)
    (h : ∃ p ∈ fcn._floatParamList, (fcn.heap p).isRooRealVar = false) :
    ∃ e, initStdVects fcn = .error e := by
  unfold initStdVects
  simp only
  obtain ⟨e, he⟩ := initStdVects.loop_error fcn.heap fcn._floatParamList 0
    (resize fcn._vars fcn._floatParamList.length nullPtr)
    (resize fcn._vals (resize fcn._vars fcn._floatParamList.length nullPtr).length 0) h
  exact ⟨e, by rw [he]⟩

/-- The two loops of `Synchronize` leave the heap alone, only append to the
floating list real-valued non-constant entries taken from the constant list, and
only remove entries from the constant list. -/
theorem Synchronize.passes_lists (fcn : RooMinimizerFcnOpt)
    (parameters : List ParameterSettings) (verbose : Bool) :
    (Synchronize.passes fcn parameters verbose).fcn.heap = fcn.heap ∧
    (∃ extra : List Ptr,
      (Synchronize.passes fcn parameters verbose).fcn._floatParamList
        = fcn._floatParamList ++ extra ∧
      ∀ p ∈ extra, p ∈ fcn._constParamList ∧ (fcn.heap p).isRooRealVar = true ∧
        (fcn.heap p).isConstant = false) ∧
    (∀ p ∈ (Synchronize.passes fcn parameters verbose).fcn._constParamList,
      p ∈ fcn._constParamList) := by
  unfold Synchronize.passes
  simp only
  obtain ⟨hheap, ⟨extra, hfl, hex⟩, hcl⟩ := Synchronize.constLoop_lists verbose
    fcn._constParamList.length 0
    { fcn := fcn, parameters := parameters, constValChange := false, constStatChange := false }
  obtain ⟨m, hm⟩ := Synchronize.floatLoop_fcn verbose
    (Synchronize.constLoop verbose fcn._constParamList.length 0
      { fcn := fcn, parameters := parameters, constValChange := false,
        constStatChange := false }).fcn._floatParamList.length 0
    { (Synchronize.constLoop verbose fcn._constParamList.length 0
        { fcn := fcn, parameters := parameters, constValChange := false,
          constStatChange := false }) with
      fcn := { (Synchronize.constLoop verbose fcn._constParamList.length 0
        { fcn := fcn, parameters := parameters, constValChange := false,
          constStatChange := false }).fcn with
        _initConstParamList :=
          RooArgList.assign (Synchronize.constLoop verbose fcn._constParamList.length 0
            { fcn := fcn, parameters := parameters, constValChange := false,
              constStatChange := false }).fcn.heap
            (Synchronize.constLoop verbose fcn._constParamList.length 0
              { fcn := fcn, parameters := parameters, constValChange := false,
                constStatChange := false }).fcn._initConstParamList
            (Synchronize.constLoop verbose fcn._constParamList.length 0
              { fcn := fcn, parameters := parameters, constValChange := false,
                constStatChange := false }).fcn._constParamList } }
  rw [hm]
  exact ⟨hheap, ⟨extra, hfl, hex⟩, hcl⟩

theorem Synchronize.notify_lists (optConst : Bool) (st : SyncState) :
    (Synchronize.notify optConst st).heap = st.fcn.heap ∧
    (Synchronize.notify optConst st)._floatParamList = st.fcn._floatParamList ∧
    (Synchronize.notify optConst st)._constParamList = st.fcn._constParamList := by
  unfold Synchronize.notify
  split
  · split
    · exact ⟨rfl, rfl, rfl⟩
    · split <;> exact ⟨rfl, rfl, rfl⟩
  · exact ⟨rfl, rfl, rfl⟩

/-- Outcome of `Synchronize` when every entry of the floating list is a
`RooRealVar`: it returns `0`, and the object is the notified one with
`_floatParamVec`, `_vars` and `_vals` rebuilt from the floating list. -/
theorem Synchronize_ok (fcn : RooMinimizerFcnOpt) (parameters : List ParameterSettings)
    (optConst verbose : Bool)
    (h : ∀ p ∈ fcn._floatParamList, (fcn.heap p).isRooRealVar = true) :
    Synchronize fcn parameters optConst verbose = .ok (false,
      { Synchronize.notify optConst (Synchronize.passes fcn parameters verbose) with
        _floatParamVec := (Synchronize.passes fcn parameters verbose).fcn._floatParamList,
        _vars := (Synchronize.passes fcn parameters verbose).fcn._floatParamList,
        _vals := (Synchronize.passes fcn parameters verbose).fcn._floatParamList.map
          (fun p => (fcn.heap p).getVal) },
      (Synchronize.passes fcn parameters verbose).parameters) := by
  obtain ⟨hheap, ⟨extra, hfl, hex⟩, _⟩ := Synchronize.passes_lists fcn parameters verbose
  obtain ⟨nheap, nfl, _⟩ := Synchronize.notify_lists optConst
    (Synchronize.passes fcn parameters verbose)
  have hall : ∀ p ∈ (updateFloatVec (Synchronize.notify optConst
      (Synchronize.passes fcn parameters verbose)))._floatParamList,
      ((updateFloatVec (Synchronize.notify optConst
        (Synchronize.passes fcn parameters verbose))).heap p).isRooRealVar = true := by
    intro p hp
    simp only [updateFloatVec] at hp ⊢
    rw [nheap, hheap]
    rw [nfl, hfl] at hp
    rcases List.mem_append.mp hp with hp | hp
    · exact h p hp
    · exact (hex p hp).2.1
  unfold Synchronize
  simp only
  rw [initStdVects_ok _ hall]
  simp only [updateFloatVec, nfl, nheap, hheap]

end RooMinimizerFcnOpt

/-! ## Claims on `Synchronize` -/

namespace RooMinimizerFcnOpt

theorem Synchronize.constBody_parameters (verbose : Bool) (index : Nat) (st : SyncState) :
    (Synchronize.constBody verbose index st).parameters = st.parameters := by
  unfold Synchronize.constBody
  split
  · rfl
  · split
    · rfl
    · simp only
      split <;> split <;> rfl

theorem Synchronize.constLoop_parameters (verbose : Bool) (fuel : Nat) :
    ∀ (index : Nat) (st : SyncState),
      (Synchronize.constLoop verbose fuel index st).parameters = st.parameters := by
  induction fuel with
  | zero => intro index st; rfl
  | succ n ih =>
    intro index st
    rw [Synchronize.constLoop]
    split
    · rw [ih, Synchronize.constBody_parameters]
    · rfl

/-- The settings vector after the two loops of `Synchronize`, position by
position, when every floating entry is a `RooRealVar`. -/
theorem Synchronize.passes_parameters (fcn : RooMinimizerFcnOpt)
    (parameters : List ParameterSettings) (verbose : Bool)
    (h : ∀ p ∈ fcn._floatParamList, (fcn.heap p).isRooRealVar = true) (i : Nat) :
    (Synchronize.passes fcn parameters verbose).parameters[i]? =
      Synchronize.reconciled fcn.heap
        (Synchronize.passes fcn parameters verbose).fcn._floatParamList[i]? parameters[i]? := by
  obtain ⟨m, hm⟩ := Synchronize.floatLoop_fcn verbose
    (Synchronize.constLoop verbose fcn._constParamList.length 0
      ⟨fcn, parameters, false, false⟩).fcn._floatParamList.length 0
    { (Synchronize.constLoop verbose fcn._constParamList.length 0
        ⟨fcn, parameters, false, false⟩) with
      fcn := { (Synchronize.constLoop verbose fcn._constParamList.length 0
        ⟨fcn, parameters, false, false⟩).fcn with
        _initConstParamList :=
          RooArgList.assign (Synchronize.constLoop verbose fcn._constParamList.length 0
            ⟨fcn, parameters, false, false⟩).fcn.heap
            (Synchronize.constLoop verbose fcn._constParamList.length 0
              ⟨fcn, parameters, false, false⟩).fcn._initConstParamList
            (Synchronize.constLoop verbose fcn._constParamList.length 0
              ⟨fcn, parameters, false, false⟩).fcn._constParamList } }
  obtain ⟨hheap, ⟨extra, hfl, hex⟩, _⟩ := Synchronize.constLoop_lists verbose
    fcn._constParamList.length 0 ⟨fcn, parameters, false, false⟩
  have hpar := Synchronize.constLoop_parameters verbose fcn._constParamList.length 0
    ⟨fcn, parameters, false, false⟩
  have key := Synchronize.floatLoop_parameters verbose
    (Synchronize.constLoop verbose fcn._constParamList.length 0
      ⟨fcn, parameters, false, false⟩).fcn._floatParamList.length 0
    { (Synchronize.constLoop verbose fcn._constParamList.length 0
        ⟨fcn, parameters, false, false⟩) with
      fcn := { (Synchronize.constLoop verbose fcn._constParamList.length 0
        ⟨fcn, parameters, false, false⟩).fcn with
        _initConstParamList :=
          RooArgList.assign (Synchronize.constLoop verbose fcn._constParamList.length 0
            ⟨fcn, parameters, false, false⟩).fcn.heap
            (Synchronize.constLoop verbose fcn._constParamList.length 0
              ⟨fcn, parameters, false, false⟩).fcn._initConstParamList
            (Synchronize.constLoop verbose fcn._constParamList.length 0
              ⟨fcn, parameters, false, false⟩).fcn._constParamList } }
    (by
      intro p hp
      simp only at hp ⊢
      rw [hheap]
      rw [hfl] at hp
      rcases List.mem_append.mp hp with hp | hp
      · exact h p hp
      · exact (hex p hp).2.1)
    (Nat.zero_le _) (by simp) i
  unfold Synchronize.passes
  simp only at key ⊢
  rw [key, hm]
  simp only [Nat.zero_le, if_true, hheap, hpar]

/-- C1: when all members of the floating list are numeric parameters,
`Synchronize` completes, and afterwards the evaluation cache has exactly as many
entries as the floating list; at every position the cached reference is the
floating-list entry and the cached value is that parameter's current value. -/
theorem C1_cache_matches_floating_set (fcn : RooMinimizerFcnOpt)
    (parameters : List ParameterSettings) (optConst verbose : Bool)
    (h : ∀ p ∈ fcn._floatParamList, (fcn.heap p).isRooRealVar = true) :
    ∃ fcn1 parameters1,
      Synchronize fcn parameters optConst verbose = .ok (false, fcn1, parameters1) ∧
      fcn1._vars.length = fcn1._floatParamList.length ∧
      fcn1._vals.length = fcn1._floatParamList.length ∧
      ∀ (i : Nat) (hi : i < fcn1._floatParamList.length),
        fcn1._vars[i]? = some fcn1._floatParamList[i] ∧
        fcn1._vals[i]? = some (fcn1.heap fcn1._floatParamList[i]).getVal := by
  obtain ⟨hheap, _, _⟩ := Synchronize.passes_lists fcn parameters verbose
  obtain ⟨nheap, nfl, _⟩ := Synchronize.notify_lists optConst
    (Synchronize.passes fcn parameters verbose)
  refine ⟨_, _, Synchronize_ok fcn parameters optConst verbose h, ?_, ?_, ?_⟩
  · simp only [nfl]
  · simp only [nfl, List.length_map]
  · intro i hi
    simp only [nfl] at hi ⊢
    simp only [nheap, hheap]
    constructor
    · exact List.getElem?_eq_getElem hi
    · rw [List.getElem?_map, List.getElem?_eq_getElem hi]
      rfl

/-- Witness of C1 on the example object with floating list `[a, b]` and constant
list `[c]`. -/
theorem C1_cache_matches_floating_set_witness :
    (∀ p ∈ (exFcn [1, 2] [3])._floatParamList, ((exFcn [1, 2] [3]).heap p).isRooRealVar = true) ∧
    ∃ fcn1 parameters1,
      Synchronize (exFcn [1, 2] [3]) [] true false = .ok (false, fcn1, parameters1) ∧
      fcn1._vars.length = fcn1._floatParamList.length ∧
      fcn1._vals.length = fcn1._floatParamList.length ∧
      ∀ (i : Nat) (hi : i < fcn1._floatParamList.length),
        fcn1._vars[i]? = some fcn1._floatParamList[i] ∧
        fcn1._vals[i]? = some (fcn1.heap fcn1._floatParamList[i]).getVal :=
  ⟨by decide, C1_cache_matches_floating_set (exFcn [1, 2] [3]) [] true false (by decide)⟩

/-- C2, evaluated at the failing input: `a` and `b` sit at consecutive positions
of the constant list and are both no longer constant. `Synchronize` completes,
but removing `a` shifts `b` to the index the loop has just left, so `b` is
skipped: it is still in the constant list and not in the floating list. -/
theorem C2_consecutive_release_skips_second :
    (exFcn [] [1, 2])._constParamList = [1, 2] ∧
    (exHeap 1).isConstant = false ∧ (exHeap 2).isConstant = false ∧
    ∃ fcn1 parameters1,
      Synchronize (exFcn [] [1, 2]) [] true false = .ok (false, fcn1, parameters1) ∧
      fcn1._floatParamList = [1] ∧ fcn1._constParamList = [2] := by
  refine ⟨rfl, rfl, rfl, _, _,
    Synchronize_ok (exFcn [] [1, 2]) [] true false (by decide), ?_, ?_⟩
  · simp only [(Synchronize.notify_lists _ _).2.1]
    decide
  · simp only [(Synchronize.notify_lists _ _).2.2]
    decide

/-- C3, counterexample: `c` is in the floating list and constant; after
`Synchronize` it is still in the floating list and not in the constant list. -/
theorem C3_counterexample :
    3 ∈ (exFcn [3] [])._floatParamList ∧ (exHeap 3).isConstant = true ∧
    ∃ fcn1 parameters1,
      Synchronize (exFcn [3] []) [] true false = .ok (false, fcn1, parameters1) ∧
      ¬ (3 ∈ fcn1._constParamList ∧ 3 ∉ fcn1._floatParamList) := by
  refine ⟨by decide, rfl, _, _, Synchronize_ok (exFcn [3] []) [] true false (by decide), ?_⟩
  simp only [(Synchronize.notify_lists _ _).2.1, (Synchronize.notify_lists _ _).2.2]
  decide

/-- C3, amended: a constant numeric parameter at position `i` of the floating list
(all floating members being numeric parameters) is, after `Synchronize`, still at
position `i` of the floating list; it has not entered the constant list; and the
settings entry at position `i`, when there is one, is fixed and carries the
parameter's current value. -/
theorem C3_constant_floating_entry_stays_fixed (fcn : RooMinimizerFcnOpt)
    (parameters : List ParameterSettings) (optConst verbose : Bool)
    (h : ∀ p ∈ fcn._floatParamList, (fcn.heap p).isRooRealVar = true)
    (i : Nat) (p : Ptr) (hp : fcn._floatParamList[i]? = some p)
    (hc : (fcn.heap p).isConstant = true) :
    ∃ fcn1 parameters1,
      Synchronize fcn parameters optConst verbose = .ok (false, fcn1, parameters1) ∧
      fcn1._floatParamList[i]? = some p ∧
      (p ∉ fcn._constParamList → p ∉ fcn1._constParamList) ∧
      ∀ old, parameters[i]? = some old →
        ∃ e, parameters1[i]? = some e ∧ e.IsFixed = true ∧ e.Value = (fcn.heap p).getVal := by
  obtain ⟨hheap, ⟨extra, hfl, hex⟩, hcl⟩ := Synchronize.passes_lists fcn parameters verbose
  obtain ⟨nheap, nfl, ncl⟩ := Synchronize.notify_lists optConst
    (Synchronize.passes fcn parameters verbose)
  have hi : i < fcn._floatParamList.length := by
    by_contra hcon
    rw [List.getElem?_eq_none (by omega)] at hp
    cases hp
  have hp1 : (Synchronize.passes fcn parameters verbose).fcn._floatParamList[i]? = some p := by
    rw [hfl, List.getElem?_append_left hi, hp]
  refine ⟨_, _, Synchronize_ok fcn parameters optConst verbose h, ?_, ?_, ?_⟩
  · simp only [nfl]
    exact hp1
  · intro hn hin
    simp only [ncl] at hin
    exact hn (hcl p hin)
  · intro old hold
    rw [Synchronize.passes_parameters fcn parameters verbose h i, hp1, hold]
    refine ⟨_, rfl, ?_, ?_⟩
    · cases hfix : old.IsFixed <;>
        by_cases hv : old.Value = (fcn.heap p).getVal <;>
        simp [Synchronize.updateEntry, hc, hfix, hv, ParameterSettings.Fix,
          ParameterSettings.SetValue]
    · cases hfix : old.IsFixed <;>
        by_cases hv : old.Value = (fcn.heap p).getVal <;>
        simp [Synchronize.updateEntry, hc, hfix, hv, ParameterSettings.Fix,
          ParameterSettings.SetValue]

/-- Witness of the amended C3: `c` is constant and sits at position 0 of the
floating list, with a free settings entry of value 1 at position 0. -/
theorem C3_constant_floating_entry_stays_fixed_witness :
    ∃ fcn1 parameters1,
      Synchronize (exFcn [3] []) [ParameterSettings.mk3 "c" 1 1] true false
        = .ok (false, fcn1, parameters1) ∧
      fcn1._floatParamList[0]? = some 3 ∧
      (3 ∉ (exFcn [3] [])._constParamList → 3 ∉ fcn1._constParamList) ∧
      ∀ old, [ParameterSettings.mk3 "c" 1 1][0]? = some old →
        ∃ e, parameters1[0]? = some e ∧ e.IsFixed = true ∧
          e.Value = ((exFcn [3] []).heap 3).getVal :=
  C3_constant_floating_entry_stays_fixed (exFcn [3] []) [ParameterSettings.mk3 "c" 1 1]
    true false (by decide) 0 3 rfl rfl

/-- C9, evaluated at the failing input: the floating list holds the non-constant
`lin`, which is not of the numeric-parameter kind `RooRealVar`, before `a`. The
loops of `Synchronize` do not remove `lin`: the floating list they leave is still
`[lin, a]`, `_nDim` is still 2 and no warning is printed, because the removal
branch of lines 496-505 is only reached by an entry on which the cast of line 486
succeeds. `Synchronize` then does not complete: the rebuild of the cache throws. -/
theorem C9_non_numeric_entry_throws :
    (exFcn [4, 1] [])._floatParamList = [4, 1] ∧ (exHeap 4).isRooRealVar = false ∧
    (exHeap 4).isConstant = false ∧
    (Synchronize.passes (exFcn [4, 1] []) [] false).fcn._floatParamList = [4, 1] ∧
    (Synchronize.passes (exFcn [4, 1] []) [] false).fcn._nDim = 2 ∧
    (Synchronize.passes (exFcn [4, 1] []) [] false).fcn.msgs = [] ∧
    Synchronize (exFcn [4, 1] []) [] true false
      = .error "Float param not a RooRealVar but a RooLinearVar" := by
  refine ⟨rfl, rfl, rfl, ?_, ?_, ?_, ?_⟩
  · decide
  · decide
  · decide
  · rfl

/-- The behaviour of the code as it stands: `Synchronize` throws (from
`initStdVects`) exactly when the floating list holds an entry on which the cast
to `RooRealVar` fails. -/
theorem Synchronize_error_iff (fcn : RooMinimizerFcnOpt)
    (parameters : List ParameterSettings) (optConst verbose : Bool) :
    (∃ p ∈ fcn._floatParamList, (fcn.heap p).isRooRealVar = false) ↔
      ∃ e, Synchronize fcn parameters optConst verbose = .error e := by
  constructor
  · rintro ⟨p, hp, hn⟩
    obtain ⟨hheap, ⟨extra, hfl, _⟩, _⟩ := Synchronize.passes_lists fcn parameters verbose
    obtain ⟨nheap, nfl, _⟩ := Synchronize.notify_lists optConst
      (Synchronize.passes fcn parameters verbose)
    obtain ⟨e, he⟩ := initStdVects_error
      (updateFloatVec (Synchronize.notify optConst (Synchronize.passes fcn parameters verbose)))
      ⟨p, by
        simp only [updateFloatVec, nfl, hfl]
        exact List.mem_append_left _ hp, by
        simp only [updateFloatVec, nheap, hheap]
        exact hn⟩
    exact ⟨e, by unfold Synchronize; simp only; rw [he]⟩
  · rintro ⟨e, he⟩
    by_contra hcon
    have hall : ∀ p ∈ fcn._floatParamList, (fcn.heap p).isRooRealVar = true := by
      intro p hp
      by_contra hn
      exact hcon ⟨p, hp, by simpa using hn⟩
    rw [Synchronize_ok fcn parameters optConst verbose hall] at he
    cases he

end RooMinimizerFcnOpt

/-! ## Claims on `DoEval` -/

namespace RooMinimizerFcnOpt

/-- Setting one parameter changes the heap and the cached values only. -/
theorem DoEval.setParam_fields (clip : Clip) (x : List ℚ) (fcn : RooMinimizerFcnOpt)
    (index : Nat) :
    ∃ h v, DoEval.setParam clip x fcn index = { fcn with heap := h, _vals := v } := by
  unfold DoEval.setParam
  split
  · exact ⟨_, _, rfl⟩
  · exact ⟨fcn.heap, fcn._vals, rfl⟩

theorem DoEval.foldl_setParam_fields (clip : Clip) (x : List ℚ) :
    ∀ (l : List Nat) (fcn : RooMinimizerFcnOpt),
      ∃ h v, l.foldl (DoEval.setParam clip x) fcn = { fcn with heap := h, _vals := v } := by
  intro l
  induction l with
  | nil => intro fcn; exact ⟨fcn.heap, fcn._vals, rfl⟩
  | cons i rest ih =>
    intro fcn
    obtain ⟨h, v, hs⟩ := DoEval.setParam_fields clip x fcn i
    obtain ⟨h', v', hr⟩ := ih (DoEval.setParam clip x fcn i)
    exact ⟨h', v', by rw [List.foldl_cons, hr, hs]⟩

/-- Setting the parameters changes the heap and the cached values only. -/
theorem DoEval.setParams_fields (clip : Clip) (x : List ℚ) (fcn : RooMinimizerFcnOpt) :
    ∃ h v, DoEval.setParams clip x fcn = { fcn with heap := h, _vals := v } :=
  DoEval.foldl_setParam_fields clip x _ fcn

/-- The `Int_t` increment: one more below `kMaxInt`, `kMinInt` at `kMaxInt`. -/
theorem Int_t.wrap_succ (n : Int) :
    (kMinInt ≤ n → n < kMaxInt → Int_t.wrap (n + 1) = n + 1) ∧
    (n = kMaxInt → Int_t.wrap (n + 1) = kMinInt) := by
  unfold Int_t.wrap kMinInt kMaxInt
  constructor
  · intro h1 h2
    omega
  · intro h
    omega

/-- C4, counterexample: the counter `_numBadNLL` is at the largest `Int_t`, the
evaluation signals an error and the wall policy is active. The counter does not
increase by one: the increment of line 413 overflows and leaves the smallest
`Int_t`. -/
theorem C4_counterexample :
    hasEvalError (DoEval.evaluated exFunct clipToRange exFcnMaxBad [7]) = true ∧
    exFcnMaxBad._doEvalErrorWall = true ∧
    exFcnMaxBad._numBadNLL = 2147483647 ∧
    (DoEval exFunct clipToRange exFcnMaxBad [7]).2._numBadNLL = -2147483648 ∧
    ¬ ((DoEval exFunct clipToRange exFcnMaxBad [7]).2._numBadNLL
        = exFcnMaxBad._numBadNLL + 1) := by
  have h : (DoEval exFunct clipToRange exFcnMaxBad [7]).2._numBadNLL = -2147483648 := by
    decide
  refine ⟨by decide, rfl, rfl, h, ?_⟩
  rw [h]
  decide

/-- C4, amended: if the evaluation signals an error (error flag set or a nonzero
count of evaluation errors after `getVal`) and the wall policy is active, `DoEval`
returns the `_maxFCN` held before the call and leaves `_maxFCN` as it was; the
counter `_numBadNLL`, an `Int_t`, increases by exactly one when it is below
`kMaxInt`, and at `kMaxInt` it wraps to `kMinInt`. -/
theorem C4_wall_returns_running_maximum (funct : Funct) (clip : Clip)
    (fcn : RooMinimizerFcnOpt) (x : List ℚ)
    (herr : hasEvalError (DoEval.evaluated funct clip fcn x) = true)
    (hwall : fcn._doEvalErrorWall = true) :
    (DoEval funct clip fcn x).1 = fcn._maxFCN ∧
    (DoEval funct clip fcn x).2._maxFCN = fcn._maxFCN ∧
    (kMinInt ≤ fcn._numBadNLL → fcn._numBadNLL < kMaxInt →
      (DoEval funct clip fcn x).2._numBadNLL = fcn._numBadNLL + 1) ∧
    (fcn._numBadNLL = kMaxInt → (DoEval funct clip fcn x).2._numBadNLL = kMinInt) := by
  obtain ⟨h, v, hs⟩ := DoEval.setParams_fields clip x fcn
  have hw : (DoEval.evaluated funct clip fcn x)._doEvalErrorWall = true := by
    simp only [DoEval.evaluated, hs, hwall]
  have hm : (DoEval.evaluated funct clip fcn x)._maxFCN = fcn._maxFCN := by
    simp only [DoEval.evaluated, hs]
  have hb : (DoEval.evaluated funct clip fcn x)._numBadNLL = fcn._numBadNLL := by
    simp only [DoEval.evaluated, hs]
  unfold DoEval
  simp only [herr, hw, if_true, hm, hb, true_and]
  exact Int_t.wrap_succ fcn._numBadNLL

/-- C5, counterexample: the counter `_numBadNLL` is at the largest `Int_t`, the
evaluation signals an error and the wall policy is not active. The counter does
not increase by one: the increment of line 413 overflows and leaves the smallest
`Int_t`. -/
theorem C5_counterexample :
    hasEvalError (DoEval.evaluated exFunct clipToRange exFcnNoWallMaxBad [7]) = true ∧
    exFcnNoWallMaxBad._doEvalErrorWall = false ∧
    exFcnNoWallMaxBad._numBadNLL = 2147483647 ∧
    (DoEval exFunct clipToRange exFcnNoWallMaxBad [7]).2._numBadNLL = -2147483648 ∧
    ¬ ((DoEval exFunct clipToRange exFcnNoWallMaxBad [7]).2._numBadNLL
        = exFcnNoWallMaxBad._numBadNLL + 1) := by
  have h : (DoEval exFunct clipToRange exFcnNoWallMaxBad [7]).2._numBadNLL
      = -2147483648 := by
    decide
  refine ⟨by decide, rfl, rfl, h, ?_⟩
  rw [h]
  decide

/-- C5, amended: if the evaluation signals an error and the wall policy is not
active, `DoEval` returns the raw value of the objective; and whatever the wall
policy and the error-reporting level, an erroneous evaluation leaves the error
flag and the error log cleared; the counter `_numBadNLL`, an `Int_t`, increases
by exactly one when it is below `kMaxInt`, and at `kMaxInt` it wraps to
`kMinInt`. -/
theorem C5_error_passes_value_and_clears (funct : Funct) (clip : Clip)
    (fcn : RooMinimizerFcnOpt) (x : List ℚ)
    (herr : hasEvalError (DoEval.evaluated funct clip fcn x) = true) :
    (fcn._doEvalErrorWall = false →
      (DoEval funct clip fcn x).1 = (funct (DoEval.setParams clip x fcn)).getVal) ∧
    (DoEval funct clip fcn x).2.evalError = false ∧
    (DoEval funct clip fcn x).2.numEvalErrors = 0 ∧
    hasEvalError (DoEval funct clip fcn x).2 = false ∧
    (kMinInt ≤ fcn._numBadNLL → fcn._numBadNLL < kMaxInt →
      (DoEval funct clip fcn x).2._numBadNLL = fcn._numBadNLL + 1) ∧
    (fcn._numBadNLL = kMaxInt → (DoEval funct clip fcn x).2._numBadNLL = kMinInt) := by
  obtain ⟨h, v, hs⟩ := DoEval.setParams_fields clip x fcn
  have hw : (DoEval.evaluated funct clip fcn x)._doEvalErrorWall = fcn._doEvalErrorWall := by
    simp only [DoEval.evaluated, hs]
  have hb : (DoEval.evaluated funct clip fcn x)._numBadNLL = fcn._numBadNLL := by
    simp only [DoEval.evaluated, hs]
  unfold DoEval
  simp only [herr, if_true, hw, hb]
  refine ⟨?_, ?_, ?_, ?_, ?_⟩
  · intro hwall
    simp [hwall]
  · trivial
  · trivial
  · simp [hasEvalError]
  · exact Int_t.wrap_succ fcn._numBadNLL

theorem DoEval.setParam_of_committed (clip : Clip) (x : List ℚ) (fcn : RooMinimizerFcnOpt)
    (index : Nat) (h : DoEval.Committed clip x fcn index) :
    DoEval.setParam clip x fcn index = fcn := by
  unfold DoEval.setParam
  rcases h with h | ⟨h1, h2⟩
  · simp only [ne_eq, h, not_true_eq_false, if_false]
  · split
    · simp only [h1, Function.update_eq_self, h2]
    · rfl

theorem DoEval.committed_setParam_self (clip : Clip) (x : List ℚ) (fcn : RooMinimizerFcnOpt)
    (k : Nat) : DoEval.Committed clip x (DoEval.setParam clip x fcn k) k := by
  unfold DoEval.setParam
  by_cases hv : fcn._vals.getD k 0 = x.getD k 0
  · simp only [hv, ne_eq, not_true_eq_false, if_false]
    exact Or.inl hv
  · simp only [ne_eq, hv, not_false_eq_true, if_true]
    refine Or.inr ⟨?_, ?_⟩
    · simp only [Function.update_same]
      simp [RooRealVar.setVal]
    · simp only [Function.update_same, List.set_set]

theorem DoEval.committed_setParam_other (clip : Clip) (x : List ℚ) (fcn : RooMinimizerFcnOpt)
    (i k : Nat) (hik : i ≠ k)
    (hp : fcn._vars.getD i nullPtr ≠ fcn._vars.getD k nullPtr)
    (h : DoEval.Committed clip x fcn i) :
    DoEval.Committed clip x (DoEval.setParam clip x fcn k) i := by
  unfold DoEval.setParam
  by_cases hv : fcn._vals.getD k 0 = x.getD k 0
  · simp only [hv, ne_eq, not_true_eq_false, if_false]
    exact h
  · simp only [ne_eq, hv, not_false_eq_true, if_true]
    rcases h with h | ⟨h1, h2⟩
    · left
      simp only [List.getD_eq_getElem?_getD] at h ⊢
      rw [List.getElem?_set_ne (Ne.symm hik)]
      exact h
    · right
      simp only [Function.update_noteq hp]
      refine ⟨h1, ?_⟩
      rw [List.set_comm _ _ _ (Ne.symm hik), h2]

/-- Whether a position is committed depends on the heap and the two cache
vectors only. -/
theorem DoEval.committed_congr (clip : Clip) (x : List ℚ) (fcn fcn1 : RooMinimizerFcnOpt)
    (i : Nat) (hh : fcn1.heap = fcn.heap) (hv : fcn1._vars = fcn._vars)
    (hw : fcn1._vals = fcn._vals) (h : DoEval.Committed clip x fcn i) :
    DoEval.Committed clip x fcn1 i := by
  unfold DoEval.Committed at h ⊢
  rw [hh, hv, hw]
  exact h

theorem DoEval.foldl_setParam_vars (clip : Clip) (x : List ℚ) (l : List Nat)
    (fcn : RooMinimizerFcnOpt) :
    (l.foldl (DoEval.setParam clip x) fcn)._vars = fcn._vars ∧
    (l.foldl (DoEval.setParam clip x) fcn)._nDim = fcn._nDim := by
  obtain ⟨h, v, hs⟩ := DoEval.foldl_setParam_fields clip x l fcn
  rw [hs]
  exact ⟨rfl, rfl⟩

/-- Running the loop body over distinct positions with distinct parameters
commits each of them, and keeps committed the positions that were. -/
theorem DoEval.foldl_setParam_committed (clip : Clip) (x : List ℚ) (n : Nat) :
    ∀ (l : List Nat) (fcn : RooMinimizerFcnOpt) (D : Nat → Prop),
      (∀ i k, i < n → k < n → i ≠ k →
        fcn._vars.getD i nullPtr ≠ fcn._vars.getD k nullPtr) →
      l.Nodup → (∀ i ∈ l, i < n) →
      (∀ i, D i → i < n ∧ i ∉ l ∧ DoEval.Committed clip x fcn i) →
      ∀ i, (D i ∨ i ∈ l) → DoEval.Committed clip x (l.foldl (DoEval.setParam clip x) fcn) i := by
  intro l
  induction l with
  | nil =>
    intro fcn D _ _ _ hD i hi
    rcases hi with hi | hi
    · exact (hD i hi).2.2
    · simp at hi
  | cons k rest ih =>
    intro fcn D hinj hnd hlt hD i hi
    rw [List.foldl_cons]
    have hvars : (DoEval.setParam clip x fcn k)._vars = fcn._vars := by
      obtain ⟨h, v, hs⟩ := DoEval.setParam_fields clip x fcn k
      rw [hs]
    have hk : k < n := hlt k (List.mem_cons_self _ _)
    have hnd' := List.nodup_cons.mp hnd
    apply ih (DoEval.setParam clip x fcn k) (fun j => D j ∨ j = k)
    · intro a b ha hb hab
      rw [hvars]
      exact hinj a b ha hb hab
    · exact hnd'.2
    · intro j hj
      exact hlt j (List.mem_cons_of_mem _ hj)
    · intro j hj
      rcases hj with hj | rfl
      · obtain ⟨hjn, hjl, hjc⟩ := hD j hj
        have hjk : j ≠ k := fun e => hjl (e ▸ List.mem_cons_self _ _)
        refine ⟨hjn, fun hmem => hjl (List.mem_cons_of_mem _ hmem), ?_⟩
        exact DoEval.committed_setParam_other clip x fcn j k hjk (hinj j k hjn hk hjk) hjc
      · exact ⟨hk, hnd'.1, DoEval.committed_setParam_self clip x fcn j⟩
    · rcases hi with hi | hi
      · exact Or.inl (Or.inl hi)
      · rcases List.mem_cons.mp hi with rfl | hi
        · exact Or.inl (Or.inr rfl)
        · exact Or.inr hi

theorem DoEval.foldl_setParam_eq_self (clip : Clip) (x : List ℚ) :
    ∀ (l : List Nat) (fcn : RooMinimizerFcnOpt),
      (∀ i ∈ l, DoEval.Committed clip x fcn i) → l.foldl (DoEval.setParam clip x) fcn = fcn := by
  intro l
  induction l with
  | nil => intro fcn _; rfl
  | cons k rest ih =>
    intro fcn h
    rw [List.foldl_cons, DoEval.setParam_of_committed clip x fcn k (h k (List.mem_cons_self _ _))]
    exact ih fcn (fun i hi => h i (List.mem_cons_of_mem _ hi))

/-- After the loop of `DoEval` every position below `_nDim` is committed, when the
first `_nDim` entries of `_vars` are distinct parameters. -/
theorem DoEval.setParams_committed (clip : Clip) (x : List ℚ) (fcn : RooMinimizerFcnOpt)
    (hdim : fcn._nDim.toNat ≤ fcn._vars.length) (hnodup : fcn._vars.Nodup) :
    ∀ i, i < fcn._nDim.toNat → DoEval.Committed clip x (DoEval.setParams clip x fcn) i := by
  intro i hi
  unfold DoEval.setParams
  apply DoEval.foldl_setParam_committed clip x fcn._nDim.toNat (List.range fcn._nDim.toNat) fcn
    (fun _ => False)
  · intro a b ha hb hab heq
    have ha' : a < fcn._vars.length := by omega
    have hb' : b < fcn._vars.length := by omega
    simp only [List.getD_eq_getElem?_getD, List.getElem?_eq_getElem ha',
      List.getElem?_eq_getElem hb', Option.getD_some] at heq
    exact hab ((List.Nodup.getElem_inj_iff hnodup).mp heq)
  · exact List.nodup_range _
  · intro j hj
    exact List.mem_range.mp hj
  · intro j hj
    exact hj.elim
  · exact Or.inr (List.mem_range.mpr hi)

/-- Setting the same coordinates again on a state whose heap and cache are those
left by the loop of `DoEval` changes nothing. -/
theorem DoEval.setParams_again (clip : Clip) (x : List ℚ) (fcn fcn1 : RooMinimizerFcnOpt)
    (hdim : fcn._nDim.toNat ≤ fcn._vars.length) (hnodup : fcn._vars.Nodup)
    (hh : fcn1.heap = (DoEval.setParams clip x fcn).heap)
    (hv : fcn1._vars = (DoEval.setParams clip x fcn)._vars)
    (hw : fcn1._vals = (DoEval.setParams clip x fcn)._vals)
    (hn : fcn1._nDim = fcn._nDim) :
    DoEval.setParams clip x fcn1 = fcn1 := by
  unfold DoEval.setParams
  apply DoEval.foldl_setParam_eq_self
  intro i hi
  rw [hn] at hi
  exact DoEval.committed_congr clip x _ fcn1 i hh hv hw
    (DoEval.setParams_committed clip x fcn hdim hnodup i (List.mem_range.mp hi))

/-- The value `DoEval` returns: the former `_maxFCN` on an error under the wall
policy, the value of the objective otherwise. -/
theorem DoEval_fst (funct : Funct) (clip : Clip) (fcn : RooMinimizerFcnOpt) (x : List ℚ) :
    (DoEval funct clip fcn x).1 =
      if hasEvalError (DoEval.evaluated funct clip fcn x) = true ∧ fcn._doEvalErrorWall = true
      then fcn._maxFCN else (funct (DoEval.setParams clip x fcn)).getVal := by
  obtain ⟨h, v, hs⟩ := DoEval.setParams_fields clip x fcn
  have hw : (DoEval.evaluated funct clip fcn x)._doEvalErrorWall = fcn._doEvalErrorWall := by
    simp only [DoEval.evaluated, hs]
  have hm : (DoEval.evaluated funct clip fcn x)._maxFCN = fcn._maxFCN := by
    simp only [DoEval.evaluated, hs]
  unfold DoEval
  simp only [hw, hm]
  by_cases he : hasEvalError (DoEval.evaluated funct clip fcn x) = true
  · simp only [he, if_true, true_and]
  · simp only [he, Bool.false_eq_true, if_false, false_and]
    split <;> rfl

/-- The state `DoEval` leaves: heap and cache are those set by the loop, no
error is pending, and `_maxFCN` is kept on an erroneous evaluation. -/
theorem DoEval_snd (funct : Funct) (clip : Clip) (fcn : RooMinimizerFcnOpt) (x : List ℚ) :
    (DoEval funct clip fcn x).2.heap = (DoEval.setParams clip x fcn).heap ∧
    (DoEval funct clip fcn x).2._vars = (DoEval.setParams clip x fcn)._vars ∧
    (DoEval funct clip fcn x).2._vals = (DoEval.setParams clip x fcn)._vals ∧
    (DoEval funct clip fcn x).2._nDim = fcn._nDim ∧
    (DoEval funct clip fcn x).2._doEvalErrorWall = fcn._doEvalErrorWall ∧
    hasEvalError (DoEval funct clip fcn x).2 = false ∧
    (hasEvalError (DoEval.evaluated funct clip fcn x) = true →
      (DoEval funct clip fcn x).2._maxFCN = fcn._maxFCN) := by
  obtain ⟨h, v, hs⟩ := DoEval.setParams_fields clip x fcn
  have hn : (DoEval.setParams clip x fcn)._nDim = fcn._nDim := by rw [hs]
  have hw : (DoEval.setParams clip x fcn)._doEvalErrorWall = fcn._doEvalErrorWall := by rw [hs]
  have hm : (DoEval.setParams clip x fcn)._maxFCN = fcn._maxFCN := by rw [hs]
  unfold DoEval
  simp only
  by_cases he : hasEvalError (DoEval.evaluated funct clip fcn x) = true
  · simp only [he, if_true]
    refine ⟨rfl, rfl, rfl, hn, hw, ?_, fun _ => hm⟩
    simp [hasEvalError]
  · simp only [he, Bool.false_eq_true, if_false]
    have he' : hasEvalError (DoEval.evaluated funct clip fcn x) = false := by simpa using he
    split
    · refine ⟨rfl, rfl, rfl, hn, hw, ?_, fun hc => by cases hc⟩
      simpa [hasEvalError] using he'
    · exact ⟨rfl, rfl, rfl, hn, hw, he', fun hc => by cases hc⟩

/-- With no error pending at entry, the test of line 380 reads the signals of this
evaluation only. -/
theorem hasEvalError_evaluated (funct : Funct) (clip : Clip) (fcn : RooMinimizerFcnOpt)
    (x : List ℚ) (hclean : hasEvalError fcn = false) :
    hasEvalError (DoEval.evaluated funct clip fcn x) =
      ((funct (DoEval.setParams clip x fcn)).evalError ||
        decide ((funct (DoEval.setParams clip x fcn)).numEvalErrors > 0)) := by
  obtain ⟨h, v, hs⟩ := DoEval.setParams_fields clip x fcn
  have h1 : (DoEval.setParams clip x fcn).evalError = fcn.evalError := by rw [hs]
  have h2 : (DoEval.setParams clip x fcn).numEvalErrors = fcn.numEvalErrors := by rw [hs]
  simp only [hasEvalError, Bool.or_eq_false_iff, decide_eq_false_iff_not] at hclean
  have h3 : fcn.numEvalErrors = 0 := by omega
  simp only [hasEvalError, DoEval.evaluated, h1, h2, hclean.1, h3, Bool.false_or, Nat.zero_add]

/-- C6, counterexample: the objective depends on the parameter values only, but
the error flag is still raised at entry from an evaluation made before. The first
call of `DoEval` with `x = [2]` reads the stale flag, returns the `_maxFCN` held
(0) under the wall policy and clears the flag; the second call, with no change
to the parameters in between, returns the value of the objective (4). -/
theorem C6_counterexample :
    (∀ s s1 : RooMinimizerFcnOpt, s.heap = s1.heap → exFunct s = exFunct s1) ∧
    exFcnPending._nDim.toNat ≤ exFcnPending._vars.length ∧ exFcnPending._vars.Nodup ∧
    hasEvalError exFcnPending = true ∧
    (DoEval exFunct clipToRange exFcnPending [2]).2.heap
      = (DoEval.setParams clipToRange [2] exFcnPending).heap ∧
    (DoEval exFunct clipToRange exFcnPending [2]).1 = 0 ∧
    (DoEval exFunct clipToRange (DoEval exFunct clipToRange exFcnPending [2]).2 [2]).1 = 4 ∧
    (DoEval exFunct clipToRange (DoEval exFunct clipToRange exFcnPending [2]).2 [2]).1
      ≠ (DoEval exFunct clipToRange exFcnPending [2]).1 := by
  have h1 : (DoEval exFunct clipToRange exFcnPending [2]).1 = 0 := by
    rw [DoEval_fst]
    rw [if_pos ⟨by decide, rfl⟩]
    rfl
  have h2 : (DoEval exFunct clipToRange
      (DoEval exFunct clipToRange exFcnPending [2]).2 [2]).1 = 4 := by
    have hv : ((DoEval.setParams clipToRange [2]
        (DoEval exFunct clipToRange exFcnPending [2]).2).heap 1).getVal = 2 := by
      decide
    have hf : ∀ s : RooMinimizerFcnOpt,
        (exFunct s).getVal = (s.heap 1).getVal * (s.heap 1).getVal := fun _ => rfl
    rw [DoEval_fst]
    rw [if_neg (by decide), hf, hv]
    norm_num
  refine ⟨fun s s1 h => by simp only [exFunct, h], by decide, by decide, by decide,
    (DoEval_snd exFunct clipToRange exFcnPending [2]).1, h1, h2, ?_⟩
  rw [h1, h2]
  norm_num

/-- C6, amended: determinism of `DoEval` from a state with no error pending. If
the objective's value and error signals are functions of the parameter values
only, no evaluation error is pending at entry (error flag clear, no accumulated
evaluation errors) and the first `_nDim` entries of `_vars` are distinct
parameters, then calling `DoEval` with `x` a second time, right after the first
call, returns the same value (also when `x` is clipped, and in the error and wall
cases). -/
theorem C6_DoEval_deterministic (funct : Funct) (clip : Clip) (fcn : RooMinimizerFcnOpt)
    (x : List ℚ)
    (hfun : ∀ s s1 : RooMinimizerFcnOpt, s.heap = s1.heap → funct s = funct s1)
    (hclean : hasEvalError fcn = false)
    (hdim : fcn._nDim.toNat ≤ fcn._vars.length) (hnodup : fcn._vars.Nodup) :
    (DoEval funct clip (DoEval funct clip fcn x).2 x).1 = (DoEval funct clip fcn x).1 := by
  obtain ⟨hh, hv, hw, hn, hwall, hcl, hmax⟩ := DoEval_snd funct clip fcn x
  have hs2 : DoEval.setParams clip x (DoEval funct clip fcn x).2 = (DoEval funct clip fcn x).2 :=
    DoEval.setParams_again clip x fcn _ hdim hnodup hh hv hw hn
  have hf : funct (DoEval funct clip fcn x).2 = funct (DoEval.setParams clip x fcn) :=
    hfun _ _ hh
  have he : hasEvalError (DoEval.evaluated funct clip (DoEval funct clip fcn x).2 x)
      = hasEvalError (DoEval.evaluated funct clip fcn x) := by
    rw [hasEvalError_evaluated funct clip _ x hcl, hasEvalError_evaluated funct clip fcn x hclean,
      hs2, hf]
  rw [DoEval_fst funct clip (DoEval funct clip fcn x).2 x, DoEval_fst funct clip fcn x,
    he, hwall, hs2, hf]
  by_cases hc : hasEvalError (DoEval.evaluated funct clip fcn x) = true ∧
      fcn._doEvalErrorWall = true
  · rw [if_pos hc, if_pos hc]
    exact hmax hc.1
  · rw [if_neg hc, if_neg hc]

/-- Witness of the amended C4: `a` is sent to 7, where the example objective
raises the error flag, under the wall policy; the counter is 0, below `kMaxInt`. -/
theorem C4_wall_returns_running_maximum_witness :
    hasEvalError (DoEval.evaluated exFunct clipToRange (exFcn [1] []) [7]) = true ∧
    (exFcn [1] [])._doEvalErrorWall = true ∧
    ((DoEval exFunct clipToRange (exFcn [1] []) [7]).1 = (exFcn [1] [])._maxFCN ∧
    (DoEval exFunct clipToRange (exFcn [1] []) [7]).2._maxFCN = (exFcn [1] [])._maxFCN ∧
    (kMinInt ≤ (exFcn [1] [])._numBadNLL → (exFcn [1] [])._numBadNLL < kMaxInt →
      (DoEval exFunct clipToRange (exFcn [1] []) [7]).2._numBadNLL
        = (exFcn [1] [])._numBadNLL + 1) ∧
    ((exFcn [1] [])._numBadNLL = kMaxInt →
      (DoEval exFunct clipToRange (exFcn [1] []) [7]).2._numBadNLL = kMinInt)) ∧
    kMinInt ≤ (exFcn [1] [])._numBadNLL ∧ (exFcn [1] [])._numBadNLL < kMaxInt :=
  ⟨by decide, rfl,
    C4_wall_returns_running_maximum exFunct clipToRange (exFcn [1] []) [7] (by decide) rfl,
    by decide, by decide⟩

/-- Witness of the amended C5: `a` is sent to 7, where the example objective
raises the error flag, with the wall policy switched off; the counter is 0, below
`kMaxInt`. -/
theorem C5_error_passes_value_and_clears_witness :
    hasEvalError (DoEval.evaluated exFunct clipToRange exFcnNoWall [7]) = true ∧
    exFcnNoWall._doEvalErrorWall = false ∧
    ((exFcnNoWall._doEvalErrorWall = false →
      (DoEval exFunct clipToRange exFcnNoWall [7]).1
        = (exFunct (DoEval.setParams clipToRange [7] exFcnNoWall)).getVal) ∧
    (DoEval exFunct clipToRange exFcnNoWall [7]).2.evalError = false ∧
    (DoEval exFunct clipToRange exFcnNoWall [7]).2.numEvalErrors = 0 ∧
    hasEvalError (DoEval exFunct clipToRange exFcnNoWall [7]).2 = false ∧
    (kMinInt ≤ exFcnNoWall._numBadNLL → exFcnNoWall._numBadNLL < kMaxInt →
      (DoEval exFunct clipToRange exFcnNoWall [7]).2._numBadNLL
        = exFcnNoWall._numBadNLL + 1) ∧
    (exFcnNoWall._numBadNLL = kMaxInt →
      (DoEval exFunct clipToRange exFcnNoWall [7]).2._numBadNLL = kMinInt)) ∧
    kMinInt ≤ exFcnNoWall._numBadNLL ∧ exFcnNoWall._numBadNLL < kMaxInt :=
  ⟨by decide, rfl,
    C5_error_passes_value_and_clears exFunct clipToRange exFcnNoWall [7] (by decide),
    by decide, by decide⟩

/-- Witness of the amended C6: no error is pending at entry; `a`, bounded by
`[0, 10]`, is sent to 12 and clipped; the example objective raises the error flag
there, under the wall policy. -/
theorem C6_DoEval_deterministic_witness :
    (∀ s s1 : RooMinimizerFcnOpt, s.heap = s1.heap → exFunct s = exFunct s1) ∧
    hasEvalError (exFcn [1] []) = false ∧
    (exFcn [1] [])._nDim.toNat ≤ (exFcn [1] [])._vars.length ∧
    (exFcn [1] [])._vars.Nodup ∧
    (DoEval exFunct clipToRange (DoEval exFunct clipToRange (exFcn [1] []) [12]).2 [12]).1
      = (DoEval exFunct clipToRange (exFcn [1] []) [12]).1 :=
  ⟨fun s s1 h => by simp only [exFunct, h], by decide, by decide, by decide,
    C6_DoEval_deterministic exFunct clipToRange (exFcn [1] []) [12]
      (fun s s1 h => by simp only [exFunct, h]) (by decide) (by decide) (by decide)⟩

end RooMinimizerFcnOpt

/-! ## Claims on the driver operations -/

theorem RooArgList.findIdx_of_find (heap : Heap) (n : String) :
    ∀ (l : List Ptr) (p : Ptr), RooArgList.find heap l n = some p →
      l.findIdx? (fun q => (heap q).GetName == n) = some (RooArgList.index l p) ∧
      l[RooArgList.index l p]? = some p := by
  intro l
  induction l with
  | nil => intro p h; simp [RooArgList.find] at h
  | cons a rest ih =>
    intro p h
    unfold RooArgList.find at h ih
    unfold RooArgList.index at ih ⊢
    by_cases ha : ((heap a).GetName == n) = true
    · rw [List.find?_cons_of_pos (p := fun q => (heap q).GetName == n) rest ha] at h
      cases h
      simp [ha]
    · rw [List.find?_cons_of_neg (p := fun q => (heap q).GetName == n) rest ha] at h
      have hp : ((heap p).GetName == n) = true :=
        List.find?_some (p := fun q => (heap q).GetName == n) h
      have hne : a ≠ p := fun e => ha (e ▸ hp)
      obtain ⟨h1, h2⟩ := ih p h
      rw [List.indexOf_cons_ne _ hne]
      constructor
      · simp only [List.findIdx?_cons, ha, Bool.false_eq_true, if_false, Nat.zero_add]
        rw [List.findIdx?_succ, h1]
        rfl
      · simpa using h2

/-- The index list computed by the loop of `minos(minosParamList)` is the list of
positions described by the spec. -/
theorem RooMinimizerOpt.minos_list.paramInd_eq (fcn : RooMinimizerFcnOpt)
    (minosParamList : List Ptr) :
    RooMinimizerOpt.minos_list.paramInd fcn minosParamList =
      minosPositions fcn.heap fcn._floatParamList
        (minosParamList.map (fun arg => (fcn.heap arg).GetName)) := by
  unfold RooMinimizerOpt.minos_list.paramInd minosPositions
  rw [List.filterMap_map]
  congr 1
  funext arg
  simp only [Function.comp]
  unfold minosPosition
  cases hf : RooArgList.find fcn.heap fcn._floatParamList (fcn.heap arg).GetName with
  | none =>
    have : fcn._floatParamList.findIdx? (fun p => (fcn.heap p).GetName == (fcn.heap arg).GetName)
        = none := by
      unfold RooArgList.find at hf
      rw [List.find?_eq_none] at hf
      rw [List.findIdx?_eq_none_iff]
      intro q hq
      simpa using hf q hq
    rw [this]
  | some par =>
    obtain ⟨h1, h2⟩ := RooArgList.findIdx_of_find fcn.heap _ fcn._floatParamList par hf
    rw [h1]
    simp only [h2]
    cases (fcn.heap par).isConstant <;> rfl

/-- A completed `Synchronize` leaves the heap as it was. -/
theorem RooMinimizerFcnOpt.Synchronize_heap (fcn fcn1 : RooMinimizerFcnOpt)
    (parameters parameters1 : List ParameterSettings) (optConst verbose b : Bool)
    (hs : RooMinimizerFcnOpt.Synchronize fcn parameters optConst verbose
      = .ok (b, fcn1, parameters1)) :
    fcn1.heap = fcn.heap := by
  unfold RooMinimizerFcnOpt.Synchronize at hs
  simp only at hs
  cases hi : RooMinimizerFcnOpt.initStdVects (RooMinimizerFcnOpt.updateFloatVec
      (RooMinimizerFcnOpt.Synchronize.notify optConst
        (RooMinimizerFcnOpt.Synchronize.passes fcn parameters verbose))) with
  | error e => rw [hi] at hs; cases hs
  | ok f =>
    rw [hi] at hs
    simp only [Except.ok.injEq, Prod.mk.injEq] at hs
    obtain ⟨_, hf, _⟩ := hs
    subst hf
    unfold RooMinimizerFcnOpt.initStdVects at hi
    simp only at hi
    split at hi
    · cases hi
    · simp only [Except.ok.injEq] at hi
      subst hi
      simp only [RooMinimizerFcnOpt.updateFloatVec]
      rw [(RooMinimizerFcnOpt.Synchronize.notify_lists optConst _).1,
        (RooMinimizerFcnOpt.Synchronize.passes_lists fcn parameters verbose).1]

namespace RooMinimizerOpt

/-- C7: without a minimizer in the engine, `hesse()`, `minos()` and
`minos(minosParamList)` each return -1 and set the status to -1; they make no call
(neither `Synchronize` nor an engine computation): the call history, the engine
object, the status history and, apart from the warning printed, the objective
state are as before. -/
theorem C7_no_minimizer_returns_minus_one (E : Engine) (m : RooMinimizerOpt)
    (minosParamList : List Ptr) (h : m.theFitter.GetMinimizer = false) :
    ∀ r ∈ [hesse E m, minos E m, minos_list E m minosParamList],
      ∃ m1, r = .ok (-1, m1) ∧ m1._status = -1 ∧
        m1.calls = m.calls ∧ m1.theFitter = m.theFitter ∧
        m1._statusHistory = m._statusHistory ∧
        m1._fcn = { m._fcn with msgs := m1._fcn.msgs } := by
  intro r hr
  simp only [List.mem_cons, List.mem_singleton, List.not_mem_nil, or_false] at hr
  rcases hr with rfl | rfl | rfl
  · exact ⟨(noMinimizer m "RooMinimizerOpt::hesse: Error, run Migrad before Hesse!").2,
      by simp only [hesse, h, if_true]; rfl, rfl, rfl, rfl, rfl, rfl⟩
  · exact ⟨(noMinimizer m "RooMinimizerOpt::minos: Error, run Migrad before Minos!").2,
      by simp only [minos, h, if_true]; rfl, rfl, rfl, rfl, rfl, rfl⟩
  · exact ⟨(noMinimizer m "RooMinimizerOpt::minos: Error, run Migrad before Minos!").2,
      by simp only [minos_list, h, if_true]; rfl, rfl, rfl, rfl, rfl, rfl⟩

/-- Witness of C7 on the example driver state without a minimizer, requesting
Minos errors for `a`. -/
theorem C7_no_minimizer_returns_minus_one_witness :
    (exMinimizer false).theFitter.GetMinimizer = false ∧
    ∀ r ∈ [hesse exEngine (exMinimizer false), minos exEngine (exMinimizer false),
        minos_list exEngine (exMinimizer false) [1]],
      ∃ m1, r = .ok (-1, m1) ∧ m1._status = -1 ∧
        m1.calls = (exMinimizer false).calls ∧ m1.theFitter = (exMinimizer false).theFitter ∧
        m1._statusHistory = (exMinimizer false)._statusHistory ∧
        m1._fcn = { (exMinimizer false)._fcn with msgs := m1._fcn.msgs } :=
  ⟨rfl, C7_no_minimizer_returns_minus_one exEngine (exMinimizer false) [1] rfl⟩

/-- C8: `minos(minosParamList)` with a minimizer in the engine. An empty request
does nothing and returns the status held before. Otherwise, once `Synchronize` has
completed, the positions of the requested names in the floating list (found and
not constant, in request order) decide: when there are some, the engine computes
the Minos errors with exactly these positions as its index list; when there are
none, the engine's Minos computation is not called and the status returned is the
one held before the call. -/
theorem C8_minos_subset_indices (E : Engine) (m : RooMinimizerOpt)
    (minosParamList : List Ptr) (hmin : m.theFitter.GetMinimizer = true) :
    (minosParamList = [] → minos_list E m minosParamList = .ok (m._status, m)) ∧
    ∀ (b : Bool) (fcn1 : RooMinimizerFcnOpt) (parameters : List ParameterSettings),
      minosParamList ≠ [] →
      RooMinimizerFcnOpt.Synchronize m._fcn m.theFitter.ParamsSettings m._optConst m._verbose
        = .ok (b, fcn1, parameters) →
      (minosPositions fcn1.heap fcn1._floatParamList
          (minosParamList.map (fun arg => (fcn1.heap arg).GetName)) ≠ [] →
        ∃ fitter fcn2 m1,
          fitter.MinosErrors = minosPositions fcn1.heap fcn1._floatParamList
            (minosParamList.map (fun arg => (fcn1.heap arg).GetName)) ∧
          fitter.ParamsSettings = parameters ∧
          minos_list E m minosParamList
            = .ok (statusOf (E.CalculateMinosErrors fitter fcn2), m1) ∧
          m1.theFitter = (E.CalculateMinosErrors fitter fcn2).fitter ∧
          m1.calls = m.calls ++ [.Synchronize,
            .CalculateMinosErrors (minosPositions fcn1.heap fcn1._floatParamList
              (minosParamList.map (fun arg => (fcn1.heap arg).GetName))),
            .BackProp]) ∧
      (minosPositions fcn1.heap fcn1._floatParamList
          (minosParamList.map (fun arg => (fcn1.heap arg).GetName)) = [] →
        ∃ m1, minos_list E m minosParamList = .ok (m._status, m1) ∧
          m1._status = m._status ∧
          m1.calls = m.calls ++ [.Synchronize, .BackProp]) := by
  have hmin' : ¬ (m.theFitter.GetMinimizer = false) := by simp [hmin]
  refine ⟨?_, ?_⟩
  · intro he
    subst he
    simp [minos_list, hmin]
  · intro b fcn1 parameters hne hs
    have hlen : minosParamList.length > 0 := List.length_pos.mpr hne
    have hpi := minos_list.paramInd_eq (collectErrors fcn1) minosParamList
    simp only [collectErrors] at hpi
    constructor
    · intro hpos
      have hpl : (minos_list.paramInd (collectErrors fcn1) minosParamList).length > 0 := by
        simp only [collectErrors]
        rw [hpi]
        exact List.length_pos.mpr hpos
      have hop : ∃ m1, minos_list E m minosParamList
            = .ok (statusOf (E.CalculateMinosErrors { m.theFitter with
                ParamsSettings := parameters,
                MinosErrors := minos_list.paramInd (collectErrors fcn1) minosParamList,
                MinimizerType := m._minimizerType } (collectErrors fcn1)), m1) ∧
          m1.theFitter = (E.CalculateMinosErrors { m.theFitter with
                ParamsSettings := parameters,
                MinosErrors := minos_list.paramInd (collectErrors fcn1) minosParamList,
                MinimizerType := m._minimizerType } (collectErrors fcn1)).fitter ∧
          m1.calls = m.calls ++ [.Synchronize,
            .CalculateMinosErrors (minos_list.paramInd (collectErrors fcn1) minosParamList),
            .BackProp] := by
        unfold minos_list
        rw [if_neg hmin', if_pos hlen, hs]
        simp only
        rw [if_pos hpl]
        exact ⟨_, rfl, rfl, rfl⟩
      obtain ⟨m1, h1, h2, h3⟩ := hop
      have hpi' : minos_list.paramInd (collectErrors fcn1) minosParamList
          = minosPositions fcn1.heap fcn1._floatParamList
            (minosParamList.map (fun arg => (fcn1.heap arg).GetName)) := by
        simp only [collectErrors]
        exact hpi
      refine ⟨{ m.theFitter with
          ParamsSettings := parameters,
          MinosErrors := minos_list.paramInd (collectErrors fcn1) minosParamList,
          MinimizerType := m._minimizerType }, collectErrors fcn1, m1, hpi', rfl, h1, h2, ?_⟩
      rw [h3, hpi']
    · intro hpos
      have hpl : ¬ (minos_list.paramInd (collectErrors fcn1) minosParamList).length > 0 := by
        simp only [collectErrors]
        rw [hpi, hpos]
        simp
      unfold minos_list
      rw [if_neg hmin', if_pos hlen, hs]
      simp only
      rw [if_neg hpl]
      exact ⟨_, rfl, rfl, rfl⟩

/-- Witness of C8 on the example driver state with a minimizer: Minos errors are
requested for `b`, `c` and `a`, of which `c` is not in the floating list `[a, b]`;
the positions are 1 and 0. -/
theorem C8_minos_subset_indices_witness :
    (exMinimizer true).theFitter.GetMinimizer = true ∧
    minosPositions exHeap [1, 2] ["b", "c", "a"] = [1, 0] ∧
    ((([2, 3, 1] : List Ptr) = [] →
      minos_list exEngine (exMinimizer true) [2, 3, 1]
        = .ok ((exMinimizer true)._status, exMinimizer true)) ∧
    ∀ (b : Bool) (fcn1 : RooMinimizerFcnOpt) (parameters : List ParameterSettings),
      ([2, 3, 1] : List Ptr) ≠ [] →
      RooMinimizerFcnOpt.Synchronize (exMinimizer true)._fcn
          (exMinimizer true).theFitter.ParamsSettings (exMinimizer true)._optConst
          (exMinimizer true)._verbose
        = .ok (b, fcn1, parameters) →
      (minosPositions fcn1.heap fcn1._floatParamList
          (([2, 3, 1] : List Ptr).map (fun arg => (fcn1.heap arg).GetName)) ≠ [] →
        ∃ fitter fcn2 m1,
          fitter.MinosErrors = minosPositions fcn1.heap fcn1._floatParamList
            (([2, 3, 1] : List Ptr).map (fun arg => (fcn1.heap arg).GetName)) ∧
          fitter.ParamsSettings = parameters ∧
          minos_list exEngine (exMinimizer true) [2, 3, 1]
            = .ok (statusOf (exEngine.CalculateMinosErrors fitter fcn2), m1) ∧
          m1.theFitter = (exEngine.CalculateMinosErrors fitter fcn2).fitter ∧
          m1.calls = (exMinimizer true).calls ++ [.Synchronize,
            .CalculateMinosErrors (minosPositions fcn1.heap fcn1._floatParamList
              (([2, 3, 1] : List Ptr).map (fun arg => (fcn1.heap arg).GetName))),
            .BackProp]) ∧
      (minosPositions fcn1.heap fcn1._floatParamList
          (([2, 3, 1] : List Ptr).map (fun arg => (fcn1.heap arg).GetName)) = [] →
        ∃ m1, minos_list exEngine (exMinimizer true) [2, 3, 1]
            = .ok ((exMinimizer true)._status, m1) ∧
          m1._status = (exMinimizer true)._status ∧
          m1.calls = (exMinimizer true).calls ++ [.Synchronize, .BackProp])) :=
  ⟨rfl, by decide, C8_minos_subset_indices exEngine (exMinimizer true) [2, 3, 1] rfl⟩

/-- C10: once `Synchronize` has completed, each of `minimize`, `migrad` and
`improve`, and with a minimizer in the engine each of `hesse` and `minos`, returns
the status code of the engine result when the engine operation reports success
and -1 when it reports failure; that value becomes the status and is recorded
last in the status history under the name of the operation. The engine operation
runs on the synchronized settings. -/
theorem C10_status_read_back_and_recorded (E : Engine) (m : RooMinimizerOpt)
    (type : String) (alg : Option String)
    (b : Bool) (fcn1 : RooMinimizerFcnOpt) (parameters : List ParameterSettings)
    (hs : RooMinimizerFcnOpt.Synchronize m._fcn m.theFitter.ParamsSettings m._optConst
      m._verbose = .ok (b, fcn1, parameters)) :
    (∃ fitter fcn2, fitter.ParamsSettings = parameters ∧
      Reports m "MINIMIZE" (E.FitFCN fitter fcn2) (minimize E m type alg)) ∧
    (∃ fitter fcn2, fitter.ParamsSettings = parameters ∧
      Reports m "MIGRAD" (E.FitFCN fitter fcn2) (migrad E m)) ∧
    (∃ fitter fcn2, fitter.ParamsSettings = parameters ∧
      Reports m "IMPROVE" (E.FitFCN fitter fcn2) (improve E m)) ∧
    (m.theFitter.GetMinimizer = true →
      (∃ fitter fcn2, fitter.ParamsSettings = parameters ∧
        Reports m "HESSE" (E.CalculateHessErrors fitter fcn2) (hesse E m)) ∧
      (∃ fitter fcn2, fitter.ParamsSettings = parameters ∧
        Reports m "MINOS" (E.CalculateMinosErrors fitter fcn2) (minos E m))) := by
  have hstat : ∀ run : EngineRun,
      (run.ret = true → statusOf run = run.fitter.Result.Status) ∧
      (run.ret = false → statusOf run = -1) := by
    intro run
    unfold statusOf
    cases run.ret <;> simp
  refine ⟨?_, ?_, ?_, ?_⟩
  · refine ⟨{ m.theFitter with
        ParamsSettings := parameters, MinimizerType := type,
        MinimizerAlgoType := alg.getD m.theFitter.MinimizerAlgoType },
      collectErrors fcn1, rfl, ?_⟩
    unfold Reports minimize
    rw [hs]
    exact ⟨_, _, rfl, (hstat _).1, (hstat _).2, rfl, rfl⟩
  · refine ⟨{ m.theFitter with
        ParamsSettings := parameters, MinimizerType := m._minimizerType,
        MinimizerAlgoType := "migrad" },
      collectErrors fcn1, rfl, ?_⟩
    unfold Reports migrad
    rw [hs]
    exact ⟨_, _, rfl, (hstat _).1, (hstat _).2, rfl, rfl⟩
  · refine ⟨{ m.theFitter with
        ParamsSettings := parameters, MinimizerType := m._minimizerType,
        MinimizerAlgoType := "migradimproved" },
      collectErrors fcn1, rfl, ?_⟩
    unfold Reports improve
    rw [hs]
    exact ⟨_, _, rfl, (hstat _).1, (hstat _).2, rfl, rfl⟩
  · intro hmin
    have hmin' : ¬ (m.theFitter.GetMinimizer = false) := by simp [hmin]
    constructor
    · refine ⟨{ m.theFitter with
          ParamsSettings := parameters, MinimizerType := m._minimizerType },
        collectErrors fcn1, rfl, ?_⟩
      unfold Reports hesse
      rw [if_neg hmin', hs]
      exact ⟨_, _, rfl, (hstat _).1, (hstat _).2, rfl, rfl⟩
    · refine ⟨{ m.theFitter with
          ParamsSettings := parameters, MinimizerType := m._minimizerType },
        collectErrors fcn1, rfl, ?_⟩
      unfold Reports minos
      rw [if_neg hmin', hs]
      exact ⟨_, _, rfl, (hstat _).1, (hstat _).2, rfl, rfl⟩

/-- Witness of C10 on the example driver state with a minimizer and the example
engine. -/
theorem C10_status_read_back_and_recorded_witness :
    ∃ (b : Bool) (fcn1 : RooMinimizerFcnOpt) (parameters : List ParameterSettings),
      RooMinimizerFcnOpt.Synchronize (exMinimizer true)._fcn
        (exMinimizer true).theFitter.ParamsSettings (exMinimizer true)._optConst
        (exMinimizer true)._verbose = .ok (b, fcn1, parameters) ∧
      ((∃ fitter fcn2, fitter.ParamsSettings = parameters ∧
        Reports (exMinimizer true) "MINIMIZE" (exEngine.FitFCN fitter fcn2)
          (minimize exEngine (exMinimizer true) "Minuit2" (some "simplex"))) ∧
      (∃ fitter fcn2, fitter.ParamsSettings = parameters ∧
        Reports (exMinimizer true) "MIGRAD" (exEngine.FitFCN fitter fcn2)
          (migrad exEngine (exMinimizer true))) ∧
      (∃ fitter fcn2, fitter.ParamsSettings = parameters ∧
        Reports (exMinimizer true) "IMPROVE" (exEngine.FitFCN fitter fcn2)
          (improve exEngine (exMinimizer true))) ∧
      ((exMinimizer true).theFitter.GetMinimizer = true →
        (∃ fitter fcn2, fitter.ParamsSettings = parameters ∧
          Reports (exMinimizer true) "HESSE" (exEngine.CalculateHessErrors fitter fcn2)
            (hesse exEngine (exMinimizer true))) ∧
        (∃ fitter fcn2, fitter.ParamsSettings = parameters ∧
          Reports (exMinimizer true) "MINOS" (exEngine.CalculateMinosErrors fitter fcn2)
            (minos exEngine (exMinimizer true))))) :=
  ⟨_, _, _, RooMinimizerFcnOpt.Synchronize_ok (exFcn [1, 2] [3]) [] false false (by decide),
    C10_status_read_back_and_recorded exEngine (exMinimizer true) "Minuit2" (some "simplex")
      _ _ _ (RooMinimizerFcnOpt.Synchronize_ok (exFcn [1, 2] [3]) [] false false (by decide))⟩

end RooMinimizerOpt


/-! ## Further claims on `Synchronize` -/

namespace RooMinimizerFcnOpt

/-- A completed `Synchronize` returns `0`, the settings vector left by the two
loops, and the notified object with `_floatParamVec` rebuilt and the two cache
vectors replaced. -/
theorem Synchronize_ok_inv (fcn fcn1 : RooMinimizerFcnOpt)
    (parameters parameters1 : List ParameterSettings) (optConst verbose b : Bool)
    (hs : Synchronize fcn parameters optConst verbose = .ok (b, fcn1, parameters1)) :
    b = false ∧ parameters1 = (Synchronize.passes fcn parameters verbose).parameters ∧
    ∃ vars vals, fcn1 =
      { updateFloatVec (Synchronize.notify optConst (Synchronize.passes fcn parameters verbose))
        with _vars := vars, _vals := vals } := by
  unfold Synchronize at hs
  simp only at hs
  cases hi : initStdVects (updateFloatVec
      (Synchronize.notify optConst (Synchronize.passes fcn parameters verbose))) with
  | error e => rw [hi] at hs; cases hs
  | ok f =>
    rw [hi] at hs
    simp only [Except.ok.injEq, Prod.mk.injEq] at hs
    obtain ⟨hb, hf, hp⟩ := hs
    refine ⟨hb.symm, hp.symm, ?_⟩
    subst hf
    unfold initStdVects at hi
    simp only at hi
    split at hi
    · cases hi
    · simp only [Except.ok.injEq] at hi
      exact ⟨_, _, hi.symm⟩

/-- A completed `Synchronize` throws for no floating entry: each one is a
`RooRealVar`. -/
theorem Synchronize_ok_real (fcn fcn1 : RooMinimizerFcnOpt)
    (parameters parameters1 : List ParameterSettings) (optConst verbose b : Bool)
    (hs : Synchronize fcn parameters optConst verbose = .ok (b, fcn1, parameters1)) :
    ∀ p ∈ fcn._floatParamList, (fcn.heap p).isRooRealVar = true := by
  intro p hp
  by_contra hn
  obtain ⟨hheap, ⟨extra, hfl, _⟩, _⟩ := Synchronize.passes_lists fcn parameters verbose
  obtain ⟨nheap, nfl, _⟩ := Synchronize.notify_lists optConst
    (Synchronize.passes fcn parameters verbose)
  obtain ⟨e, he⟩ := initStdVects_error
    (updateFloatVec (Synchronize.notify optConst (Synchronize.passes fcn parameters verbose)))
    ⟨p, by
      simp only [updateFloatVec, nfl, hfl]
      exact List.mem_append_left _ hp, by
      simp only [updateFloatVec, nheap, hheap]
      simpa using hn⟩
  unfold Synchronize at hs
  simp only at hs
  rw [he] at hs
  cases hs

theorem Synchronize.constBody_hook (verbose : Bool) (index : Nat) (st : SyncState) :
    (Synchronize.constBody verbose index st).fcn.constOptimizeTestStatistic
      = st.fcn.constOptimizeTestStatistic := by
  unfold Synchronize.constBody
  split
  · rfl
  · split
    · rfl
    · simp only
      split <;> split <;> rfl

theorem Synchronize.constLoop_hook (verbose : Bool) (fuel : Nat) :
    ∀ (index : Nat) (st : SyncState),
      (Synchronize.constLoop verbose fuel index st).fcn.constOptimizeTestStatistic
        = st.fcn.constOptimizeTestStatistic := by
  induction fuel with
  | zero => intro index st; rfl
  | succ n ih =>
    intro index st
    rw [Synchronize.constLoop]
    split
    · rw [ih, Synchronize.constBody_hook]
    · rfl

/-- The two loops of `Synchronize` make no call to the optimizer hook. -/
theorem Synchronize.passes_hook (fcn : RooMinimizerFcnOpt)
    (parameters : List ParameterSettings) (verbose : Bool) :
    (Synchronize.passes fcn parameters verbose).fcn.constOptimizeTestStatistic
      = fcn.constOptimizeTestStatistic := by
  unfold Synchronize.passes
  simp only
  obtain ⟨m, hm⟩ := Synchronize.floatLoop_fcn verbose
    (Synchronize.constLoop verbose fcn._constParamList.length 0
      ⟨fcn, parameters, false, false⟩).fcn._floatParamList.length 0
    { (Synchronize.constLoop verbose fcn._constParamList.length 0
        ⟨fcn, parameters, false, false⟩) with
      fcn := { (Synchronize.constLoop verbose fcn._constParamList.length 0
        ⟨fcn, parameters, false, false⟩).fcn with
        _initConstParamList :=
          RooArgList.assign (Synchronize.constLoop verbose fcn._constParamList.length 0
            ⟨fcn, parameters, false, false⟩).fcn.heap
            (Synchronize.constLoop verbose fcn._constParamList.length 0
              ⟨fcn, parameters, false, false⟩).fcn._initConstParamList
            (Synchronize.constLoop verbose fcn._constParamList.length 0
              ⟨fcn, parameters, false, false⟩).fcn._constParamList } }
  rw [hm]
  exact Synchronize.constLoop_hook verbose fcn._constParamList.length 0
    ⟨fcn, parameters, false, false⟩

theorem Synchronize.constBody_flag (verbose : Bool) (index : Nat) (st : SyncState) :
    (st.constStatChange = true →
      (Synchronize.constBody verbose index st).constStatChange = true) ∧
    ((Synchronize.constBody verbose index st).fcn._floatParamList ≠ st.fcn._floatParamList →
      (Synchronize.constBody verbose index st).constStatChange = true) := by
  unfold Synchronize.constBody
  split
  · exact ⟨fun h => h, fun h => (h rfl).elim⟩
  · split
    · exact ⟨fun h => h, fun h => (h rfl).elim⟩
    · simp only
      split <;> split
      · exact ⟨fun _ => rfl, fun _ => rfl⟩
      · exact ⟨fun h => h, fun h => (h rfl).elim⟩
      · exact ⟨fun _ => rfl, fun _ => rfl⟩
      · exact ⟨fun h => h, fun h => (h rfl).elim⟩

theorem Synchronize.constLoop_flag (verbose : Bool) (fuel : Nat) :
    ∀ (index : Nat) (st : SyncState),
      (st.constStatChange = true →
        (Synchronize.constLoop verbose fuel index st).constStatChange = true) ∧
      ((Synchronize.constLoop verbose fuel index st).fcn._floatParamList
          ≠ st.fcn._floatParamList →
        (Synchronize.constLoop verbose fuel index st).constStatChange = true) := by
  induction fuel with
  | zero => intro index st; exact ⟨fun h => h, fun h => (h rfl).elim⟩
  | succ n ih =>
    intro index st
    rw [Synchronize.constLoop]
    split
    · obtain ⟨b1, b2⟩ := Synchronize.constBody_flag verbose index st
      obtain ⟨i1, i2⟩ := ih (index + 1) (Synchronize.constBody verbose index st)
      refine ⟨fun h => i1 (b1 h), fun h => ?_⟩
      by_cases hb : (Synchronize.constBody verbose index st).fcn._floatParamList
          = st.fcn._floatParamList
      · exact i2 (by rw [hb]; exact h)
      · exact i1 (b2 hb)
    · exact ⟨fun h => h, fun h => (h rfl).elim⟩

theorem Synchronize.floatBody_flag (verbose : Bool) (index : Nat) (st : SyncState)
    (h : st.constStatChange = true) :
    (Synchronize.floatBody verbose index st).1.constStatChange = true := by
  unfold Synchronize.floatBody
  split
  · exact h
  · simp only
    split
    · exact h
    · split
      · exact h
      · simp only [h, Bool.true_or]

theorem Synchronize.floatLoop_flag (verbose : Bool) (fuel : Nat) :
    ∀ (index : Nat) (st : SyncState), st.constStatChange = true →
      (Synchronize.floatLoop verbose fuel index st).constStatChange = true := by
  induction fuel with
  | zero => intro index st h; exact h
  | succ n ih =>
    intro index st h
    rw [Synchronize.floatLoop]
    split
    · exact ih _ _ (Synchronize.floatBody_flag verbose index st h)
    · exact h

/-- When the two loops of `Synchronize` have moved an entry to the floating list,
the flag `constStatChange` is raised. -/
theorem Synchronize.passes_flag_of_migration (fcn : RooMinimizerFcnOpt)
    (parameters : List ParameterSettings) (verbose : Bool)
    (h : (Synchronize.passes fcn parameters verbose).fcn._floatParamList
      ≠ fcn._floatParamList) :
    (Synchronize.passes fcn parameters verbose).constStatChange = true := by
  obtain ⟨m, hm⟩ := Synchronize.floatLoop_fcn verbose
    (Synchronize.constLoop verbose fcn._constParamList.length 0
      ⟨fcn, parameters, false, false⟩).fcn._floatParamList.length 0
    { (Synchronize.constLoop verbose fcn._constParamList.length 0
        ⟨fcn, parameters, false, false⟩) with
      fcn := { (Synchronize.constLoop verbose fcn._constParamList.length 0
        ⟨fcn, parameters, false, false⟩).fcn with
        _initConstParamList :=
          RooArgList.assign (Synchronize.constLoop verbose fcn._constParamList.length 0
            ⟨fcn, parameters, false, false⟩).fcn.heap
            (Synchronize.constLoop verbose fcn._constParamList.length 0
              ⟨fcn, parameters, false, false⟩).fcn._initConstParamList
            (Synchronize.constLoop verbose fcn._constParamList.length 0
              ⟨fcn, parameters, false, false⟩).fcn._constParamList } }
  have hc := (Synchronize.constLoop_flag verbose fcn._constParamList.length 0
    ⟨fcn, parameters, false, false⟩).2
  unfold Synchronize.passes at h ⊢
  simp only at h ⊢
  rw [hm] at h
  exact Synchronize.floatLoop_flag verbose _ 0 _ (hc h)

/-- C13: the notification policy of a completed `Synchronize`, in terms of the
two change flags its loops leave. With `optConst` set, the optimizer hook is
called exactly once with `ConfigChange` when the constant set changed, exactly
once with `ValueChange` when only constant values changed, and not at all when
neither changed; with `optConst` unset it is never called. In particular, with
`optConst` set, a call that moved an entry to the floating list calls the hook
once with `ConfigChange`. -/
theorem C13_notification_policy (fcn fcn1 : RooMinimizerFcnOpt)
    (parameters parameters1 : List ParameterSettings) (optConst verbose b : Bool)
    (hs : Synchronize fcn parameters optConst verbose = .ok (b, fcn1, parameters1)) :
    (optConst = true → (Synchronize.passes fcn parameters verbose).constStatChange = true →
      fcn1.constOptimizeTestStatistic = fcn.constOptimizeTestStatistic ++ [.ConfigChange]) ∧
    (optConst = true → (Synchronize.passes fcn parameters verbose).constStatChange = false →
      (Synchronize.passes fcn parameters verbose).constValChange = true →
      fcn1.constOptimizeTestStatistic = fcn.constOptimizeTestStatistic ++ [.ValueChange]) ∧
    (optConst = true → (Synchronize.passes fcn parameters verbose).constStatChange = false →
      (Synchronize.passes fcn parameters verbose).constValChange = false →
      fcn1.constOptimizeTestStatistic = fcn.constOptimizeTestStatistic) ∧
    (optConst = false → fcn1.constOptimizeTestStatistic = fcn.constOptimizeTestStatistic) ∧
    (optConst = true → fcn1._floatParamList ≠ fcn._floatParamList →
      fcn1.constOptimizeTestStatistic = fcn.constOptimizeTestStatistic ++ [.ConfigChange]) := by
  obtain ⟨_, _, vars, vals, hf⟩ := Synchronize_ok_inv fcn fcn1 parameters parameters1
    optConst verbose b hs
  have hh := Synchronize.passes_hook fcn parameters verbose
  have hfl := (Synchronize.notify_lists optConst
    (Synchronize.passes fcn parameters verbose)).2.1
  have hmig := Synchronize.passes_flag_of_migration fcn parameters verbose
  subst hf
  simp only [updateFloatVec, hfl]
  simp only [Synchronize.notify]
  refine ⟨?_, ?_, ?_, ?_, ?_⟩
  · intro ho hc
    simp only [ho, hc, if_true, hh]
  · intro ho hc hv
    simp only [ho, hc, hv, if_true, Bool.false_eq_true, if_false, hh]
  · intro ho hc hv
    simp only [ho, hc, hv, if_true, Bool.false_eq_true, if_false, hh]
  · intro ho
    simp only [ho, Bool.false_eq_true, if_false, hh]
  · intro ho hne
    simp only [ho, hmig hne, if_true, hh]

/-- Witness of C13 on the example object with an empty floating list and the
constant list `[a]`, where `a` is no longer constant: the constant set changes and
the hook is called once with `ConfigChange`. -/
theorem C13_notification_policy_witness :
    ∃ (b : Bool) (fcn1 : RooMinimizerFcnOpt) (parameters1 : List ParameterSettings),
      Synchronize (exFcn [] [1]) [] true false = .ok (b, fcn1, parameters1) ∧
      (Synchronize.passes (exFcn [] [1]) [] false).constStatChange = true ∧
      ((true = true → (Synchronize.passes (exFcn [] [1]) [] false).constStatChange = true →
        fcn1.constOptimizeTestStatistic
          = (exFcn [] [1]).constOptimizeTestStatistic ++ [.ConfigChange]) ∧
      (true = true → (Synchronize.passes (exFcn [] [1]) [] false).constStatChange = false →
        (Synchronize.passes (exFcn [] [1]) [] false).constValChange = true →
        fcn1.constOptimizeTestStatistic
          = (exFcn [] [1]).constOptimizeTestStatistic ++ [.ValueChange]) ∧
      (true = true → (Synchronize.passes (exFcn [] [1]) [] false).constStatChange = false →
        (Synchronize.passes (exFcn [] [1]) [] false).constValChange = false →
        fcn1.constOptimizeTestStatistic = (exFcn [] [1]).constOptimizeTestStatistic) ∧
      (true = false →
        fcn1.constOptimizeTestStatistic = (exFcn [] [1]).constOptimizeTestStatistic) ∧
      (true = true → fcn1._floatParamList ≠ (exFcn [] [1])._floatParamList →
        fcn1.constOptimizeTestStatistic
          = (exFcn [] [1]).constOptimizeTestStatistic ++ [.ConfigChange])) :=
  ⟨_, _, _, Synchronize_ok (exFcn [] [1]) [] true false (by decide), by decide,
    C13_notification_policy (exFcn [] [1]) _ [] _ true false _
      (Synchronize_ok (exFcn [] [1]) [] true false (by decide))⟩

/-- The entries the migration loop appends to the floating list are taken from
the constant list from `index` on, in the order of that list. -/
theorem Synchronize.constLoop_sublist (verbose : Bool) (fuel : Nat) :
    ∀ (index : Nat) (st : SyncState),
      ∃ extra : List Ptr,
        (Synchronize.constLoop verbose fuel index st).fcn._floatParamList
          = st.fcn._floatParamList ++ extra ∧
        extra.Sublist (st.fcn._constParamList.drop index) := by
  induction fuel with
  | zero =>
    intro index st
    exact ⟨[], by simp [Synchronize.constLoop], List.nil_sublist _⟩
  | succ n ih =>
    intro index st
    rw [Synchronize.constLoop]
    by_cases hlt : index < st.fcn._constParamList.length
    · rw [if_pos hlt]
      obtain ⟨extra, hfl, hsub⟩ := ih (index + 1) (Synchronize.constBody verbose index st)
      obtain ⟨_, hb⟩ := Synchronize.constBody_lists verbose index st
      rcases hb with ⟨bf, bc⟩ | ⟨p, hget, _, _, bf, bc⟩
      · refine ⟨extra, by rw [hfl, bf], ?_⟩
        rw [bc] at hsub
        exact hsub.trans (List.drop_sublist_drop_left _ (Nat.le_succ index))
      · refine ⟨p :: extra, by rw [hfl, bf]; simp, ?_⟩
        rw [bc] at hsub
        have h1 : extra.Sublist (st.fcn._constParamList.drop (index + 1)) :=
          hsub.trans ((List.filter_sublist _).drop (index + 1))
        have hp : st.fcn._constParamList[index] = p := by
          rw [List.getElem?_eq_getElem hlt] at hget
          exact Option.some.inj hget
        rw [List.drop_eq_getElem_cons hlt, hp]
        exact h1.cons₂ p
    · rw [if_neg hlt]
      exact ⟨[], by simp, List.nil_sublist _⟩

/-- The floating list after the two loops: the former list followed by the
migrated entries, which are real-valued, no longer constant, and come in the
order of the constant list. -/
theorem Synchronize.passes_extra (fcn : RooMinimizerFcnOpt)
    (parameters : List ParameterSettings) (verbose : Bool) :
    ∃ extra : List Ptr,
      (Synchronize.passes fcn parameters verbose).fcn._floatParamList
        = fcn._floatParamList ++ extra ∧
      extra.Sublist fcn._constParamList ∧
      ∀ p ∈ extra, (fcn.heap p).isRooRealVar = true ∧ (fcn.heap p).isConstant = false := by
  obtain ⟨_, ⟨extra, hfl, hex⟩, _⟩ := Synchronize.passes_lists fcn parameters verbose
  obtain ⟨extra1, hfl1, hsub⟩ := Synchronize.constLoop_sublist verbose
    fcn._constParamList.length 0 ⟨fcn, parameters, false, false⟩
  obtain ⟨_, ⟨extra2, hfl2, _⟩, _⟩ := Synchronize.constLoop_lists verbose
    fcn._constParamList.length 0 ⟨fcn, parameters, false, false⟩
  obtain ⟨m, hm⟩ := Synchronize.floatLoop_fcn verbose
    (Synchronize.constLoop verbose fcn._constParamList.length 0
      ⟨fcn, parameters, false, false⟩).fcn._floatParamList.length 0
    { (Synchronize.constLoop verbose fcn._constParamList.length 0
        ⟨fcn, parameters, false, false⟩) with
      fcn := { (Synchronize.constLoop verbose fcn._constParamList.length 0
        ⟨fcn, parameters, false, false⟩).fcn with
        _initConstParamList :=
          RooArgList.assign (Synchronize.constLoop verbose fcn._constParamList.length 0
            ⟨fcn, parameters, false, false⟩).fcn.heap
            (Synchronize.constLoop verbose fcn._constParamList.length 0
              ⟨fcn, parameters, false, false⟩).fcn._initConstParamList
            (Synchronize.constLoop verbose fcn._constParamList.length 0
              ⟨fcn, parameters, false, false⟩).fcn._constParamList } }
  have hp : (Synchronize.passes fcn parameters verbose).fcn._floatParamList
      = fcn._floatParamList ++ extra1 := by
    unfold Synchronize.passes
    simp only
    rw [hm]
    exact hfl1
  have he : extra = extra1 := List.append_cancel_left (hfl.symm.trans hp)
  subst he
  refine ⟨extra, hfl, ?_, fun p hp => (hex p hp).2⟩
  simpa using hsub

theorem length_eq_of_getElem?_eq_none {α : Type} (l : List α) (n : Nat)
    (h : ∀ i, l[i]? = none ↔ n ≤ i) : l.length = n := by
  have h1 : n ≤ l.length := (h l.length).mp (List.getElem?_eq_none (Nat.le_refl _))
  have h2 : l.length ≤ n := List.getElem?_eq_none_iff.mp ((h n).mpr (Nat.le_refl _))
  omega

/-- The settings vector after the two loops is as long as the longer of the former
vector and the floating list, when every floating entry is a `RooRealVar`. -/
theorem Synchronize.passes_parameters_length (fcn : RooMinimizerFcnOpt)
    (parameters : List ParameterSettings) (verbose : Bool)
    (h : ∀ p ∈ fcn._floatParamList, (fcn.heap p).isRooRealVar = true) :
    (Synchronize.passes fcn parameters verbose).parameters.length
      = max parameters.length
          (Synchronize.passes fcn parameters verbose).fcn._floatParamList.length := by
  apply length_eq_of_getElem?_eq_none
  intro i
  rw [Synchronize.passes_parameters fcn parameters verbose h i]
  cases ha : (Synchronize.passes fcn parameters verbose).fcn._floatParamList[i]? with
  | none =>
    simp only [Synchronize.reconciled]
    rw [List.getElem?_eq_none_iff] at ha ⊢
    omega
  | some p =>
    have hlt : i < (Synchronize.passes fcn parameters verbose).fcn._floatParamList.length := by
      by_contra hcon
      rw [List.getElem?_eq_none (by omega)] at ha
      cases ha
    cases ho : parameters[i]? with
    | none =>
      simp only [Synchronize.reconciled]
      constructor
      · intro hc; cases hc
      · intro hc; omega
    | some old =>
      simp only [Synchronize.reconciled]
      constructor
      · intro hc; cases hc
      · intro hc; omega

/-- The entry pushed for a new index carries name, value and step of the
parameter, is free, and has exactly the limits the parameter has bounds. -/
theorem Synchronize.newEntry_fields (par : RooAbsArg) :
    (Synchronize.newEntry par).Name = par.GetName ∧
    (Synchronize.newEntry par).Value = par.getVal ∧
    (Synchronize.newEntry par).StepSize = Synchronize.pstep par ∧
    (Synchronize.newEntry par).IsFixed = false ∧
    (Synchronize.newEntry par).HasLowerLimit = par.hasMin ∧
    (Synchronize.newEntry par).HasUpperLimit = par.hasMax ∧
    (par.hasMin = true → (Synchronize.newEntry par).LowerLimit = Synchronize.pmin par) ∧
    (par.hasMax = true → (Synchronize.newEntry par).UpperLimit = Synchronize.pmax par) := by
  unfold Synchronize.newEntry
  cases hmin : par.hasMin <;> cases hmax : par.hasMax <;>
    simp [ParameterSettings.mk5, ParameterSettings.mk3, ParameterSettings.SetLimits,
      ParameterSettings.SetLowerLimit, ParameterSettings.SetUpperLimit]

/-- C17, evaluated at the failing input: `b` floats without bounds, and the
settings entry at its position carries the limits `[0, 10]` from before.
`Synchronize` completes and sets value and step, but the limits update of lines
622-628 has no branch for a parameter without bounds: the entry still has both
limits, 0 and 10. -/
theorem C17_unbounded_parameter_keeps_limits :
    (exFcn [2] [])._floatParamList = [2] ∧ (exHeap 2).isConstant = false ∧
    (exHeap 2).hasMin = false ∧ (exHeap 2).hasMax = false ∧
    ∃ fcn1 parameters1 e,
      Synchronize (exFcn [2] []) [ParameterSettings.mk5 "b" 2 (1 / 2) 0 10] true false
        = .ok (false, fcn1, parameters1) ∧
      parameters1[0]? = some e ∧
      e.HasLowerLimit = true ∧ e.HasUpperLimit = true ∧
      e.LowerLimit = 0 ∧ e.UpperLimit = 10 := by
  refine ⟨rfl, rfl, rfl, rfl, _, _,
    (Synchronize.passes (exFcn [2] []) [ParameterSettings.mk5 "b" 2 (1 / 2) 0 10]
      false).parameters.getD 0 default,
    Synchronize_ok (exFcn [2] []) [ParameterSettings.mk5 "b" 2 (1 / 2) 0 10] true false
      (by decide), ?_, ?_, ?_, ?_, ?_⟩
  · rfl
  · decide
  · decide
  · decide
  · decide

/-- C18: when the settings vector is empty on entry and every floating entry is a
numeric parameter, `Synchronize` completes, and afterwards the settings vector has
exactly as many entries as the floating list; at every position the entry carries
the name and the value of the parameter at that position of the floating list.
The floating list is the former one followed by the entries migrated from the
constant list, in the order of the constant list. -/
theorem C18_positional_alignment (fcn : RooMinimizerFcnOpt) (optConst verbose : Bool)
    (h : ∀ p ∈ fcn._floatParamList, (fcn.heap p).isRooRealVar = true) :
    ∃ fcn1 parameters1 extra,
      Synchronize fcn [] optConst verbose = .ok (false, fcn1, parameters1) ∧
      parameters1.length = fcn1._floatParamList.length ∧
      (∀ (i : Nat) (p : Ptr), fcn1._floatParamList[i]? = some p →
        ∃ e, parameters1[i]? = some e ∧
          e.Name = (fcn1.heap p).GetName ∧ e.Value = (fcn1.heap p).getVal) ∧
      fcn1._floatParamList = fcn._floatParamList ++ extra ∧
      extra.Sublist fcn._constParamList ∧
      ∀ p ∈ extra, (fcn.heap p).isRooRealVar = true ∧ (fcn.heap p).isConstant = false := by
  obtain ⟨hheap, _, _⟩ := Synchronize.passes_lists fcn [] verbose
  obtain ⟨nheap, nfl, _⟩ := Synchronize.notify_lists optConst
    (Synchronize.passes fcn [] verbose)
  obtain ⟨extra, hfl, hsub, hex⟩ := Synchronize.passes_extra fcn [] verbose
  refine ⟨_, _, extra, Synchronize_ok fcn [] optConst verbose h, ?_, ?_, ?_, hsub, hex⟩
  · simp only [nfl]
    rw [Synchronize.passes_parameters_length fcn [] verbose h]
    simp
  · intro i p hp
    simp only [nfl] at hp
    simp only [nheap, hheap]
    rw [Synchronize.passes_parameters fcn [] verbose h i, hp]
    exact ⟨_, rfl, (Synchronize.newEntry_fields (fcn.heap p)).1,
      (Synchronize.newEntry_fields (fcn.heap p)).2.1⟩
  · simp only [nfl]
    exact hfl

/-- Witness of C18 on the example object with floating list `[b]` and constant
list `[c, a]`, of which `a` is no longer constant and migrates. -/
theorem C18_positional_alignment_witness :
    (∀ p ∈ (exFcn [2] [3, 1])._floatParamList, ((exFcn [2] [3, 1]).heap p).isRooRealVar = true) ∧
    ∃ fcn1 parameters1 extra,
      Synchronize (exFcn [2] [3, 1]) [] true false = .ok (false, fcn1, parameters1) ∧
      parameters1.length = fcn1._floatParamList.length ∧
      (∀ (i : Nat) (p : Ptr), fcn1._floatParamList[i]? = some p →
        ∃ e, parameters1[i]? = some e ∧
          e.Name = (fcn1.heap p).GetName ∧ e.Value = (fcn1.heap p).getVal) ∧
      fcn1._floatParamList = (exFcn [2] [3, 1])._floatParamList ++ extra ∧
      extra.Sublist (exFcn [2] [3, 1])._constParamList ∧
      ∀ p ∈ extra, ((exFcn [2] [3, 1]).heap p).isRooRealVar = true ∧
        ((exFcn [2] [3, 1]).heap p).isConstant = false :=
  ⟨by decide, C18_positional_alignment (exFcn [2] [3, 1]) true false (by decide)⟩

end RooMinimizerFcnOpt


/-! ## Claims on the default step -/

namespace RooMinimizerFcnOpt

/-- The step of a non-constant parameter without error estimate and with both
bounds, as the source computes it. -/
theorem Synchronize.pstep_bounded (par : RooAbsArg) (hc : par.isConstant = false)
    (he : par.getError ≤ 0) (hmin : par.hasMin = true) (hmax : par.hasMax = true) :
    Synchronize.pstep par =
      if (if par.getMax - par.getVal < 2 * ((1 / 10) * (par.getMax - par.getMin)) then
            (par.getMax - par.getVal) / 2
          else if par.getVal - par.getMin < 2 * ((1 / 10) * (par.getMax - par.getMin)) then
            (par.getVal - par.getMin) / 2
          else (1 / 10) * (par.getMax - par.getMin)) = 0
      then (1 / 10) * (par.getMax - par.getMin)
      else
        (if par.getMax - par.getVal < 2 * ((1 / 10) * (par.getMax - par.getMin)) then
            (par.getMax - par.getVal) / 2
          else if par.getVal - par.getMin < 2 * ((1 / 10) * (par.getMax - par.getMin)) then
            (par.getVal - par.getMin) / 2
          else (1 / 10) * (par.getMax - par.getMin)) := by
  simp only [Synchronize.pstep, Synchronize.pmax, Synchronize.pmin, hc, he, hmin, hmax,
    Bool.not_false, Bool.and_self, if_true]

/-- C12: for a non-constant parameter without error estimate (error at most 0)
whose range, when both bounds exist, is not inverted, the step computed by
`Synchronize` is the default step in the words of the spec: 1 unless both bounds
exist; with both, 10% of the range, replaced by half the distance to the nearer
bound when the value is within two such step-widths of it, and restored to the
10% when the trimmed step is exactly zero. A new settings entry carries it. -/
theorem C12_default_step (par : RooAbsArg) (hc : par.isConstant = false)
    (he : par.getError ≤ 0)
    (hr : par.hasMin = true → par.hasMax = true → par.getMin ≤ par.getMax) :
    Synchronize.pstep par
      = defaultStep (par.hasMin && par.hasMax) par.getMin par.getMax par.getVal ∧
    (Synchronize.newEntry par).StepSize
      = defaultStep (par.hasMin && par.hasMax) par.getMin par.getMax par.getVal := by
  have key : Synchronize.pstep par
      = defaultStep (par.hasMin && par.hasMax) par.getMin par.getMax par.getVal := by
    by_cases hb : par.hasMin = true ∧ par.hasMax = true
    · obtain ⟨hmin, hmax⟩ := hb
      have hle := hr hmin hmax
      rw [Synchronize.pstep_bounded par hc he hmin hmax]
      simp only [defaultStep, hmin, hmax, Bool.and_self, if_true]
      have inner : (if par.getMax - par.getVal < 2 * ((1 / 10) * (par.getMax - par.getMin)) then
            (par.getMax - par.getVal) / 2
          else if par.getVal - par.getMin < 2 * ((1 / 10) * (par.getMax - par.getMin)) then
            (par.getVal - par.getMin) / 2
          else (1 / 10) * (par.getMax - par.getMin))
          = (if min (par.getMax - par.getVal) (par.getVal - par.getMin)
                < 2 * ((1 / 10) * (par.getMax - par.getMin)) then
              min (par.getMax - par.getVal) (par.getVal - par.getMin) / 2
            else (1 / 10) * (par.getMax - par.getMin)) := by
        by_cases h1 : par.getMax - par.getVal < 2 * ((1 / 10) * (par.getMax - par.getMin))
        · have hm : min (par.getMax - par.getVal) (par.getVal - par.getMin)
              = par.getMax - par.getVal := min_eq_left (by linarith)
          rw [if_pos h1, hm, if_pos h1]
        · rw [if_neg h1]
          by_cases h2 : par.getVal - par.getMin < 2 * ((1 / 10) * (par.getMax - par.getMin))
          · have hm : min (par.getMax - par.getVal) (par.getVal - par.getMin)
                = par.getVal - par.getMin := min_eq_right (by linarith)
            rw [if_pos h2, hm, if_pos h2]
          · have hm : ¬ min (par.getMax - par.getVal) (par.getVal - par.getMin)
                < 2 * ((1 / 10) * (par.getMax - par.getMin)) := by
              rw [not_lt]
              exact le_min (not_lt.mp h1) (not_lt.mp h2)
            rw [if_neg h2, if_neg hm]
      rw [inner]
    · have hb' : (par.hasMin && par.hasMax) = false := by
        cases hmin : par.hasMin <;> cases hmax : par.hasMax <;> simp_all
      simp only [Synchronize.pstep, defaultStep, hc, he, hb', Bool.not_false, if_true,
        Bool.false_eq_true, if_false]
  exact ⟨key, by rw [(Synchronize.newEntry_fields par).2.2.1, key]⟩

/-- Witness of C12: the bounds `[0, 10]` give the step 1 at the value 5 and the
step 1/4 at the value 19/2. -/
theorem C12_default_step_witness :
    Synchronize.pstep (exPar 5) = 1 ∧ Synchronize.pstep (exPar (19 / 2)) = 1 / 4 ∧
    defaultStep true 0 10 5 = 1 ∧ defaultStep true 0 10 (19 / 2) = 1 / 4 ∧
    (Synchronize.pstep (exPar (19 / 2))
      = defaultStep ((exPar (19 / 2)).hasMin && (exPar (19 / 2)).hasMax)
          (exPar (19 / 2)).getMin (exPar (19 / 2)).getMax (exPar (19 / 2)).getVal ∧
    (Synchronize.newEntry (exPar (19 / 2))).StepSize
      = defaultStep ((exPar (19 / 2)).hasMin && (exPar (19 / 2)).hasMax)
          (exPar (19 / 2)).getMin (exPar (19 / 2)).getMax (exPar (19 / 2)).getVal) :=
  ⟨by norm_num [Synchronize.pstep, Synchronize.pmax, Synchronize.pmin, exPar, exHeap],
    by norm_num [Synchronize.pstep, Synchronize.pmax, Synchronize.pmin, exPar, exHeap],
    by norm_num [defaultStep], by norm_num [defaultStep],
    C12_default_step (exPar (19 / 2)) rfl (by norm_num [exPar, exHeap])
      (fun _ _ => by norm_num [exPar, exHeap])⟩

/-- C19: for a non-constant parameter with both bounds, no error estimate,
`min < max` and `min ≤ value ≤ max`, the step computed by `Synchronize` is
strictly positive and at most 10% of `max - min`; and there is such a parameter
with its value above `max` for which the step computed is negative. -/
theorem C19_default_step_sign (par : RooAbsArg) (hc : par.isConstant = false)
    (he : par.getError ≤ 0) (hmin : par.hasMin = true) (hmax : par.hasMax = true)
    (hlt : par.getMin < par.getMax) (hlo : par.getMin ≤ par.getVal)
    (hhi : par.getVal ≤ par.getMax) :
    (0 < Synchronize.pstep par ∧
      Synchronize.pstep par ≤ (1 / 10) * (par.getMax - par.getMin)) ∧
    ∃ q : RooAbsArg, q.isConstant = false ∧ q.getError ≤ 0 ∧ q.hasMin = true ∧
      q.hasMax = true ∧ q.getMin < q.getMax ∧ q.getMax < q.getVal ∧
      Synchronize.pstep q < 0 := by
  constructor
  · rw [Synchronize.pstep_bounded par hc he hmin hmax]
    by_cases h1 : par.getMax - par.getVal < 2 * ((1 / 10) * (par.getMax - par.getMin))
    · simp only [h1, if_true]
      by_cases h0 : (par.getMax - par.getVal) / 2 = 0
      · rw [if_pos h0]
        constructor <;> linarith
      · rw [if_neg h0]
        have hpos : 0 < (par.getMax - par.getVal) / 2 := by
          rcases lt_or_gt_of_ne h0 with h | h
          · linarith
          · exact h
        constructor <;> linarith
    · simp only [h1, if_false]
      by_cases h2 : par.getVal - par.getMin < 2 * ((1 / 10) * (par.getMax - par.getMin))
      · simp only [h2, if_true]
        by_cases h0 : (par.getVal - par.getMin) / 2 = 0
        · rw [if_pos h0]
          constructor <;> linarith
        · rw [if_neg h0]
          have hpos : 0 < (par.getVal - par.getMin) / 2 := by
            rcases lt_or_gt_of_ne h0 with h | h
            · linarith
            · exact h
          constructor <;> linarith
      · simp only [h2, if_false]
        have hne : ¬ (1 / 10) * (par.getMax - par.getMin) = 0 := by
          intro h; linarith
        rw [if_neg hne]
        constructor <;> linarith
  · refine ⟨exPar 12, rfl, ?_, rfl, rfl, ?_, ?_, ?_⟩
    · norm_num [exPar, exHeap]
    · norm_num [exPar, exHeap]
    · norm_num [exPar, exHeap]
    · norm_num [Synchronize.pstep, Synchronize.pmax, Synchronize.pmin, exPar, exHeap]

/-- Witness of C19 on the example parameter `a`: bounds `[0, 10]`, value 1. -/
theorem C19_default_step_sign_witness :
    (0 < Synchronize.pstep (exPar 1) ∧
      Synchronize.pstep (exPar 1) ≤ (1 / 10) * ((exPar 1).getMax - (exPar 1).getMin)) ∧
    ∃ q : RooAbsArg, q.isConstant = false ∧ q.getError ≤ 0 ∧ q.hasMin = true ∧
      q.hasMax = true ∧ q.getMin < q.getMax ∧ q.getMax < q.getVal ∧
      Synchronize.pstep q < 0 :=
  C19_default_step_sign (exPar 1) rfl (by norm_num [exPar, exHeap]) rfl rfl
    (by norm_num [exPar, exHeap]) (by norm_num [exPar, exHeap]) (by norm_num [exPar, exHeap])

/-- C20: in the default-step computation of a non-constant parameter with both
bounds, no error estimate and `min ≤ max`, whatever the value: the trim condition
of the upper bound and that of the lower bound never hold together; testing the
lower bound first gives the same step; and the trim that applies is toward the
strictly nearer bound. -/
theorem C20_trims_exclusive (par : RooAbsArg) (hc : par.isConstant = false)
    (he : par.getError ≤ 0) (hmin : par.hasMin = true) (hmax : par.hasMax = true)
    (hr : par.getMin ≤ par.getMax) :
    ¬ (par.getMax - par.getVal < 2 * ((1 / 10) * (par.getMax - par.getMin)) ∧
       par.getVal - par.getMin < 2 * ((1 / 10) * (par.getMax - par.getMin))) ∧
    Synchronize.pstep_lowerFirst par = Synchronize.pstep par ∧
    (par.getMax - par.getVal < 2 * ((1 / 10) * (par.getMax - par.getMin)) →
      par.getMax - par.getVal < par.getVal - par.getMin ∧
      Synchronize.pstep par =
        if (par.getMax - par.getVal) / 2 = 0 then (1 / 10) * (par.getMax - par.getMin)
        else (par.getMax - par.getVal) / 2) ∧
    (par.getVal - par.getMin < 2 * ((1 / 10) * (par.getMax - par.getMin)) →
      par.getVal - par.getMin < par.getMax - par.getVal ∧
      Synchronize.pstep par =
        if (par.getVal - par.getMin) / 2 = 0 then (1 / 10) * (par.getMax - par.getMin)
        else (par.getVal - par.getMin) / 2) := by
  have hex : ¬ (par.getMax - par.getVal < 2 * ((1 / 10) * (par.getMax - par.getMin)) ∧
      par.getVal - par.getMin < 2 * ((1 / 10) * (par.getMax - par.getMin))) := by
    rintro ⟨h1, h2⟩
    linarith
  refine ⟨hex, ?_, ?_, ?_⟩
  · rw [Synchronize.pstep_bounded par hc he hmin hmax]
    simp only [Synchronize.pstep_lowerFirst, Synchronize.pmax, Synchronize.pmin, hc, he, hmin,
      hmax, Bool.not_false, Bool.and_self, if_true]
    by_cases h1 : par.getMax - par.getVal < 2 * ((1 / 10) * (par.getMax - par.getMin))
    · have h2 : ¬ par.getVal - par.getMin < 2 * ((1 / 10) * (par.getMax - par.getMin)) :=
        fun h2 => hex ⟨h1, h2⟩
      simp only [h1, h2, if_true, if_false]
    · by_cases h2 : par.getVal - par.getMin < 2 * ((1 / 10) * (par.getMax - par.getMin))
      · simp only [h1, h2, if_true, if_false]
      · simp only [h1, h2, if_false]
  · intro h1
    refine ⟨by linarith, ?_⟩
    rw [Synchronize.pstep_bounded par hc he hmin hmax]
    simp only [h1, if_true]
  · intro h2
    have h1 : ¬ par.getMax - par.getVal < 2 * ((1 / 10) * (par.getMax - par.getMin)) :=
      fun h1 => hex ⟨h1, h2⟩
    refine ⟨by linarith, ?_⟩
    rw [Synchronize.pstep_bounded par hc he hmin hmax]
    simp only [h1, h2, if_true, if_false]

/-- Witness of C20 on the example parameter with bounds `[0, 10]` and the value 12,
outside the range. -/
theorem C20_trims_exclusive_witness :
    ¬ ((exPar 12).getMax - (exPar 12).getVal
          < 2 * ((1 / 10) * ((exPar 12).getMax - (exPar 12).getMin)) ∧
       (exPar 12).getVal - (exPar 12).getMin
          < 2 * ((1 / 10) * ((exPar 12).getMax - (exPar 12).getMin))) ∧
    Synchronize.pstep_lowerFirst (exPar 12) = Synchronize.pstep (exPar 12) ∧
    ((exPar 12).getMax - (exPar 12).getVal
        < 2 * ((1 / 10) * ((exPar 12).getMax - (exPar 12).getMin)) →
      (exPar 12).getMax - (exPar 12).getVal < (exPar 12).getVal - (exPar 12).getMin ∧
      Synchronize.pstep (exPar 12) =
        if ((exPar 12).getMax - (exPar 12).getVal) / 2 = 0
        then (1 / 10) * ((exPar 12).getMax - (exPar 12).getMin)
        else ((exPar 12).getMax - (exPar 12).getVal) / 2) ∧
    ((exPar 12).getVal - (exPar 12).getMin
        < 2 * ((1 / 10) * ((exPar 12).getMax - (exPar 12).getMin)) →
      (exPar 12).getVal - (exPar 12).getMin < (exPar 12).getMax - (exPar 12).getVal ∧
      Synchronize.pstep (exPar 12) =
        if ((exPar 12).getVal - (exPar 12).getMin) / 2 = 0
        then (1 / 10) * ((exPar 12).getMax - (exPar 12).getMin)
        else ((exPar 12).getVal - (exPar 12).getMin) / 2) :=
  C20_trims_exclusive (exPar 12) rfl (by norm_num [exPar, exHeap]) rfl rfl
    (by norm_num [exPar, exHeap])

end RooMinimizerFcnOpt


/-! ## Further claims on `DoEval` -/

namespace RooMinimizerFcnOpt

/-- Effect of the body of the loop of `DoEval` at position `k` on a state that
agrees at `k` with the state `s0`. -/
theorem DoEval.setParam_at (clip : Clip) (x : List ℚ) (s0 s : RooMinimizerFcnOpt) (k : Nat)
    (hv : s._vars = s0._vars) (hl : s._vals.length = s0._vals.length)
    (hk : k < s0._vals.length)
    (hh : s.heap (s0._vars.getD k nullPtr) = s0.heap (s0._vars.getD k nullPtr))
    (hw : s._vals[k]? = s0._vals[k]?) :
    (DoEval.setParam clip x s k).heap (s0._vars.getD k nullPtr) = DoEval.setParam_arg clip x s0 k ∧
    (DoEval.setParam clip x s k)._vals[k]? = some (DoEval.setParam_val clip x s0 k) := by
  have hd : s._vals.getD k 0 = s0._vals.getD k 0 := by
    simp only [List.getD_eq_getElem?_getD, hw]
  unfold DoEval.setParam DoEval.setParam_val DoEval.setParam_arg
  rw [hd, hv]
  by_cases hc : s0._vals.getD k 0 = x.getD k 0
  · simp only [hc, ne_eq, not_true_eq_false, if_false]
    refine ⟨hh, ?_⟩
    rw [hw, ← hc]
    simp only [List.getD_eq_getElem?_getD, List.getElem?_eq_getElem hk, Option.getD_some]
  · simp only [ne_eq, hc, not_false_eq_true, if_true, Function.update_same, hh]
    exact ⟨trivial, List.getElem?_set_self (by omega)⟩

/-- Effect of the body of the loop of `DoEval` at position `k` on another
position `i` with another parameter: none. -/
theorem DoEval.setParam_other (clip : Clip) (x : List ℚ) (s : RooMinimizerFcnOpt) (i k : Nat)
    (q : Ptr) (hik : i ≠ k) (hq : q ≠ s._vars.getD k nullPtr) :
    (DoEval.setParam clip x s k).heap q = s.heap q ∧
    (DoEval.setParam clip x s k)._vals[i]? = s._vals[i]? := by
  unfold DoEval.setParam
  split
  · exact ⟨Function.update_noteq hq _ _, List.getElem?_set_ne (Ne.symm hik)⟩
  · exact ⟨rfl, rfl⟩

theorem DoEval.setParam_vars (clip : Clip) (x : List ℚ) (s : RooMinimizerFcnOpt) (k : Nat) :
    (DoEval.setParam clip x s k)._vars = s._vars ∧
    (DoEval.setParam clip x s k)._vals.length = s._vals.length := by
  unfold DoEval.setParam
  split
  · exact ⟨rfl, List.length_set _ _ _⟩
  · exact ⟨rfl, rfl⟩

/-- Running the body of the loop of `DoEval` over distinct positions with distinct
parameters leaves, at each of them, the parameter and the cached value described
by `setParam_arg` and `setParam_val` on the state `s0` the run started from. -/
theorem DoEval.foldl_setParam_pointwise (clip : Clip) (x : List ℚ) (s0 : RooMinimizerFcnOpt)
    (n : Nat) (hn : n ≤ s0._vals.length)
    (hinj : ∀ i k, i < n → k < n → i ≠ k →
      s0._vars.getD i nullPtr ≠ s0._vars.getD k nullPtr) :
    ∀ (l : List Nat) (s : RooMinimizerFcnOpt) (D : Nat → Prop),
      l.Nodup → (∀ i ∈ l, i < n ∧ ¬ D i) →
      s._vars = s0._vars → s._vals.length = s0._vals.length →
      (∀ i, i < n → D i →
        s.heap (s0._vars.getD i nullPtr) = DoEval.setParam_arg clip x s0 i ∧
        s._vals[i]? = some (DoEval.setParam_val clip x s0 i)) →
      (∀ i, i < n → ¬ D i →
        s.heap (s0._vars.getD i nullPtr) = s0.heap (s0._vars.getD i nullPtr) ∧
        s._vals[i]? = s0._vals[i]?) →
      ∀ i, i < n → (D i ∨ i ∈ l) →
        (l.foldl (DoEval.setParam clip x) s).heap (s0._vars.getD i nullPtr)
          = DoEval.setParam_arg clip x s0 i ∧
        (l.foldl (DoEval.setParam clip x) s)._vals[i]?
          = some (DoEval.setParam_val clip x s0 i) := by
  intro l
  induction l with
  | nil =>
    intro s D _ _ _ _ hdone _ i hi hor
    rcases hor with h | h
    · exact hdone i hi h
    · simp at h
  | cons k rest ih =>
    intro s D hnd hl hv hlen hdone hfree i hi hor
    rw [List.foldl_cons]
    have hnd' := List.nodup_cons.mp hnd
    obtain ⟨hkn, hkD⟩ := hl k (List.mem_cons_self _ _)
    obtain ⟨hv', hlen'⟩ := DoEval.setParam_vars clip x s k
    apply ih (DoEval.setParam clip x s k) (fun j => D j ∨ j = k) hnd'.2
    · intro j hj
      obtain ⟨hjn, hjD⟩ := hl j (List.mem_cons_of_mem _ hj)
      refine ⟨hjn, ?_⟩
      rintro (h | h)
      · exact hjD h
      · exact hnd'.1 (h ▸ hj)
    · rw [hv', hv]
    · rw [hlen', hlen]
    · intro j hj hD
      rcases hD with hD | rfl
      · have hjk : j ≠ k := fun e => hkD (e ▸ hD)
        obtain ⟨h1, h2⟩ := DoEval.setParam_other clip x s j k (s0._vars.getD j nullPtr) hjk
          (by rw [hv]; exact hinj j k hj hkn hjk)
        rw [h1, h2]
        exact hdone j hj hD
      · obtain ⟨f1, f2⟩ := hfree j hj hkD
        exact DoEval.setParam_at clip x s0 s j hv hlen (by omega) f1 f2
    · intro j hj hD
      have hjk : j ≠ k := fun e => hD (Or.inr e)
      obtain ⟨h1, h2⟩ := DoEval.setParam_other clip x s j k (s0._vars.getD j nullPtr) hjk
        (by rw [hv]; exact hinj j k hj hkn hjk)
      rw [h1, h2]
      exact hfree j hj (fun h => hD (Or.inl h))
    · exact hi
    · rcases hor with h | h
      · exact Or.inl (Or.inl h)
      · rcases List.mem_cons.mp h with rfl | h
        · exact Or.inl (Or.inr rfl)
        · exact Or.inr h

/-- The loop of `DoEval`, position by position, when the first `_nDim` entries of
`_vars` are distinct parameters and the cache has `_nDim` entries. -/
theorem DoEval.setParams_pointwise (clip : Clip) (x : List ℚ) (fcn : RooMinimizerFcnOpt)
    (hdim : fcn._nDim.toNat ≤ fcn._vars.length) (hnodup : fcn._vars.Nodup)
    (hlen : fcn._nDim.toNat ≤ fcn._vals.length) (i : Nat) (hi : i < fcn._nDim.toNat) :
    (DoEval.setParams clip x fcn).heap (fcn._vars.getD i nullPtr)
      = DoEval.setParam_arg clip x fcn i ∧
    (DoEval.setParams clip x fcn)._vals[i]? = some (DoEval.setParam_val clip x fcn i) := by
  unfold DoEval.setParams
  apply DoEval.foldl_setParam_pointwise clip x fcn fcn._nDim.toNat hlen
    (by
      intro a b ha hb hab heq
      have ha' : a < fcn._vars.length := by omega
      have hb' : b < fcn._vars.length := by omega
      simp only [List.getD_eq_getElem?_getD, List.getElem?_eq_getElem ha',
        List.getElem?_eq_getElem hb', Option.getD_some] at heq
      exact hab ((List.Nodup.getElem_inj_iff hnodup).mp heq))
    (List.range fcn._nDim.toNat) fcn (fun _ => False) (List.nodup_range _)
    (fun j hj => ⟨List.mem_range.mp hj, fun h => h⟩) rfl rfl
    (fun j _ h => h.elim) (fun j _ _ => ⟨rfl, rfl⟩) i hi
    (Or.inr (List.mem_range.mpr hi))

/-- C15: `DoEval` keeps the cache committed. If the first `_nDim` entries of
`_vars` are distinct parameters and, before the call, the cached value at every
position is the value of its parameter, then after the call, at every position
`i`: when `x[i]` differs from the cached value, the parameter is the one `setVal`
leaves for `x[i]` (the clipped value); when `x[i]` equals the cached value, the
parameter is not written and its value is `x[i]`; in both cases the cached value
is the actual value of the parameter; and, provided the clipping accepts the
value the parameter held, the value of the parameter is the accepted version of
`x[i]`. -/
theorem C15_cache_committed (funct : Funct) (clip : Clip) (fcn : RooMinimizerFcnOpt)
    (x : List ℚ)
    (hdim : fcn._nDim.toNat ≤ fcn._vars.length) (hnodup : fcn._vars.Nodup)
    (hpre : ∀ i, i < fcn._nDim.toNat →
      fcn._vals[i]? = some (fcn.heap (fcn._vars.getD i nullPtr)).getVal)
    (i : Nat) (hi : i < fcn._nDim.toNat) :
    (fcn._vals.getD i 0 ≠ x.getD i 0 →
      (DoEval funct clip fcn x).2.heap (fcn._vars.getD i nullPtr)
        = RooRealVar.setVal clip (fcn.heap (fcn._vars.getD i nullPtr)) (x.getD i 0)) ∧
    (fcn._vals.getD i 0 = x.getD i 0 →
      (DoEval funct clip fcn x).2.heap (fcn._vars.getD i nullPtr)
        = fcn.heap (fcn._vars.getD i nullPtr) ∧
      ((DoEval funct clip fcn x).2.heap (fcn._vars.getD i nullPtr)).getVal = x.getD i 0) ∧
    (DoEval funct clip fcn x).2._vals[i]?
      = some ((DoEval funct clip fcn x).2.heap (fcn._vars.getD i nullPtr)).getVal ∧
    (clip (fcn.heap (fcn._vars.getD i nullPtr)).hasMin (fcn.heap (fcn._vars.getD i nullPtr)).getMin
        (fcn.heap (fcn._vars.getD i nullPtr)).hasMax (fcn.heap (fcn._vars.getD i nullPtr)).getMax
        (fcn.heap (fcn._vars.getD i nullPtr)).getVal
        = (fcn.heap (fcn._vars.getD i nullPtr)).getVal →
      ((DoEval funct clip fcn x).2.heap (fcn._vars.getD i nullPtr)).getVal
        = clip (fcn.heap (fcn._vars.getD i nullPtr)).hasMin
            (fcn.heap (fcn._vars.getD i nullPtr)).getMin
            (fcn.heap (fcn._vars.getD i nullPtr)).hasMax
            (fcn.heap (fcn._vars.getD i nullPtr)).getMax (x.getD i 0)) := by
  have hlen : fcn._nDim.toNat ≤ fcn._vals.length := by
    by_contra hcon
    have hz : fcn._vals.length < fcn._nDim.toNat := by omega
    have := hpre fcn._vals.length hz
    rw [List.getElem?_eq_none (Nat.le_refl _)] at this
    cases this
  obtain ⟨hh, _, hw, _⟩ := DoEval_snd funct clip fcn x
  obtain ⟨h1, h2⟩ := DoEval.setParams_pointwise clip x fcn hdim hnodup hlen i hi
  have hcur : fcn._vals.getD i 0 = (fcn.heap (fcn._vars.getD i nullPtr)).getVal := by
    simp only [List.getD_eq_getElem?_getD, hpre i hi, Option.getD_some]
  rw [hh, hw, h1, h2]
  unfold DoEval.setParam_val DoEval.setParam_arg
  by_cases hc : fcn._vals.getD i 0 = x.getD i 0
  · have hx : (fcn.heap (fcn._vars.getD i nullPtr)).getVal = x.getD i 0 := by
      rw [← hcur, hc]
    have hn : ¬ (fcn._vals.getD i 0 ≠ x.getD i 0) := fun h => h hc
    simp only [if_neg hn]
    refine ⟨fun h => (h hc).elim, fun _ => ?_, ?_, ?_⟩
    · exact ⟨trivial, hx⟩
    · rw [hcur]
    · intro h
      rw [← hx, h]
  · have hn : fcn._vals.getD i 0 ≠ x.getD i 0 := hc
    simp only [if_pos hn]
    refine ⟨?_, fun h => (hc h).elim, ?_, ?_⟩
    · intros
      trivial
    · trivial
    · intros
      trivial

/-- Witness of C15: `a`, bounded by `[0, 10]` and cached at its value 1, is sent
to 12; the parameter takes the clipped value 10 and the cache holds 10. -/
theorem C15_cache_committed_witness :
    (exFcn [1] [])._nDim.toNat ≤ (exFcn [1] [])._vars.length ∧
    (exFcn [1] [])._vars.Nodup ∧
    (∀ i, i < (exFcn [1] [])._nDim.toNat →
      (exFcn [1] [])._vals[i]?
        = some ((exFcn [1] []).heap ((exFcn [1] [])._vars.getD i nullPtr)).getVal) ∧
    ((DoEval exFunct clipToRange (exFcn [1] []) [12]).2.heap 1).getVal = 10 ∧
    (DoEval exFunct clipToRange (exFcn [1] []) [12]).2._vals = [10] ∧
    (((exFcn [1] [])._vals.getD 0 0 ≠ ([12] : List ℚ).getD 0 0 →
      (DoEval exFunct clipToRange (exFcn [1] []) [12]).2.heap ((exFcn [1] [])._vars.getD 0 nullPtr)
        = RooRealVar.setVal clipToRange ((exFcn [1] []).heap ((exFcn [1] [])._vars.getD 0 nullPtr))
            (([12] : List ℚ).getD 0 0)) ∧
    ((exFcn [1] [])._vals.getD 0 0 = ([12] : List ℚ).getD 0 0 →
      (DoEval exFunct clipToRange (exFcn [1] []) [12]).2.heap ((exFcn [1] [])._vars.getD 0 nullPtr)
        = (exFcn [1] []).heap ((exFcn [1] [])._vars.getD 0 nullPtr) ∧
      ((DoEval exFunct clipToRange (exFcn [1] []) [12]).2.heap
        ((exFcn [1] [])._vars.getD 0 nullPtr)).getVal = ([12] : List ℚ).getD 0 0) ∧
    (DoEval exFunct clipToRange (exFcn [1] []) [12]).2._vals[0]?
      = some ((DoEval exFunct clipToRange (exFcn [1] []) [12]).2.heap
          ((exFcn [1] [])._vars.getD 0 nullPtr)).getVal ∧
    (clipToRange ((exFcn [1] []).heap ((exFcn [1] [])._vars.getD 0 nullPtr)).hasMin
        ((exFcn [1] []).heap ((exFcn [1] [])._vars.getD 0 nullPtr)).getMin
        ((exFcn [1] []).heap ((exFcn [1] [])._vars.getD 0 nullPtr)).hasMax
        ((exFcn [1] []).heap ((exFcn [1] [])._vars.getD 0 nullPtr)).getMax
        ((exFcn [1] []).heap ((exFcn [1] [])._vars.getD 0 nullPtr)).getVal
        = ((exFcn [1] []).heap ((exFcn [1] [])._vars.getD 0 nullPtr)).getVal →
      ((DoEval exFunct clipToRange (exFcn [1] []) [12]).2.heap
          ((exFcn [1] [])._vars.getD 0 nullPtr)).getVal
        = clipToRange ((exFcn [1] []).heap ((exFcn [1] [])._vars.getD 0 nullPtr)).hasMin
            ((exFcn [1] []).heap ((exFcn [1] [])._vars.getD 0 nullPtr)).getMin
            ((exFcn [1] []).heap ((exFcn [1] [])._vars.getD 0 nullPtr)).hasMax
            ((exFcn [1] []).heap ((exFcn [1] [])._vars.getD 0 nullPtr)).getMax
            (([12] : List ℚ).getD 0 0))) :=
  ⟨by decide, by decide, by decide, by decide, by decide,
    C15_cache_committed exFunct clipToRange (exFcn [1] []) [12] (by decide) (by decide)
      (by decide) 0 (by decide)⟩

/-- The running maximum after one call of `DoEval`: kept on an erroneous
evaluation, raised to the value returned otherwise. -/
theorem DoEval_maxFCN (funct : Funct) (clip : Clip) (fcn : RooMinimizerFcnOpt) (x : List ℚ) :
    (hasEvalError (DoEval.evaluated funct clip fcn x) = true →
      (DoEval funct clip fcn x).2._maxFCN = fcn._maxFCN) ∧
    (hasEvalError (DoEval.evaluated funct clip fcn x) = false →
      (DoEval funct clip fcn x).2._maxFCN = max fcn._maxFCN (DoEval funct clip fcn x).1) := by
  obtain ⟨h, v, hs⟩ := DoEval.setParams_fields clip x fcn
  have hm : (DoEval.evaluated funct clip fcn x)._maxFCN = fcn._maxFCN := by
    simp only [DoEval.evaluated, hs]
  constructor
  · intro he
    exact (DoEval_snd funct clip fcn x).2.2.2.2.2.2 he
  · intro he
    unfold DoEval
    simp only [he, Bool.false_eq_true, if_false, hm]
    by_cases hgt : (funct (DoEval.setParams clip x fcn)).getVal > fcn._maxFCN
    · simp only [hgt, if_true]
      exact (max_eq_right (le_of_lt hgt)).symm
    · simp only [hgt, if_false, hm]
      exact (max_eq_left (not_lt.mp hgt)).symm

/-- C16: the running maximum `_maxFCN` never decreases. One call of `DoEval`
leaves it unchanged on an erroneous evaluation and equal to the maximum of its
former value and the value returned on an error-free one; over any sequence of
calls it does not decrease, and it ends at least as large as every value an
error-free evaluation of the sequence returned. -/
theorem C16_running_maximum_monotone (funct : Funct) (clip : Clip) :
    (∀ (fcn : RooMinimizerFcnOpt) (x : List ℚ),
      (hasEvalError (DoEval.evaluated funct clip fcn x) = true →
        (DoEval funct clip fcn x).2._maxFCN = fcn._maxFCN) ∧
      (hasEvalError (DoEval.evaluated funct clip fcn x) = false →
        (DoEval funct clip fcn x).2._maxFCN = max fcn._maxFCN (DoEval funct clip fcn x).1)) ∧
    (∀ (xs : List (List ℚ)) (fcn : RooMinimizerFcnOpt),
      fcn._maxFCN ≤ (DoEval.calls funct clip fcn xs).2._maxFCN) ∧
    (∀ (xs : List (List ℚ)) (fcn : RooMinimizerFcnOpt) (v : ℚ),
      (v, false) ∈ (DoEval.calls funct clip fcn xs).1 →
      v ≤ (DoEval.calls funct clip fcn xs).2._maxFCN) := by
  have step : ∀ (fcn : RooMinimizerFcnOpt) (x : List ℚ),
      fcn._maxFCN ≤ (DoEval funct clip fcn x).2._maxFCN := by
    intro fcn x
    obtain ⟨h1, h2⟩ := DoEval_maxFCN funct clip fcn x
    cases he : hasEvalError (DoEval.evaluated funct clip fcn x) with
    | true => rw [h1 he]
    | false => rw [h2 he]; exact le_max_left _ _
  have mono : ∀ (xs : List (List ℚ)) (fcn : RooMinimizerFcnOpt),
      fcn._maxFCN ≤ (DoEval.calls funct clip fcn xs).2._maxFCN := by
    intro xs
    induction xs with
    | nil => intro fcn; exact le_refl _
    | cons x rest ih =>
      intro fcn
      simp only [DoEval.calls]
      exact le_trans (step fcn x) (ih _)
  refine ⟨fun fcn x => DoEval_maxFCN funct clip fcn x, mono, ?_⟩
  intro xs
  induction xs with
  | nil => intro fcn v hv; simp [DoEval.calls] at hv
  | cons x rest ih =>
    intro fcn v hv
    simp only [DoEval.calls, List.mem_cons, Prod.mk.injEq] at hv ⊢
    rcases hv with ⟨hv1, hv2⟩ | hv
    · have h2 := (DoEval_maxFCN funct clip fcn x).2 hv2.symm
      have : v ≤ (DoEval funct clip fcn x).2._maxFCN := by
        rw [h2, hv1]
        exact le_max_right _ _
      exact le_trans this (mono rest _)
    · exact ih _ v hv

end RooMinimizerFcnOpt


/-! ## Claims on `edm` -/

namespace RooMinimizerOpt

/-- No operation of the driver assigns the pointer `_theFitter`. -/
theorem operations_keep_theFitter (E : Engine) (m : RooMinimizerOpt) (type : String)
    (alg : Option String) (minosParamList : List Ptr) :
    ∀ r ∈ [minimize E m type alg, improve E m, migrad E m, hesse E m, minos E m,
        minos_list E m minosParamList],
      ∀ (status : Int) (m1 : RooMinimizerOpt), r = .ok (status, m1) →
        m1._theFitter = m._theFitter := by
  intro r hr status m1 hm
  simp only [List.mem_cons, List.mem_singleton, List.not_mem_nil, or_false] at hr
  rcases hr with rfl | rfl | rfl | rfl | rfl | rfl
  · unfold minimize at hm
    split at hm
    · cases hm
    · simp only [Except.ok.injEq, Prod.mk.injEq] at hm
      rw [← hm.2]
  · unfold improve at hm
    split at hm
    · cases hm
    · simp only [Except.ok.injEq, Prod.mk.injEq] at hm
      rw [← hm.2]
  · unfold migrad at hm
    split at hm
    · cases hm
    · simp only [Except.ok.injEq, Prod.mk.injEq] at hm
      rw [← hm.2]
  · unfold hesse at hm
    split at hm
    · simp only [noMinimizer, Except.ok.injEq, Prod.mk.injEq] at hm
      rw [← hm.2]
    · split at hm
      · cases hm
      · simp only [Except.ok.injEq, Prod.mk.injEq] at hm
        rw [← hm.2]
  · unfold minos at hm
    split at hm
    · simp only [noMinimizer, Except.ok.injEq, Prod.mk.injEq] at hm
      rw [← hm.2]
    · split at hm
      · cases hm
      · simp only [Except.ok.injEq, Prod.mk.injEq] at hm
        rw [← hm.2]
  · unfold minos_list at hm
    split at hm
    · simp only [noMinimizer, Except.ok.injEq, Prod.mk.injEq] at hm
      rw [← hm.2]
    · split at hm
      · split at hm
        · cases hm
        · simp only at hm
          split at hm
          · simp only [Except.ok.injEq, Prod.mk.injEq] at hm
            rw [← hm.2]
          · simp only [Except.ok.injEq, Prod.mk.injEq] at hm
            rw [← hm.2]
      · simp only [Except.ok.injEq, Prod.mk.injEq] at hm
        rw [← hm.2]

/-- After the constructor, and after any operation of the driver on a state in
which `_theFitter` is null, `edm()` throws. -/
theorem edm_throws (E : Engine) (m : RooMinimizerOpt) (type : String)
    (alg : Option String) (minosParamList : List Ptr) (h : m._theFitter = false) :
    edm m = .error "Must have done a fit before calling edm()" ∧
    ∀ r ∈ [minimize E m type alg, improve E m, migrad E m, hesse E m, minos E m,
        minos_list E m minosParamList],
      ∀ (status : Int) (m1 : RooMinimizerOpt), r = .ok (status, m1) →
        edm m1 = .error "Must have done a fit before calling edm()" := by
  constructor
  · simp [edm, h]
  · intro r hr status m1 hm
    have := operations_keep_theFitter E m type alg minosParamList r hr status m1 hm
    simp [edm, this, h]

/-- C11, evaluated at the failing input: a minimizer is constructed over a base
object whose `_theFitter` was set, and `migrad()` runs with an engine that
succeeds. Before the fit `edm()` throws, as claimed. After the fit the engine
holds a minimizer and a result, but `_theFitter`, which the constructor set to
null, is assigned by no operation: `edm()` throws the same error. -/
theorem C11_edm_throws_after_migrad :
    exBase._theFitter = true ∧
    edm (ctor exBaseSynchronize true exBase (exFcn [1, 2] [3]))
      = .error "Must have done a fit before calling edm()" ∧
    ∃ m1, migrad exEngine (ctor exBaseSynchronize true exBase (exFcn [1, 2] [3]))
        = .ok (0, m1) ∧
      m1.theFitter.GetMinimizer = true ∧ m1._statusHistory = [("MIGRAD", 0)] ∧
      edm m1 = .error "Must have done a fit before calling edm()" :=
  ⟨rfl, rfl, _, rfl, rfl, rfl, rfl⟩

end RooMinimizerOpt

/-! ## Idempotence of `Synchronize` -/

namespace RooMinimizerFcnOpt

end RooMinimizerFcnOpt

namespace RooMinimizerFcnOpt

end RooMinimizerFcnOpt
